import Mathlib

/-
Verification of the SoccerGame semaphore synchronization core
(src/unnamed/part_000 = player module, src/semaphore_soccergame/src/
semSharedMemGoalie.c = goalie module).

Two complementary embeddings are developed:

1. a sequential, per-process trace embedding: each routine of the two
   modules is translated into a Lean function that returns the exact
   sequence of semaphore operations / status writes / saveState calls
   the routine performs, together with the shared-state update it makes
   and its return value.  Structural claims about the code (pairing of
   releases and acknowledgments, lock discipline, quota counts, the
   late path, frame conditions) are settled on these traces.

2. a concurrent small-step semantics: every player and goalie process
   is a control-state machine whose transitions are the maximal
   non-blocking segments of the corresponding C routine; semaphores are
   counters (the two recruitment semaphores carry a ghost tag naming
   the captain that issued each credit), the mutex serializes critical
   sections.  A global inductive invariant settles the claims about
   team-id assignment, team capacity, and the per-actor life cycle.
-/

set_option maxHeartbeats 1000000

namespace SoccerGame

/-- Actor status values, mirroring the status constants used by the two
modules (ARRIVING, FORMING_TEAM, WAITING_TEAM, LATE, WAITING_START_1,
WAITING_START_2, PLAYING_1, PLAYING_2), plus the value a status slot
holds before its first write. -/
inductive Status
  | unset
  | arriving
  | formingTeam
  | waitingTeam
  | late
  | waitingStart1
  | waitingStart2
  | playing1
  | playing2
  deriving DecidableEq, Repr

/-- The semaphores of the shared synchronization region
(sharedDataSync.h fields accessed by the two modules). -/
inductive SemId
  | mutex
  | playersWaitTeam
  | goaliesWaitTeam
  | playerRegistered
  | refereeWaitTeams
  | playersWaitReferee
  | playersWaitEnd
  | playing
  deriving DecidableEq, Repr

/-- Observable primitive events a routine performs, in program order:
semaphore operations, per-actor status writes, and saveState calls. -/
inductive Ev
  | semDown (s : SemId)
  | semUp (s : SemId)
  | setPlayerStat (id : Nat) (st : Status)
  | setGoalieStat (id : Nat) (st : Status)
  | saveState
  deriving DecidableEq, Repr

/-- Configuration constants of probConst.h.  The header is not under
src/, so the constants stay parameters; the scenario in the spec uses
NUMTEAMPLAYERS = 5, NUMTEAMGOALIES = 1, NUMPLAYERS = 11, NUMGOALIES = 3. -/
structure Config where
  NUMTEAMPLAYERS : Nat
  NUMTEAMGOALIES : Nat
  NUMPLAYERS : Nat
  NUMGOALIES : Nat
  deriving DecidableEq, Repr

/-- The shared match state fields accessed by the two modules
(probDataStruct.h: FULL_STAT): arrival/free counters of both kinds, the
team-id counter, and the per-actor status arrays. -/
structure FSt where
  playersArrived : Int
  playersFree : Int
  goaliesArrived : Int
  goaliesFree : Int
  teamId : Int
  playerStat : Nat → Status
  goalieStat : Nat → Status

/-- Write one player's status slot. -/
def FSt.setPStat (s : FSt) (id : Nat) (st : Status) : FSt :=
  { s with playerStat := fun j => if j = id then st else s.playerStat j }

/-- Write one goalie's status slot. -/
def FSt.setGStat (s : FSt) (id : Nat) (st : Status) : FSt :=
  { s with goalieStat := fun j => if j = id then st else s.goalieStat j }

/-- WAITING_START status selected by team value, following the
`if (team == 1) ... else if (team == 2) ...` shape of waitReferee
(no write for any other team value). -/
def wsStatusOf (team : Int) : Option Status :=
  if team = 1 then some .waitingStart1
  else if team = 2 then some .waitingStart2
  else none

/-- PLAYING status selected by team value, following the same shape in
playUntilEnd. -/
def playingStatusOf (team : Int) : Option Status :=
  if team = 1 then some .playing1
  else if team = 2 then some .playing2
  else none

/-- Sequential execution of `arrive` of the player module
(src/unnamed/part_000, lines 140-157): enter the critical region, write
ARRIVING, save, leave.  The usleep performs no shared access. -/
def arriveRunP (s0 : FSt) (id : Nat) : List Ev × FSt :=
  ([Ev.semDown .mutex, Ev.setPlayerStat id .arriving, Ev.saveState, Ev.semUp .mutex],
   s0.setPStat id .arriving)

/-- Sequential execution of `arrive` of the goalie module
(semSharedMemGoalie.c, lines 138-154). -/
def arriveRunG (s0 : FSt) (id : Nat) : List Ev × FSt :=
  ([Ev.semDown .mutex, Ev.setGoalieStat id .arriving, Ev.saveState, Ev.semUp .mutex],
   s0.setGStat id .arriving)

/-- Sequential execution of `playerConstituteTeam`
(src/unnamed/part_000, lines 174-276).  Returns the event trace in
program order, the shared state as updated by this process, and the
returned team id.  In the captain branch the loop at lines 196-209
releases one waiting player and waits for one registration per
iteration (NUMTEAMPLAYERS - 1 iterations), then lines 214-223 release
the single goalie and wait once more; playersFree is decremented at
line 211, goaliesFree at line 225, and the returned team id is teamId
before the post-increment of line 226.  In the recruit branch the
process blocks on playersWaitTeam after leaving the critical region,
reads teamId and signals playerRegistered (lines 249-263; in this
single-process view the teamId read is the threaded state's value).
In the late branch (lines 236-241) LATE is written, playersFree is
decremented back, and no event follows the mutex release. -/
def playerConstituteTeamRun (cfg : Config) (s0 : FSt) (id : Nat) :
    List Ev × FSt × Int :=
  let s1 : FSt := { s0 with playersArrived := s0.playersArrived + 1,
                            playersFree := s0.playersFree + 1 }
  if s1.playersArrived ≤ 2 * (cfg.NUMTEAMPLAYERS : Int) then
    if (cfg.NUMTEAMPLAYERS : Int) ≤ s1.playersFree ∧
       (cfg.NUMTEAMGOALIES : Int) ≤ s1.goaliesFree then
      let s2 := s1.setPStat id .formingTeam
      let s3 : FSt := { s2 with playersFree := s2.playersFree - (cfg.NUMTEAMPLAYERS : Int) }
      let s4 : FSt := { s3 with goaliesFree := s3.goaliesFree - (cfg.NUMTEAMGOALIES : Int) }
      let ret := s4.teamId
      let s5 : FSt := { s4 with teamId := s4.teamId + 1 }
      ([Ev.semDown .mutex, Ev.setPlayerStat id .formingTeam]
        ++ (List.replicate (cfg.NUMTEAMPLAYERS - 1)
              [Ev.semUp .playersWaitTeam, Ev.semDown .playerRegistered]).flatten
        ++ [Ev.semUp .goaliesWaitTeam, Ev.semDown .playerRegistered,
            Ev.saveState, Ev.semUp .mutex, Ev.semUp .refereeWaitTeams],
       s5, ret)
    else
      let s2 := s1.setPStat id .waitingTeam
      ([Ev.semDown .mutex, Ev.setPlayerStat id .waitingTeam, Ev.saveState,
        Ev.semUp .mutex, Ev.semDown .playersWaitTeam, Ev.semUp .playerRegistered],
       s2, s2.teamId)
  else
    let s2 := (s1.setPStat id .late)
    let s3 : FSt := { s2 with playersFree := s2.playersFree - 1 }
    ([Ev.semDown .mutex, Ev.setPlayerStat id .late, Ev.saveState, Ev.semUp .mutex],
     s3, 0)

/-- Sequential execution of `goalieConstituteTeam`
(semSharedMemGoalie.c, lines 171-258).  In the captain branch
goaliesFree is decremented at line 190 before any release, the loop at
lines 192-199 performs all NUMTEAMPLAYERS playersWaitTeam releases,
the separate loop at lines 201-207 then collects all NUMTEAMPLAYERS
registrations, playersFree is decremented at line 209 and the returned
team id is teamId before the post-increment of line 210. -/
def goalieConstituteTeamRun (cfg : Config) (s0 : FSt) (id : Nat) :
    List Ev × FSt × Int :=
  let s1 : FSt := { s0 with goaliesFree := s0.goaliesFree + 1,
                            goaliesArrived := s0.goaliesArrived + 1 }
  if s1.goaliesArrived ≤ 2 * (cfg.NUMTEAMGOALIES : Int) then
    if (cfg.NUMTEAMPLAYERS : Int) ≤ s1.playersFree ∧
       (cfg.NUMTEAMGOALIES : Int) ≤ s1.goaliesFree then
      let s2 := s1.setGStat id .formingTeam
      let s3 : FSt := { s2 with goaliesFree := s2.goaliesFree - (cfg.NUMTEAMGOALIES : Int) }
      let s4 : FSt := { s3 with playersFree := s3.playersFree - (cfg.NUMTEAMPLAYERS : Int) }
      let ret := s4.teamId
      let s5 : FSt := { s4 with teamId := s4.teamId + 1 }
      ([Ev.semDown .mutex, Ev.setGoalieStat id .formingTeam]
        ++ List.replicate cfg.NUMTEAMPLAYERS (Ev.semUp .playersWaitTeam)
        ++ List.replicate cfg.NUMTEAMPLAYERS (Ev.semDown .playerRegistered)
        ++ [Ev.saveState, Ev.semUp .mutex, Ev.semUp .refereeWaitTeams],
       s5, ret)
    else
      let s2 := s1.setGStat id .waitingTeam
      ([Ev.semDown .mutex, Ev.setGoalieStat id .waitingTeam, Ev.saveState,
        Ev.semUp .mutex, Ev.semDown .goaliesWaitTeam, Ev.semUp .playerRegistered],
       s2, s2.teamId)
  else
    let s2 := (s1.setGStat id .late)
    let s3 : FSt := { s2 with goaliesFree := s2.goaliesFree - 1 }
    ([Ev.semDown .mutex, Ev.setGoalieStat id .late, Ev.saveState, Ev.semUp .mutex],
     s3, 0)

/-- Sequential execution of `waitReferee` of the player module
(src/unnamed/part_000, lines 287-314): under the lock, write
WAITING_START_1 or WAITING_START_2 according to the team argument (no
write for any other value), save, leave the critical region, then block
on playersWaitReferee. -/
def waitRefereeRunP (s0 : FSt) (id : Nat) (team : Int) : List Ev × FSt :=
  ([Ev.semDown .mutex]
    ++ ((wsStatusOf team).map (Ev.setPlayerStat id)).toList
    ++ [Ev.saveState, Ev.semUp .mutex, Ev.semDown .playersWaitReferee],
   match wsStatusOf team with
   | some st => s0.setPStat id st
   | none => s0)

/-- Sequential execution of `playUntilEnd` of the player module
(src/unnamed/part_000, lines 325-354): under the lock, write PLAYING_1
or PLAYING_2, signal playing, save, leave, then block on
playersWaitEnd. -/
def playUntilEndRunP (s0 : FSt) (id : Nat) (team : Int) : List Ev × FSt :=
  ([Ev.semDown .mutex]
    ++ ((playingStatusOf team).map (Ev.setPlayerStat id)).toList
    ++ [Ev.semUp .playing, Ev.saveState, Ev.semUp .mutex, Ev.semDown .playersWaitEnd],
   match playingStatusOf team with
   | some st => s0.setPStat id st
   | none => s0)

/-- Sequential execution of `waitReferee` of the goalie module
(semSharedMemGoalie.c, lines 269-295). -/
def waitRefereeRunG (s0 : FSt) (id : Nat) (team : Int) : List Ev × FSt :=
  ([Ev.semDown .mutex]
    ++ ((wsStatusOf team).map (Ev.setGoalieStat id)).toList
    ++ [Ev.saveState, Ev.semUp .mutex, Ev.semDown .playersWaitReferee],
   match wsStatusOf team with
   | some st => s0.setGStat id st
   | none => s0)

/-- Sequential execution of `playUntilEnd` of the goalie module
(semSharedMemGoalie.c, lines 306-335): here the playing signal at line
313 precedes the status write of lines 318-322. -/
def playUntilEndRunG (s0 : FSt) (id : Nat) (team : Int) : List Ev × FSt :=
  ([Ev.semDown .mutex, Ev.semUp .playing]
    ++ ((playingStatusOf team).map (Ev.setGoalieStat id)).toList
    ++ [Ev.saveState, Ev.semUp .mutex, Ev.semDown .playersWaitEnd],
   match playingStatusOf team with
   | some st => s0.setGStat id st
   | none => s0)

/-- The event trace of one player's whole life cycle as driven by main
(src/unnamed/part_000, lines 117-122): arrive, constitute a team, and
only when the returned team id is nonzero, waitReferee then
playUntilEnd. -/
def playerLifeEvents (cfg : Config) (s0 : FSt) (id : Nat) : List Ev :=
  let a := arriveRunP s0 id
  let c := playerConstituteTeamRun cfg a.2 id
  if c.2.2 ≠ 0 then
    let w := waitRefereeRunP c.2.1 id c.2.2
    a.1 ++ c.1 ++ w.1 ++ (playUntilEndRunP w.2 id c.2.2).1
  else
    a.1 ++ c.1

/-- The event trace of one goalie's whole life cycle as driven by main
(semSharedMemGoalie.c, lines 116-120). -/
def goalieLifeEvents (cfg : Config) (s0 : FSt) (id : Nat) : List Ev :=
  let a := arriveRunG s0 id
  let c := goalieConstituteTeamRun cfg a.2 id
  if c.2.2 ≠ 0 then
    let w := waitRefereeRunG c.2.1 id c.2.2
    a.1 ++ c.1 ++ w.1 ++ (playUntilEndRunG w.2 id c.2.2).1
  else
    a.1 ++ c.1

/-! Trace predicates for the structural claims. -/

/-- Scan of an event trace checking that no blocking wait happens while
the mutual-exclusion lock is held: d counts the mutex acquisitions
currently held; every semDown on a semaphore other than the mutex must
happen with d = 0. -/
def noWaitWhileLocked : List Ev → Nat → Bool
  | [], _ => true
  | Ev.semDown .mutex :: rest, d => noWaitWhileLocked rest (d + 1)
  | Ev.semUp .mutex :: rest, d => noWaitWhileLocked rest (d - 1)
  | Ev.semDown _ :: rest, d => (d == 0) && noWaitWhileLocked rest d
  | _ :: rest, d => noWaitWhileLocked rest d

/-- The lock discipline the code follows: a blocking wait on
playerRegistered (a captain collecting a registration acknowledgment)
happens with the mutex held (depth exactly 1); every other blocking
wait happens with the mutex free (depth 0). -/
def lockDiscipline : List Ev → Nat → Bool
  | [], _ => true
  | Ev.semDown .mutex :: rest, d => lockDiscipline rest (d + 1)
  | Ev.semUp .mutex :: rest, d => lockDiscipline rest (d - 1)
  | Ev.semDown .playerRegistered :: rest, d => (d == 1) && lockDiscipline rest d
  | Ev.semDown _ :: rest, d => (d == 0) && lockDiscipline rest d
  | _ :: rest, d => lockDiscipline rest d

/-- Recruitment releases (the two recruitment semaphore signals). -/
def isReleaseEv : Ev → Bool
  | .semUp .playersWaitTeam => true
  | .semUp .goaliesWaitTeam => true
  | _ => false

/-- Registration-acknowledgment waits (captain side). -/
def isAckWaitEv : Ev → Bool
  | .semDown .playerRegistered => true
  | _ => false

/-- All events of the captain-recruit handshake. -/
def isHandshakeEv (e : Ev) : Bool := isReleaseEv e || isAckWaitEv e

/-- Strict one-to-one alternation release, ack, release, ack, ...
(exactly one release-then-wait pair per recruit, never batched). -/
def strictPairs : List Ev → Bool
  | [] => true
  | [_] => false
  | r :: a :: rest => isReleaseEv r && isAckWaitEv a && strictPairs rest

/-- Tests whether the first status write of a trace precedes the first
playing signal. -/
def marksBeforePlayingSignal (tr : List Ev) : Bool :=
  match tr.findIdx? (fun e => match e with
                    | .setPlayerStat _ _ => true
                    | .setGoalieStat _ _ => true
                    | _ => false),
        tr.findIdx? (fun e => e == Ev.semUp .playing) with
  | some i, some j => i < j
  | _, _ => false

/-! Concrete inputs used by counterexamples and witnesses. -/

/-- All-unset status array. -/
def stat0 : Nat → Status := fun _ => .unset

/-- The configuration of the spec's scenario: 5 players and 1 goalie
per team, pools of 11 players and 3 goalies. -/
def cfgStd : Config := ⟨5, 1, 11, 3⟩

/-- Shared state in which the next arriving player becomes captain
under cfgStd (its arrival makes 10 ≤ 10 players arrived, 5 free players
and 1 free goalie). -/
def preCapP : FSt := ⟨9, 4, 2, 1, 1, stat0, stat0⟩

/-- Shared state in which the next arriving goalie becomes captain
under cfgStd. -/
def preCapG : FSt := ⟨10, 5, 1, 0, 1, stat0, stat0⟩

/-- Shared state in which the next arriving player is late under cfgStd
(11th player). -/
def preLateP : FSt := ⟨10, 0, 2, 0, 3, stat0, stat0⟩

/-- A configuration with two goalies per team. -/
def cfg62 : Config := ⟨5, 2, 11, 3⟩

/-- Shared state in which the next arriving player becomes captain
under cfg62. -/
def preCapP2 : FSt := ⟨9, 4, 2, 2, 1, stat0, stat0⟩

/-! Helper lemmas about traces built from replicated segments. -/

lemma lockDiscipline_pairs (n : Nat) (rest : List Ev) :
    lockDiscipline
      ((List.replicate n [Ev.semUp .playersWaitTeam, Ev.semDown .playerRegistered]).flatten
        ++ rest) 1 = lockDiscipline rest 1 := by
  induction n with
  | zero => simp
  | succ k ih => simpa [List.replicate_succ, lockDiscipline] using ih

lemma lockDiscipline_reps_up (n : Nat) (rest : List Ev) (d : Nat) :
    lockDiscipline (List.replicate n (Ev.semUp .playersWaitTeam) ++ rest) d =
      lockDiscipline rest d := by
  induction n with
  | zero => simp
  | succ k ih => simpa [List.replicate_succ, lockDiscipline] using ih

lemma lockDiscipline_reps_down (n : Nat) (rest : List Ev) :
    lockDiscipline (List.replicate n (Ev.semDown .playerRegistered) ++ rest) 1 =
      lockDiscipline rest 1 := by
  induction n with
  | zero => simp
  | succ k ih => simpa [List.replicate_succ, lockDiscipline] using ih

lemma filter_handshake_pairs (n : Nat) (rest : List Ev) :
    (((List.replicate n [Ev.semUp .playersWaitTeam, Ev.semDown .playerRegistered]).flatten
        ++ rest).filter isHandshakeEv) =
      (List.replicate n [Ev.semUp .playersWaitTeam, Ev.semDown .playerRegistered]).flatten
        ++ rest.filter isHandshakeEv := by
  induction n with
  | zero => simp
  | succ k ih =>
    simp [List.replicate_succ, isHandshakeEv, isReleaseEv, isAckWaitEv, ih]

lemma strictPairs_pairs (n : Nat) (rest : List Ev) (h : strictPairs rest = true) :
    strictPairs
      ((List.replicate n [Ev.semUp .playersWaitTeam, Ev.semDown .playerRegistered]).flatten
        ++ rest) = true := by
  induction n with
  | zero => simpa using h
  | succ k ih =>
    simpa [List.replicate_succ, strictPairs, isReleaseEv, isAckWaitEv] using ih

lemma count_pairs_up (n : Nat) :
    ((List.replicate n [Ev.semUp .playersWaitTeam, Ev.semDown .playerRegistered]).flatten).count
      (Ev.semUp .playersWaitTeam) = n := by
  induction n with
  | zero => simp
  | succ k ih => simp [List.replicate_succ, List.count_cons, ih]

lemma count_pairs_upG (n : Nat) :
    ((List.replicate n [Ev.semUp .playersWaitTeam, Ev.semDown .playerRegistered]).flatten).count
      (Ev.semUp .goaliesWaitTeam) = 0 := by
  induction n with
  | zero => simp
  | succ k ih => simp [List.replicate_succ, List.count_cons, ih]

/-! ### Claim C1 — the registration handshake pairing -/

/-- Claim C1 counterexample: under the spec's scenario configuration,
the goalie-captain path does not perform strictly sequential
release-then-wait pairs: its handshake events are all five releases
first, then all five acknowledgment waits, so the strict pairing
predicate fails on its trace. -/
theorem c1_goalie_captain_batches :
    strictPairs (((goalieConstituteTeamRun cfgStd preCapG 0).1).filter isHandshakeEv)
      = false := by decide

/-- Claim C1, amended: the player-captain path does interleave exactly
one release-then-wait pair per recruit (NUMTEAMPLAYERS - 1 player pairs
followed by the single goalie pair); the goalie-captain path instead
releases all NUMTEAMPLAYERS player recruits first and only then
collects the NUMTEAMPLAYERS registration acknowledgments (still one
release and one acknowledgment per recruit in total, but batched). -/
theorem c1_amended_handshake_shape (cfg : Config) (s : FSt) (id : Nat) :
    (s.playersArrived + 1 ≤ 2 * (cfg.NUMTEAMPLAYERS : Int) →
     (cfg.NUMTEAMPLAYERS : Int) ≤ s.playersFree + 1 →
     (cfg.NUMTEAMGOALIES : Int) ≤ s.goaliesFree →
     strictPairs ((playerConstituteTeamRun cfg s id).1.filter isHandshakeEv) = true) ∧
    (s.goaliesArrived + 1 ≤ 2 * (cfg.NUMTEAMGOALIES : Int) →
     (cfg.NUMTEAMPLAYERS : Int) ≤ s.playersFree →
     (cfg.NUMTEAMGOALIES : Int) ≤ s.goaliesFree + 1 →
     (goalieConstituteTeamRun cfg s id).1.filter isHandshakeEv =
       List.replicate cfg.NUMTEAMPLAYERS (Ev.semUp .playersWaitTeam) ++
       List.replicate cfg.NUMTEAMPLAYERS (Ev.semDown .playerRegistered)) := by
  have hfl : ∀ n : Nat,
      ((List.replicate n
          [Ev.semUp SemId.playersWaitTeam, Ev.semDown SemId.playerRegistered]).flatten).filter
        isHandshakeEv
        = (List.replicate n
            [Ev.semUp SemId.playersWaitTeam, Ev.semDown SemId.playerRegistered]).flatten := by
    intro n
    simpa using filter_handshake_pairs n []
  constructor
  · intro h1 h2 h3
    simp only [playerConstituteTeamRun]
    split
    · split
      · simp only [List.append_eq, List.cons_append, List.nil_append,
          List.filter_append, hfl, List.filter_cons, List.filter_nil]
        try simp [isHandshakeEv, isReleaseEv, isAckWaitEv]
        exact strictPairs_pairs _ _ (by decide)
      · rename_i hcon
        exact absurd ⟨h2, h3⟩ hcon
    · rename_i hcon
      exact absurd h1 hcon
  · intro h1 h2 h3
    simp only [goalieConstituteTeamRun]
    split
    · split
      · simp only [List.cons_append, List.nil_append, List.filter_append,
          List.filter_replicate, List.filter_cons, List.filter_nil]
        simp [isHandshakeEv, isReleaseEv, isAckWaitEv]
      · rename_i hcon
        exact absurd ⟨h2, h3⟩ hcon
    · rename_i hcon
      exact absurd h1 hcon

/-- Claim C1 witness input check. -/
theorem c1_amended_witness :
    preCapP.playersArrived + 1 ≤ 2 * (cfgStd.NUMTEAMPLAYERS : Int) ∧
    strictPairs ((playerConstituteTeamRun cfgStd preCapP 9).1.filter isHandshakeEv)
      = true ∧
    (goalieConstituteTeamRun cfgStd preCapG 0).1.filter isHandshakeEv =
      List.replicate cfgStd.NUMTEAMPLAYERS (Ev.semUp .playersWaitTeam) ++
      List.replicate cfgStd.NUMTEAMPLAYERS (Ev.semDown .playerRegistered) :=
  ⟨by decide,
   (c1_amended_handshake_shape cfgStd preCapP 9).1 (by decide) (by decide) (by decide),
   (c1_amended_handshake_shape cfgStd preCapG 0).2 (by decide) (by decide) (by decide)⟩

/-! ### Claim C2 — blocking waits and the lock -/

/-- Claim C2 counterexample: a player captain blocks on the
registration-acknowledgment semaphore while still holding the
mutual-exclusion lock, so the no-wait-while-locked predicate fails on
the captain trace. -/
theorem c2_captain_waits_while_locked :
    noWaitWhileLocked ((playerConstituteTeamRun cfgStd preCapP 9).1) 0 = false := by
  decide

/-- Claim C2, amended: in every routine of both modules, every blocking
wait except a captain's registration-acknowledgment waits is performed
strictly outside the critical section; the registration-acknowledgment
waits (semDown on playerRegistered) are performed while holding the
mutex (lock depth exactly 1). -/
theorem c2_amended_lock_discipline (cfg : Config) (s : FSt) (id : Nat) (team : Int) :
    lockDiscipline ((arriveRunP s id).1) 0 = true ∧
    lockDiscipline ((arriveRunG s id).1) 0 = true ∧
    lockDiscipline ((playerConstituteTeamRun cfg s id).1) 0 = true ∧
    lockDiscipline ((goalieConstituteTeamRun cfg s id).1) 0 = true ∧
    lockDiscipline ((waitRefereeRunP s id team).1) 0 = true ∧
    lockDiscipline ((waitRefereeRunG s id team).1) 0 = true ∧
    lockDiscipline ((playUntilEndRunP s id team).1) 0 = true ∧
    lockDiscipline ((playUntilEndRunG s id team).1) 0 = true := by
  refine ⟨by simp [arriveRunP, lockDiscipline], by simp [arriveRunG, lockDiscipline],
    ?_, ?_, ?_, ?_, ?_, ?_⟩
  · simp only [playerConstituteTeamRun]
    split
    · split
      · simp only [List.append_eq, List.cons_append, List.nil_append, lockDiscipline,
          Nat.zero_add]
        rw [lockDiscipline_pairs]
        decide
      · simp [lockDiscipline]
    · simp [lockDiscipline]
  · simp only [goalieConstituteTeamRun]
    split
    · split
      · simp only [List.append_eq, List.cons_append, List.nil_append, lockDiscipline,
          Nat.zero_add, List.append_assoc]
        rw [lockDiscipline_reps_up, lockDiscipline_reps_down]
        decide
      · simp [lockDiscipline]
    · simp [lockDiscipline]
  · rcases h : wsStatusOf team with _ | st <;>
      simp [waitRefereeRunP, h, lockDiscipline]
  · rcases h : wsStatusOf team with _ | st <;>
      simp [waitRefereeRunG, h, lockDiscipline]
  · rcases h : playingStatusOf team with _ | st <;>
      simp [playUntilEndRunP, h, lockDiscipline]
  · rcases h : playingStatusOf team with _ | st <;>
      simp [playUntilEndRunG, h, lockDiscipline]

/-! ### Claim C5 — the late path performs no further synchronization -/

/-- Claim C5: an arrival that finds its kind's pool for two teams
already exceeded (arrived counter beyond 2 * perTeam after its own
increment) is marked LATE, has its own free-counter increment undone
(net unchanged), returns the sentinel 0, emits no event after the mutex
release, and main never invokes waitReferee or playUntilEnd for it. -/
theorem c5_late_no_further_sync (cfg : Config) (s t : FSt) (id jd : Nat)
    (hP : 2 * (cfg.NUMTEAMPLAYERS : Int) < s.playersArrived + 1)
    (hG : 2 * (cfg.NUMTEAMGOALIES : Int) < t.goaliesArrived + 1) :
    ((playerConstituteTeamRun cfg s id).1 =
       [Ev.semDown .mutex, Ev.setPlayerStat id .late, Ev.saveState, Ev.semUp .mutex] ∧
     (playerConstituteTeamRun cfg s id).2.2 = 0 ∧
     (playerConstituteTeamRun cfg s id).2.1.playerStat id = .late ∧
     (playerConstituteTeamRun cfg s id).2.1.playersFree = s.playersFree ∧
     (playerConstituteTeamRun cfg s id).2.1.playersArrived = s.playersArrived + 1 ∧
     playerLifeEvents cfg s id =
       (arriveRunP s id).1 ++ (playerConstituteTeamRun cfg (arriveRunP s id).2 id).1) ∧
    ((goalieConstituteTeamRun cfg t jd).1 =
       [Ev.semDown .mutex, Ev.setGoalieStat jd .late, Ev.saveState, Ev.semUp .mutex] ∧
     (goalieConstituteTeamRun cfg t jd).2.2 = 0 ∧
     (goalieConstituteTeamRun cfg t jd).2.1.goalieStat jd = .late ∧
     (goalieConstituteTeamRun cfg t jd).2.1.goaliesFree = t.goaliesFree ∧
     (goalieConstituteTeamRun cfg t jd).2.1.goaliesArrived = t.goaliesArrived + 1 ∧
     goalieLifeEvents cfg t jd =
       (arriveRunG t jd).1 ++ (goalieConstituteTeamRun cfg (arriveRunG t jd).2 jd).1) := by
  have late_p : ∀ u : FSt, 2 * (cfg.NUMTEAMPLAYERS : Int) < u.playersArrived + 1 →
      (playerConstituteTeamRun cfg u id).1 =
        [Ev.semDown .mutex, Ev.setPlayerStat id .late, Ev.saveState, Ev.semUp .mutex] ∧
      (playerConstituteTeamRun cfg u id).2.2 = 0 ∧
      (playerConstituteTeamRun cfg u id).2.1.playerStat id = .late ∧
      (playerConstituteTeamRun cfg u id).2.1.playersFree = u.playersFree ∧
      (playerConstituteTeamRun cfg u id).2.1.playersArrived = u.playersArrived + 1 := by
    intro u hu
    simp only [playerConstituteTeamRun]
    split
    · rename_i hle
      exact absurd hle (by omega)
    · exact ⟨rfl, rfl, by simp [FSt.setPStat], by simp [FSt.setPStat], rfl⟩
  have late_g : ∀ u : FSt, 2 * (cfg.NUMTEAMGOALIES : Int) < u.goaliesArrived + 1 →
      (goalieConstituteTeamRun cfg u jd).1 =
        [Ev.semDown .mutex, Ev.setGoalieStat jd .late, Ev.saveState, Ev.semUp .mutex] ∧
      (goalieConstituteTeamRun cfg u jd).2.2 = 0 ∧
      (goalieConstituteTeamRun cfg u jd).2.1.goalieStat jd = .late ∧
      (goalieConstituteTeamRun cfg u jd).2.1.goaliesFree = u.goaliesFree ∧
      (goalieConstituteTeamRun cfg u jd).2.1.goaliesArrived = u.goaliesArrived + 1 := by
    intro u hu
    simp only [goalieConstituteTeamRun]
    split
    · rename_i hle
      exact absurd hle (by omega)
    · exact ⟨rfl, rfl, by simp [FSt.setGStat], by simp [FSt.setGStat], rfl⟩
  have hp2 := late_p (arriveRunP s id).2 (by simpa [arriveRunP, FSt.setPStat] using hP)
  have hg2 := late_g (arriveRunG t jd).2 (by simpa [arriveRunG, FSt.setGStat] using hG)
  refine ⟨⟨(late_p s hP).1, (late_p s hP).2.1, (late_p s hP).2.2.1, (late_p s hP).2.2.2.1,
      (late_p s hP).2.2.2.2, ?_⟩,
    ⟨(late_g t hG).1, (late_g t hG).2.1, (late_g t hG).2.2.1, (late_g t hG).2.2.2.1,
      (late_g t hG).2.2.2.2, ?_⟩⟩
  · simp [playerLifeEvents, hp2.2.1]
  · simp [goalieLifeEvents, hg2.2.1]

/-- Claim C5 witness input check. -/
theorem c5_witness :
    2 * (cfgStd.NUMTEAMPLAYERS : Int) < preLateP.playersArrived + 1 ∧
    (playerConstituteTeamRun cfgStd preLateP 10).2.2 = 0 ∧
    (playerConstituteTeamRun cfgStd preLateP 10).2.1.playerStat 10 = .late :=
  ⟨by decide,
   ((c5_late_no_further_sync cfgStd preLateP
      ⟨10, 0, 2, 0, 3, stat0, stat0⟩ 10 2 (by decide) (by decide)).1).2.1,
   ((c5_late_no_further_sync cfgStd preLateP
      ⟨10, 0, 2, 0, 3, stat0, stat0⟩ 10 2 (by decide) (by decide)).1).2.2.1⟩

/-! ### Claim C6 — per-team release quotas -/

/-- Claim C6 counterexample: with NUMTEAMGOALIES = 2, a player captain
still releases exactly one goalie recruit, not the per-team goalie
quota of two, so the quota statement does not hold for all values of
the configuration constants. -/
theorem c6_player_captain_single_goalie_release :
    (playerConstituteTeamRun cfg62 preCapP2 9).1.count (Ev.semUp .goaliesWaitTeam) = 1 ∧
    cfg62.NUMTEAMGOALIES = 2 := by decide

/-- Claim C6, amended: a player captain releases NUMTEAMPLAYERS - 1
player recruits and exactly one goalie recruit (the per-team goalie
quota only when NUMTEAMGOALIES = 1), and a goalie captain releases
NUMTEAMPLAYERS player recruits and no goalie recruit; the captain
decrements playersFree by NUMTEAMPLAYERS and goaliesFree by
NUMTEAMGOALIES (the player captain decrementing playersFree after the
player quota but before the goalie handshake, the goalie captain
decrementing goaliesFree at formation start). -/
theorem c6_amended_quota_counts (cfg : Config) (s t : FSt) (id jd : Nat) :
    (s.playersArrived + 1 ≤ 2 * (cfg.NUMTEAMPLAYERS : Int) →
     (cfg.NUMTEAMPLAYERS : Int) ≤ s.playersFree + 1 →
     (cfg.NUMTEAMGOALIES : Int) ≤ s.goaliesFree →
     (playerConstituteTeamRun cfg s id).1.count (Ev.semUp .playersWaitTeam)
        = cfg.NUMTEAMPLAYERS - 1 ∧
     (playerConstituteTeamRun cfg s id).1.count (Ev.semUp .goaliesWaitTeam) = 1 ∧
     (playerConstituteTeamRun cfg s id).2.1.playersFree
        = s.playersFree + 1 - (cfg.NUMTEAMPLAYERS : Int) ∧
     (playerConstituteTeamRun cfg s id).2.1.goaliesFree
        = s.goaliesFree - (cfg.NUMTEAMGOALIES : Int)) ∧
    (t.goaliesArrived + 1 ≤ 2 * (cfg.NUMTEAMGOALIES : Int) →
     (cfg.NUMTEAMPLAYERS : Int) ≤ t.playersFree →
     (cfg.NUMTEAMGOALIES : Int) ≤ t.goaliesFree + 1 →
     (goalieConstituteTeamRun cfg t jd).1.count (Ev.semUp .playersWaitTeam)
        = cfg.NUMTEAMPLAYERS ∧
     (goalieConstituteTeamRun cfg t jd).1.count (Ev.semUp .goaliesWaitTeam) = 0 ∧
     (goalieConstituteTeamRun cfg t jd).2.1.goaliesFree
        = t.goaliesFree + 1 - (cfg.NUMTEAMGOALIES : Int) ∧
     (goalieConstituteTeamRun cfg t jd).2.1.playersFree
        = t.playersFree - (cfg.NUMTEAMPLAYERS : Int)) := by
  constructor
  · intro h1 h2 h3
    simp only [playerConstituteTeamRun]
    split
    · split
      · refine ⟨?_, ?_, rfl, rfl⟩
        · simp [List.count_cons, List.count_append, count_pairs_up]
        · simp [List.count_cons, List.count_append, count_pairs_upG]
      · rename_i hcon
        exact absurd ⟨h2, h3⟩ hcon
    · rename_i hcon
      exact absurd h1 hcon
  · intro h1 h2 h3
    simp only [goalieConstituteTeamRun]
    split
    · split
      · refine ⟨?_, ?_, rfl, rfl⟩
        · simp [List.count_cons, List.count_append, List.count_replicate]
        · simp [List.count_cons, List.count_append, List.count_replicate]
      · rename_i hcon
        exact absurd ⟨h2, h3⟩ hcon
    · rename_i hcon
      exact absurd h1 hcon

/-- Claim C6 witness input check. -/
theorem c6_amended_witness :
    preCapP.playersArrived + 1 ≤ 2 * (cfgStd.NUMTEAMPLAYERS : Int) ∧
    (playerConstituteTeamRun cfgStd preCapP 9).1.count (Ev.semUp .playersWaitTeam) = 4 ∧
    (goalieConstituteTeamRun cfgStd preCapG 0).1.count (Ev.semUp .playersWaitTeam) = 5 :=
  ⟨by decide,
   by
    have h := (c6_amended_quota_counts cfgStd preCapP preCapG 9 0).1
      (by decide) (by decide) (by decide)
    simpa using h.1,
   by
    have h := (c6_amended_quota_counts cfgStd preCapP preCapG 9 0).2
      (by decide) (by decide) (by decide)
    simpa using h.1⟩

/-! ### Claim C8 — referee gate traces -/

/-- Claim C8 counterexample: in the goalie module's playUntilEnd the
playing signal (line 313) precedes the PLAYING status write (lines
318-322), so a goalie does not mark itself Playing before signalling
the referee's player-entered-play counter. -/
theorem c8_goalie_signals_before_marking :
    marksBeforePlayingSignal ((playUntilEndRunG preCapP 0 1).1) = false := by decide

/-- Claim C8, amended: in waitReferee every team member first marks
itself WAITING_START under the lock and then blocks exactly once on the
match-started semaphore; in playUntilEnd a player marks itself PLAYING
and then signals playing, while a goalie signals playing and then marks
itself PLAYING (both inside the critical section), and each then blocks
exactly once on the match-ended semaphore. -/
theorem c8_amended_gate_order (s : FSt) (id : Nat) (t : Int) (ht : t = 1 ∨ t = 2) :
    (waitRefereeRunP s id t).1 =
      [Ev.semDown .mutex,
       Ev.setPlayerStat id (if t = 1 then .waitingStart1 else .waitingStart2),
       Ev.saveState, Ev.semUp .mutex, Ev.semDown .playersWaitReferee] ∧
    (playUntilEndRunP s id t).1 =
      [Ev.semDown .mutex,
       Ev.setPlayerStat id (if t = 1 then .playing1 else .playing2),
       Ev.semUp .playing, Ev.saveState, Ev.semUp .mutex, Ev.semDown .playersWaitEnd] ∧
    (waitRefereeRunG s id t).1 =
      [Ev.semDown .mutex,
       Ev.setGoalieStat id (if t = 1 then .waitingStart1 else .waitingStart2),
       Ev.saveState, Ev.semUp .mutex, Ev.semDown .playersWaitReferee] ∧
    (playUntilEndRunG s id t).1 =
      [Ev.semDown .mutex, Ev.semUp .playing,
       Ev.setGoalieStat id (if t = 1 then .playing1 else .playing2),
       Ev.saveState, Ev.semUp .mutex, Ev.semDown .playersWaitEnd] := by
  rcases ht with rfl | rfl <;>
    simp [waitRefereeRunP, playUntilEndRunP, waitRefereeRunG, playUntilEndRunG,
      wsStatusOf, playingStatusOf]

/-- Claim C8 witness input check. -/
theorem c8_amended_witness :
    ((1 : Int) = 1 ∨ (1 : Int) = 2) ∧
    (waitRefereeRunP preCapP 0 1).1 =
      [Ev.semDown .mutex, Ev.setPlayerStat 0 .waitingStart1,
       Ev.saveState, Ev.semUp .mutex, Ev.semDown .playersWaitReferee] :=
  ⟨Or.inl rfl, by
    have h := (c8_amended_gate_order preCapP 0 1 (Or.inl rfl)).1
    simpa using h⟩

/-! ### Claim C9 — actor-id validation in main -/

/-- Decimal parse performed by `strtol(argv[1], &tinp, 0)` for inputs
without a base prefix: an optional sign followed by decimal digits;
returns the parsed value and the unconsumed suffix (the position
`*tinp` points at).  When no digit is consumed strtol returns 0 and the
whole input is the suffix. -/
def strtolDec (cs : List Char) : Int × List Char :=
  let signed : Int × List Char :=
    match cs with
    | '-' :: r => (-1, r)
    | '+' :: r => (1, r)
    | _ => (1, cs)
  let digits := signed.2.takeWhile Char.isDigit
  let rest := signed.2.dropWhile Char.isDigit
  if digits = [] then (0, cs)
  else (signed.1 * digits.foldl (fun a c => a * 10 + ((c.toNat - '0'.toNat : Nat) : Int)) 0,
        rest)

/-- The conversion `n = (unsigned int) strtol (...)` of both mains:
the long value is reduced mod 2^32 and the unsigned result is stored
into a signed 32-bit int (two's-complement reinterpretation). -/
def toInt32OfLong (v : Int) : Int :=
  let u := (v % (2 ^ 32 : Int)).toNat
  if u < 2 ^ 31 then (u : Int) else (u : Int) - 2 ^ 32

/-- The player main's id validation (src/unnamed/part_000, lines
77-82): the process proceeds past the check iff the id string is fully
consumed by strtol and the stored value n satisfies n < NUMPLAYERS. -/
def playerIdAccepted (cfg : Config) (arg : List Char) : Bool :=
  let p := strtolDec arg
  let n := toInt32OfLong p.1
  if p.2 ≠ [] ∨ (cfg.NUMPLAYERS : Int) ≤ n then false else true

/-- The goalie main's id validation (semSharedMemGoalie.c, lines
77-82), identical with NUMGOALIES as the bound. -/
def goalieIdAccepted (cfg : Config) (arg : List Char) : Bool :=
  let p := strtolDec arg
  let n := toInt32OfLong p.1
  if p.2 ≠ [] ∨ (cfg.NUMGOALIES : Int) ≤ n then false else true

/-- Claim C9 failing input: the argument "-1" parses fully, denotes the
value -1, which is outside the valid pool range 0..NUMPLAYERS-1, yet
both validations accept it (the unsigned cast is undone by the store
into a signed int, and only the upper bound is checked), so the process
proceeds into the protocol with a negative actor id.  Fully-malformed
strings and too-large ids are rejected as the claim states. -/
theorem c9_negative_id_accepted :
    playerIdAccepted cfgStd ("-1".toList) = true ∧
    goalieIdAccepted cfgStd ("-1".toList) = true ∧
    (strtolDec ("-1".toList)).2 = [] ∧
    toInt32OfLong (strtolDec ("-1".toList)).1 = -1 ∧
    ¬ (0 ≤ toInt32OfLong (strtolDec ("-1".toList)).1) ∧
    playerIdAccepted cfgStd ("3x".toList) = false ∧
    playerIdAccepted cfgStd ("11".toList) = false ∧
    goalieIdAccepted cfgStd ("3".toList) = false := by
  refine ⟨?_, ?_, by decide, ?_, ?_, by decide, ?_, by decide⟩ <;> decide

/-! ### Claim C10 — frame conditions of waitReferee and playUntilEnd -/

lemma wsStatusOf_eq_none {t : Int} (h : ¬ (t = 1 ∨ t = 2)) : wsStatusOf t = none := by
  unfold wsStatusOf
  split_ifs <;> simp_all

lemma playingStatusOf_eq_none {t : Int} (h : ¬ (t = 1 ∨ t = 2)) :
    playingStatusOf t = none := by
  unfold playingStatusOf
  split_ifs <;> simp_all

/-- Claim C10: waitReferee and playUntilEnd of both modules leave all
shared counters and the team-id counter unchanged, leave the other
kind's status array unchanged, modify at most the calling actor's own
status slot, and when the team argument is neither 1 nor 2 they leave
the state entirely unchanged while still emitting their signal and
wait events. -/
theorem c10_frame_wait_and_play (s : FSt) (id j : Nat) (t : Int) :
    ((waitRefereeRunP s id t).2.playersArrived = s.playersArrived ∧
     (waitRefereeRunP s id t).2.playersFree = s.playersFree ∧
     (waitRefereeRunP s id t).2.goaliesArrived = s.goaliesArrived ∧
     (waitRefereeRunP s id t).2.goaliesFree = s.goaliesFree ∧
     (waitRefereeRunP s id t).2.teamId = s.teamId ∧
     (waitRefereeRunP s id t).2.goalieStat = s.goalieStat ∧
     (j ≠ id → (waitRefereeRunP s id t).2.playerStat j = s.playerStat j) ∧
     (¬ (t = 1 ∨ t = 2) → (waitRefereeRunP s id t).2 = s) ∧
     (waitRefereeRunP s id t).1.count (Ev.semDown .playersWaitReferee) = 1) ∧
    ((playUntilEndRunP s id t).2.playersArrived = s.playersArrived ∧
     (playUntilEndRunP s id t).2.playersFree = s.playersFree ∧
     (playUntilEndRunP s id t).2.goaliesArrived = s.goaliesArrived ∧
     (playUntilEndRunP s id t).2.goaliesFree = s.goaliesFree ∧
     (playUntilEndRunP s id t).2.teamId = s.teamId ∧
     (playUntilEndRunP s id t).2.goalieStat = s.goalieStat ∧
     (j ≠ id → (playUntilEndRunP s id t).2.playerStat j = s.playerStat j) ∧
     (¬ (t = 1 ∨ t = 2) → (playUntilEndRunP s id t).2 = s) ∧
     (playUntilEndRunP s id t).1.count (Ev.semUp .playing) = 1 ∧
     (playUntilEndRunP s id t).1.count (Ev.semDown .playersWaitEnd) = 1) ∧
    ((waitRefereeRunG s id t).2.playersArrived = s.playersArrived ∧
     (waitRefereeRunG s id t).2.playersFree = s.playersFree ∧
     (waitRefereeRunG s id t).2.goaliesArrived = s.goaliesArrived ∧
     (waitRefereeRunG s id t).2.goaliesFree = s.goaliesFree ∧
     (waitRefereeRunG s id t).2.teamId = s.teamId ∧
     (waitRefereeRunG s id t).2.playerStat = s.playerStat ∧
     (j ≠ id → (waitRefereeRunG s id t).2.goalieStat j = s.goalieStat j) ∧
     (¬ (t = 1 ∨ t = 2) → (waitRefereeRunG s id t).2 = s) ∧
     (waitRefereeRunG s id t).1.count (Ev.semDown .playersWaitReferee) = 1) ∧
    ((playUntilEndRunG s id t).2.playersArrived = s.playersArrived ∧
     (playUntilEndRunG s id t).2.playersFree = s.playersFree ∧
     (playUntilEndRunG s id t).2.goaliesArrived = s.goaliesArrived ∧
     (playUntilEndRunG s id t).2.goaliesFree = s.goaliesFree ∧
     (playUntilEndRunG s id t).2.teamId = s.teamId ∧
     (playUntilEndRunG s id t).2.playerStat = s.playerStat ∧
     (j ≠ id → (playUntilEndRunG s id t).2.goalieStat j = s.goalieStat j) ∧
     (¬ (t = 1 ∨ t = 2) → (playUntilEndRunG s id t).2 = s) ∧
     (playUntilEndRunG s id t).1.count (Ev.semUp .playing) = 1 ∧
     (playUntilEndRunG s id t).1.count (Ev.semDown .playersWaitEnd) = 1) := by
  refine ⟨?_, ?_, ?_, ?_⟩
  · rcases h : wsStatusOf t with _ | st <;>
      refine ⟨by simp [waitRefereeRunP, h, FSt.setPStat],
        by simp [waitRefereeRunP, h, FSt.setPStat],
        by simp [waitRefereeRunP, h, FSt.setPStat],
        by simp [waitRefereeRunP, h, FSt.setPStat],
        by simp [waitRefereeRunP, h, FSt.setPStat],
        by simp [waitRefereeRunP, h, FSt.setPStat],
        fun hj => by simp [waitRefereeRunP, h, FSt.setPStat, hj],
        fun hn => ?_,
        by simp [waitRefereeRunP, h, List.count_cons]⟩
    · simp [waitRefereeRunP, h]
    · rw [wsStatusOf_eq_none hn] at h
      exact absurd h (by simp)
  · rcases h : playingStatusOf t with _ | st <;>
      refine ⟨by simp [playUntilEndRunP, h, FSt.setPStat],
        by simp [playUntilEndRunP, h, FSt.setPStat],
        by simp [playUntilEndRunP, h, FSt.setPStat],
        by simp [playUntilEndRunP, h, FSt.setPStat],
        by simp [playUntilEndRunP, h, FSt.setPStat],
        by simp [playUntilEndRunP, h, FSt.setPStat],
        fun hj => by simp [playUntilEndRunP, h, FSt.setPStat, hj],
        fun hn => ?_,
        by simp [playUntilEndRunP, h, List.count_cons],
        by simp [playUntilEndRunP, h, List.count_cons]⟩
    · simp [playUntilEndRunP, h]
    · rw [playingStatusOf_eq_none hn] at h
      exact absurd h (by simp)
  · rcases h : wsStatusOf t with _ | st <;>
      refine ⟨by simp [waitRefereeRunG, h, FSt.setGStat],
        by simp [waitRefereeRunG, h, FSt.setGStat],
        by simp [waitRefereeRunG, h, FSt.setGStat],
        by simp [waitRefereeRunG, h, FSt.setGStat],
        by simp [waitRefereeRunG, h, FSt.setGStat],
        by simp [waitRefereeRunG, h, FSt.setGStat],
        fun hj => by simp [waitRefereeRunG, h, FSt.setGStat, hj],
        fun hn => ?_,
        by simp [waitRefereeRunG, h, List.count_cons]⟩
    · simp [waitRefereeRunG, h]
    · rw [wsStatusOf_eq_none hn] at h
      exact absurd h (by simp)
  · rcases h : playingStatusOf t with _ | st <;>
      refine ⟨by simp [playUntilEndRunG, h, FSt.setGStat],
        by simp [playUntilEndRunG, h, FSt.setGStat],
        by simp [playUntilEndRunG, h, FSt.setGStat],
        by simp [playUntilEndRunG, h, FSt.setGStat],
        by simp [playUntilEndRunG, h, FSt.setGStat],
        by simp [playUntilEndRunG, h, FSt.setGStat],
        fun hj => by simp [playUntilEndRunG, h, FSt.setGStat, hj],
        fun hn => ?_,
        by simp [playUntilEndRunG, h, List.count_cons],
        by simp [playUntilEndRunG, h, List.count_cons]⟩
    · simp [playUntilEndRunG, h]
    · rw [playingStatusOf_eq_none hn] at h
      exact absurd h (by simp)

/-- Claim C10 witness input check. -/
theorem c10_frame_witness :
    (3 : Nat) ≠ 0 ∧ ¬ ((7 : Int) = 1 ∨ (7 : Int) = 2) ∧
    (waitRefereeRunP preCapP 0 7).2.playerStat 3 = preCapP.playerStat 3 ∧
    (playUntilEndRunG preCapP 0 7).2 = preCapP :=
  ⟨by decide, by decide,
   ((c10_frame_wait_and_play preCapP 0 3 7).1).2.2.2.2.2.2.1 (by decide),
   ((c10_frame_wait_and_play preCapP 0 3 7).2.2.2).2.2.2.2.2.2.2.1 (by decide)⟩

/-! ## Concurrent small-step semantics

Every player and goalie process is a control-state machine; each
control state sits at a potentially blocking semaphore operation or at
the recruit's unlocked teamId read (which must remain its own step),
and every transition is the maximal non-blocking code segment of the
corresponding module between two such points.  Critical sections that
contain no blocking operation execute atomically (the mutex serializes
them); a captain's critical section is split at its registration
waits, which the code performs while holding the mutex.  The two
recruitment semaphores carry a ghost tag on each credit naming the
issuing captain, so that the captain-recruit association of the
counting handshake can be stated. -/

/-- System configuration: per-team quotas and the number of player and
goalie processes launched. -/
structure SysCfg where
  ntp : Nat
  ntg : Nat
  np : Nat
  ng : Nat
  deriving DecidableEq, Repr

/-- Identity of a process (kind and id). -/
inductive Agent
  | player (i : Nat)
  | goalie (j : Nat)
  deriving DecidableEq, Repr

/-- How a process obtained its constituteTeam result: as the captain,
as a recruit woken by a credit issued by captain c, or as a late
arrival. -/
inductive Role
  | captain
  | recruitOf (c : Agent)
  | late
  deriving DecidableEq, Repr

/-- Result of constituteTeam: the returned team id and the role. -/
structure Res where
  team : Int
  role : Role
  deriving DecidableEq, Repr

/-- Control state of a player process (src/unnamed/part_000).
capWait k: the captain holds the mutex, has issued k player credits
and waits for the k-th registration (loop at lines 196-209);
capWaitG: the captain holds the mutex, has issued the goalie credit
and waits for its registration (lines 214-223). -/
inductive PPC
  | start
  | arrived
  | capWait (k : Nat)
  | capWaitG
  | recWait
  | recRead (c : Agent)
  | recAck (c : Agent) (t : Int)
  | done (r : Res)
  | waitStart (r : Res)
  | gateOpen (r : Res)
  | playWait (r : Res)
  | term (r : Res)
  deriving DecidableEq, Repr

/-- Control state of a goalie process (semSharedMemGoalie.c).
capWait k: the captain holds the mutex, has issued all NUMTEAMPLAYERS
player credits in its first loop (lines 192-199) and waits for the
k-th of the NUMTEAMPLAYERS registrations (second loop, lines
201-207). -/
inductive GPC
  | start
  | arrived
  | capWait (k : Nat)
  | recWait
  | recRead (c : Agent)
  | recAck (c : Agent) (t : Int)
  | done (r : Res)
  | waitStart (r : Res)
  | gateOpen (r : Res)
  | playWait (r : Res)
  | term (r : Res)
  deriving DecidableEq, Repr

/-- Semaphore states: the two recruitment semaphores are multisets of
credits tagged with the issuing captain (a waiter may consume any
credit); the rest are plain counters. -/
structure Sems where
  mutex : Nat
  playersWaitTeam : List Agent
  goaliesWaitTeam : List Agent
  playerRegistered : Nat
  refereeWaitTeams : Nat
  playersWaitReferee : Nat
  playersWaitEnd : Nat
  playing : Nat
  deriving DecidableEq, Repr

/-- Global system state: shared memory, semaphores, one control state
per process, and ghost histories of the status values written for
every actor. -/
structure Sys where
  fSt : FSt
  sems : Sems
  pproc : Nat → PPC
  gproc : Nat → GPC
  phist : Nat → List Status
  ghist : Nat → List Status

/-- Replace player i's control state. -/
def Sys.withP (σ : Sys) (i : Nat) (pc : PPC) : Sys :=
  { σ with pproc := fun n => if n = i then pc else σ.pproc n }

/-- Replace goalie j's control state. -/
def Sys.withG (σ : Sys) (j : Nat) (pc : GPC) : Sys :=
  { σ with gproc := fun n => if n = j then pc else σ.gproc n }

/-- Write player i's status slot (and record it in the ghost
history). -/
def Sys.writeP (σ : Sys) (i : Nat) (st : Status) : Sys :=
  { σ with fSt := σ.fSt.setPStat i st,
           phist := fun n => if n = i then σ.phist n ++ [st] else σ.phist n }

/-- Write goalie j's status slot (and record it in the ghost
history). -/
def Sys.writeG (σ : Sys) (j : Nat) (st : Status) : Sys :=
  { σ with fSt := σ.fSt.setGStat j st,
           ghist := fun n => if n = j then σ.ghist n ++ [st] else σ.ghist n }

/-- Conditional status write (waitReferee / playUntilEnd write only for
team values 1 and 2). -/
def Sys.writeOptP (σ : Sys) (i : Nat) (o : Option Status) : Sys :=
  match o with
  | some st => σ.writeP i st
  | none => σ

/-- Conditional goalie status write. -/
def Sys.writeOptG (σ : Sys) (j : Nat) (o : Option Status) : Sys :=
  match o with
  | some st => σ.writeG j st
  | none => σ

/-- Update the shared counters. -/
def Sys.mapFSt (σ : Sys) (f : FSt → FSt) : Sys := { σ with fSt := f σ.fSt }

/-- Update the semaphores. -/
def Sys.mapSems (σ : Sys) (f : Sems → Sems) : Sys := { σ with sems := f σ.sems }

@[simp] lemma withP_fSt (σ : Sys) (i : Nat) (pc : PPC) : (σ.withP i pc).fSt = σ.fSt := rfl
@[simp] lemma withP_sems (σ : Sys) (i : Nat) (pc : PPC) : (σ.withP i pc).sems = σ.sems := rfl
@[simp] lemma withP_gproc (σ : Sys) (i : Nat) (pc : PPC) : (σ.withP i pc).gproc = σ.gproc := rfl
@[simp] lemma withP_phist (σ : Sys) (i : Nat) (pc : PPC) : (σ.withP i pc).phist = σ.phist := rfl
@[simp] lemma withP_ghist (σ : Sys) (i : Nat) (pc : PPC) : (σ.withP i pc).ghist = σ.ghist := rfl
@[simp] lemma withP_pproc (σ : Sys) (i : Nat) (pc : PPC) :
    (σ.withP i pc).pproc = fun n => if n = i then pc else σ.pproc n := rfl

@[simp] lemma withG_fSt (σ : Sys) (j : Nat) (pc : GPC) : (σ.withG j pc).fSt = σ.fSt := rfl
@[simp] lemma withG_sems (σ : Sys) (j : Nat) (pc : GPC) : (σ.withG j pc).sems = σ.sems := rfl
@[simp] lemma withG_pproc (σ : Sys) (j : Nat) (pc : GPC) : (σ.withG j pc).pproc = σ.pproc := rfl
@[simp] lemma withG_phist (σ : Sys) (j : Nat) (pc : GPC) : (σ.withG j pc).phist = σ.phist := rfl
@[simp] lemma withG_ghist (σ : Sys) (j : Nat) (pc : GPC) : (σ.withG j pc).ghist = σ.ghist := rfl
@[simp] lemma withG_gproc (σ : Sys) (j : Nat) (pc : GPC) :
    (σ.withG j pc).gproc = fun n => if n = j then pc else σ.gproc n := rfl

@[simp] lemma writeP_sems (σ : Sys) (i : Nat) (st : Status) : (σ.writeP i st).sems = σ.sems := rfl
@[simp] lemma writeP_pproc (σ : Sys) (i : Nat) (st : Status) : (σ.writeP i st).pproc = σ.pproc := rfl
@[simp] lemma writeP_gproc (σ : Sys) (i : Nat) (st : Status) : (σ.writeP i st).gproc = σ.gproc := rfl
@[simp] lemma writeP_ghist (σ : Sys) (i : Nat) (st : Status) : (σ.writeP i st).ghist = σ.ghist := rfl
@[simp] lemma writeP_fSt (σ : Sys) (i : Nat) (st : Status) :
    (σ.writeP i st).fSt = σ.fSt.setPStat i st := rfl
@[simp] lemma writeP_phist (σ : Sys) (i : Nat) (st : Status) :
    (σ.writeP i st).phist = fun n => if n = i then σ.phist n ++ [st] else σ.phist n := rfl

@[simp] lemma writeG_sems (σ : Sys) (j : Nat) (st : Status) : (σ.writeG j st).sems = σ.sems := rfl
@[simp] lemma writeG_pproc (σ : Sys) (j : Nat) (st : Status) : (σ.writeG j st).pproc = σ.pproc := rfl
@[simp] lemma writeG_gproc (σ : Sys) (j : Nat) (st : Status) : (σ.writeG j st).gproc = σ.gproc := rfl
@[simp] lemma writeG_phist (σ : Sys) (j : Nat) (st : Status) : (σ.writeG j st).phist = σ.phist := rfl
@[simp] lemma writeG_fSt (σ : Sys) (j : Nat) (st : Status) :
    (σ.writeG j st).fSt = σ.fSt.setGStat j st := rfl
@[simp] lemma writeG_ghist (σ : Sys) (j : Nat) (st : Status) :
    (σ.writeG j st).ghist = fun n => if n = j then σ.ghist n ++ [st] else σ.ghist n := rfl

@[simp] lemma mapFSt_sems (σ : Sys) (f : FSt → FSt) : (σ.mapFSt f).sems = σ.sems := rfl
@[simp] lemma mapFSt_pproc (σ : Sys) (f : FSt → FSt) : (σ.mapFSt f).pproc = σ.pproc := rfl
@[simp] lemma mapFSt_gproc (σ : Sys) (f : FSt → FSt) : (σ.mapFSt f).gproc = σ.gproc := rfl
@[simp] lemma mapFSt_phist (σ : Sys) (f : FSt → FSt) : (σ.mapFSt f).phist = σ.phist := rfl
@[simp] lemma mapFSt_ghist (σ : Sys) (f : FSt → FSt) : (σ.mapFSt f).ghist = σ.ghist := rfl
@[simp] lemma mapFSt_fSt (σ : Sys) (f : FSt → FSt) : (σ.mapFSt f).fSt = f σ.fSt := rfl

@[simp] lemma mapSems_fSt (σ : Sys) (f : Sems → Sems) : (σ.mapSems f).fSt = σ.fSt := rfl
@[simp] lemma mapSems_pproc (σ : Sys) (f : Sems → Sems) : (σ.mapSems f).pproc = σ.pproc := rfl
@[simp] lemma mapSems_gproc (σ : Sys) (f : Sems → Sems) : (σ.mapSems f).gproc = σ.gproc := rfl
@[simp] lemma mapSems_phist (σ : Sys) (f : Sems → Sems) : (σ.mapSems f).phist = σ.phist := rfl
@[simp] lemma mapSems_ghist (σ : Sys) (f : Sems → Sems) : (σ.mapSems f).ghist = σ.ghist := rfl
@[simp] lemma mapSems_sems (σ : Sys) (f : Sems → Sems) : (σ.mapSems f).sems = f σ.sems := rfl

/-- Modelled from the spec: the initialization of the shared region and
semaphore set is performed by bootstrap code that is not under src/;
per the spec, the team-id counter starts at 1, the arrival and free
counters at 0, the mutual-exclusion semaphore is open (value 1), every
other synchronization signal is closed (value 0), and no status has
been written yet. -/
def initSys : Sys where
  fSt := { playersArrived := 0, playersFree := 0, goaliesArrived := 0,
           goaliesFree := 0, teamId := 1,
           playerStat := fun _ => .unset, goalieStat := fun _ => .unset }
  sems := { mutex := 1, playersWaitTeam := [], goaliesWaitTeam := [],
            playerRegistered := 0, refereeWaitTeams := 0,
            playersWaitReferee := 0, playersWaitEnd := 0, playing := 0 }
  pproc := fun _ => .start
  gproc := fun _ => .start
  phist := fun _ => []
  ghist := fun _ => []

/-- One interleaving step of the system: some process executes its next
maximal non-blocking segment (with the guard of the blocking operation
it was suspended on), or the referee environment signals one of its two
broadcast semaphores.  Each constructor is read off the corresponding
lines of the two modules. -/
inductive Step (cfg : SysCfg) : Sys → Sys → Prop
  /-- arrive (player, lines 140-157): lock, write ARRIVING, unlock. -/
  | pArrive (σ : Sys) (i : Nat) (hi : i < cfg.np)
      (hpc : σ.pproc i = .start) (hm : 1 ≤ σ.sems.mutex) :
      Step cfg σ ((σ.writeP i .arriving).withP i .arrived)
  /-- playerConstituteTeam, late branch (lines 236-241): the counter
  increments and the free-counter decrement cancel inside one critical
  section; result 0, and main then skips the rest of the life cycle. -/
  | pLate (σ : Sys) (i : Nat) (hi : i < cfg.np)
      (hpc : σ.pproc i = .arrived) (hm : 1 ≤ σ.sems.mutex)
      (hlate : 2 * (cfg.ntp : Int) < σ.fSt.playersArrived + 1) :
      Step cfg σ
        (((σ.mapFSt fun f => { f with playersArrived := f.playersArrived + 1 }).writeP
            i .late).withP i (.done ⟨0, .late⟩))
  /-- playerConstituteTeam, recruit branch decision (lines 230-233 and
  249-255): mark WAITING_TEAM, unlock, block on playersWaitTeam. -/
  | pRecruitEnter (σ : Sys) (i : Nat) (hi : i < cfg.np)
      (hpc : σ.pproc i = .arrived) (hm : 1 ≤ σ.sems.mutex)
      (hok : σ.fSt.playersArrived + 1 ≤ 2 * (cfg.ntp : Int))
      (hfull : ¬ ((cfg.ntp : Int) ≤ σ.fSt.playersFree + 1 ∧
                  (cfg.ntg : Int) ≤ σ.fSt.goaliesFree)) :
      Step cfg σ
        (((σ.mapFSt fun f => { f with playersArrived := f.playersArrived + 1,
                                      playersFree := f.playersFree + 1 }).writeP
            i .waitingTeam).withP i .recWait)
  /-- playerConstituteTeam, captain branch entry for NUMTEAMPLAYERS ≥ 2
  (lines 190-199): mark FORMING_TEAM, release the first player recruit,
  block (mutex still held) on playerRegistered. -/
  | pCapEnterLoop (σ : Sys) (i : Nat) (hi : i < cfg.np)
      (hpc : σ.pproc i = .arrived) (hm : 1 ≤ σ.sems.mutex)
      (hok : σ.fSt.playersArrived + 1 ≤ 2 * (cfg.ntp : Int))
      (hcap : (cfg.ntp : Int) ≤ σ.fSt.playersFree + 1 ∧
              (cfg.ntg : Int) ≤ σ.fSt.goaliesFree)
      (hn : 2 ≤ cfg.ntp) :
      Step cfg σ
        ((((σ.mapFSt fun f => { f with playersArrived := f.playersArrived + 1,
                                       playersFree := f.playersFree + 1 }).writeP
             i .formingTeam).mapSems fun sm =>
               { sm with mutex := sm.mutex - 1,
                         playersWaitTeam := Agent.player i :: sm.playersWaitTeam }).withP
           i (.capWait 1))
  /-- playerConstituteTeam, captain branch entry for NUMTEAMPLAYERS = 1:
  the player loop runs zero times, playersFree is decremented (line
  211) and the goalie recruit is released (line 214) in the same
  non-blocking segment. -/
  | pCapEnterSkip (σ : Sys) (i : Nat) (hi : i < cfg.np)
      (hpc : σ.pproc i = .arrived) (hm : 1 ≤ σ.sems.mutex)
      (hok : σ.fSt.playersArrived + 1 ≤ 2 * (cfg.ntp : Int))
      (hcap : (cfg.ntp : Int) ≤ σ.fSt.playersFree + 1 ∧
              (cfg.ntg : Int) ≤ σ.fSt.goaliesFree)
      (hn : cfg.ntp = 1) :
      Step cfg σ
        ((((σ.mapFSt fun f =>
              { f with playersArrived := f.playersArrived + 1,
                       playersFree := f.playersFree + 1 - (cfg.ntp : Int) }).writeP
             i .formingTeam).mapSems fun sm =>
               { sm with mutex := sm.mutex - 1,
                         goaliesWaitTeam := Agent.player i :: sm.goaliesWaitTeam }).withP
           i .capWaitG)
  /-- playerConstituteTeam, captain loop continuation (lines 196-209):
  collect one registration, release the next player recruit. -/
  | pCapNext (σ : Sys) (i : Nat) (hi : i < cfg.np) (k : Nat)
      (hpc : σ.pproc i = .capWait k) (hack : 1 ≤ σ.sems.playerRegistered)
      (hk : k + 2 ≤ cfg.ntp) :
      Step cfg σ
        ((σ.mapSems fun sm =>
            { sm with playerRegistered := sm.playerRegistered - 1,
                      playersWaitTeam := Agent.player i :: sm.playersWaitTeam }).withP
          i (.capWait (k + 1)))
  /-- playerConstituteTeam, captain loop exit (lines 209-223): collect
  the last player registration, decrement playersFree, release the
  goalie recruit, block on playerRegistered again. -/
  | pCapToGoalie (σ : Sys) (i : Nat) (hi : i < cfg.np) (k : Nat)
      (hpc : σ.pproc i = .capWait k) (hack : 1 ≤ σ.sems.playerRegistered)
      (hk : cfg.ntp ≤ k + 1) :
      Step cfg σ
        (((σ.mapFSt fun f =>
             { f with playersFree := f.playersFree - (cfg.ntp : Int) }).mapSems fun sm =>
               { sm with playerRegistered := sm.playerRegistered - 1,
                         goaliesWaitTeam := Agent.player i :: sm.goaliesWaitTeam }).withP
          i .capWaitG)
  /-- playerConstituteTeam, captain completion (lines 220-246 and
  266-273): collect the goalie registration, decrement goaliesFree,
  take the team id (post-increment), unlock, signal the referee. -/
  | pCapFinish (σ : Sys) (i : Nat) (hi : i < cfg.np)
      (hpc : σ.pproc i = .capWaitG) (hack : 1 ≤ σ.sems.playerRegistered) :
      Step cfg σ
        (((σ.mapFSt fun f =>
             { f with goaliesFree := f.goaliesFree - (cfg.ntg : Int),
                      teamId := f.teamId + 1 }).mapSems fun sm =>
               { sm with playerRegistered := sm.playerRegistered - 1,
                         mutex := sm.mutex + 1,
                         refereeWaitTeams := sm.refereeWaitTeams + 1 }).withP
          i (.done ⟨σ.fSt.teamId, .captain⟩))
  /-- playerConstituteTeam, recruit wake-up (line 252): consume one
  recruitment credit (any credit; the ghost tag names its captain). -/
  | pRecWake (σ : Sys) (i : Nat) (hi : i < cfg.np) (c : Agent)
      (hpc : σ.pproc i = .recWait) (hc : c ∈ σ.sems.playersWaitTeam) :
      Step cfg σ
        ((σ.mapSems fun sm =>
            { sm with playersWaitTeam := sm.playersWaitTeam.erase c }).withP
          i (.recRead c))
  /-- playerConstituteTeam, recruit reads the team id (line 257),
  outside any lock: its own interleaving step. -/
  | pRecReadStep (σ : Sys) (i : Nat) (hi : i < cfg.np) (c : Agent)
      (hpc : σ.pproc i = .recRead c) :
      Step cfg σ (σ.withP i (.recAck c σ.fSt.teamId))
  /-- playerConstituteTeam, recruit acknowledges registration (line
  260) and returns the team id it read. -/
  | pRecAckStep (σ : Sys) (i : Nat) (hi : i < cfg.np) (c : Agent) (t : Int)
      (hpc : σ.pproc i = .recAck c t) :
      Step cfg σ
        ((σ.mapSems fun sm =>
            { sm with playerRegistered := sm.playerRegistered + 1 }).withP
          i (.done ⟨t, .recruitOf c⟩))
  /-- waitReferee (player, lines 287-314), entered by main only for a
  nonzero team: mark WAITING_START under the lock, unlock, block on
  playersWaitReferee. -/
  | pGate (σ : Sys) (i : Nat) (hi : i < cfg.np) (r : Res)
      (hpc : σ.pproc i = .done r) (ht : r.team ≠ 0) (hm : 1 ≤ σ.sems.mutex) :
      Step cfg σ ((σ.writeOptP i (wsStatusOf r.team)).withP i (.waitStart r))
  /-- The match-start signal releases one waiting team member. -/
  | pStartRelease (σ : Sys) (i : Nat) (hi : i < cfg.np) (r : Res)
      (hpc : σ.pproc i = .waitStart r) (hs : 1 ≤ σ.sems.playersWaitReferee) :
      Step cfg σ
        ((σ.mapSems fun sm =>
            { sm with playersWaitReferee := sm.playersWaitReferee - 1 }).withP
          i (.gateOpen r))
  /-- playUntilEnd (player, lines 325-354): mark PLAYING, signal
  playing, unlock, block on playersWaitEnd. -/
  | pPlay (σ : Sys) (i : Nat) (hi : i < cfg.np) (r : Res)
      (hpc : σ.pproc i = .gateOpen r) (hm : 1 ≤ σ.sems.mutex) :
      Step cfg σ
        (((σ.writeOptP i (playingStatusOf r.team)).mapSems fun sm =>
            { sm with playing := sm.playing + 1 }).withP i (.playWait r))
  /-- The match-end signal releases one playing team member. -/
  | pEndRelease (σ : Sys) (i : Nat) (hi : i < cfg.np) (r : Res)
      (hpc : σ.pproc i = .playWait r) (hs : 1 ≤ σ.sems.playersWaitEnd) :
      Step cfg σ
        ((σ.mapSems fun sm =>
            { sm with playersWaitEnd := sm.playersWaitEnd - 1 }).withP
          i (.term r))
  /-- arrive (goalie, lines 138-154). -/
  | gArrive (σ : Sys) (j : Nat) (hj : j < cfg.ng)
      (hpc : σ.gproc j = .start) (hm : 1 ≤ σ.sems.mutex) :
      Step cfg σ ((σ.writeG j .arriving).withG j .arrived)
  /-- goalieConstituteTeam, late branch (lines 217-222). -/
  | gLate (σ : Sys) (j : Nat) (hj : j < cfg.ng)
      (hpc : σ.gproc j = .arrived) (hm : 1 ≤ σ.sems.mutex)
      (hlate : 2 * (cfg.ntg : Int) < σ.fSt.goaliesArrived + 1) :
      Step cfg σ
        (((σ.mapFSt fun f => { f with goaliesArrived := f.goaliesArrived + 1 }).writeG
            j .late).withG j (.done ⟨0, .late⟩))
  /-- goalieConstituteTeam, recruit branch decision (lines 213-216 and
  239-255). -/
  | gRecruitEnter (σ : Sys) (j : Nat) (hj : j < cfg.ng)
      (hpc : σ.gproc j = .arrived) (hm : 1 ≤ σ.sems.mutex)
      (hok : σ.fSt.goaliesArrived + 1 ≤ 2 * (cfg.ntg : Int))
      (hfull : ¬ ((cfg.ntp : Int) ≤ σ.fSt.playersFree ∧
                  (cfg.ntg : Int) ≤ σ.fSt.goaliesFree + 1)) :
      Step cfg σ
        (((σ.mapFSt fun f => { f with goaliesArrived := f.goaliesArrived + 1,
                                      goaliesFree := f.goaliesFree + 1 }).writeG
            j .waitingTeam).withG j .recWait)
  /-- goalieConstituteTeam, captain branch entry (lines 187-199): mark
  FORMING_TEAM, decrement goaliesFree, issue all NUMTEAMPLAYERS player
  credits (first loop, all non-blocking), then block on the first
  registration of the second loop.  NUMTEAMPLAYERS = 0 would skip both
  loops; the model requires 1 ≤ ntp here, as do all theorems below. -/
  | gCapEnter (σ : Sys) (j : Nat) (hj : j < cfg.ng)
      (hpc : σ.gproc j = .arrived) (hm : 1 ≤ σ.sems.mutex)
      (hok : σ.fSt.goaliesArrived + 1 ≤ 2 * (cfg.ntg : Int))
      (hcap : (cfg.ntp : Int) ≤ σ.fSt.playersFree ∧
              (cfg.ntg : Int) ≤ σ.fSt.goaliesFree + 1)
      (hn : 1 ≤ cfg.ntp) :
      Step cfg σ
        ((((σ.mapFSt fun f =>
              { f with goaliesArrived := f.goaliesArrived + 1,
                       goaliesFree := f.goaliesFree + 1 - (cfg.ntg : Int) }).writeG
             j .formingTeam).mapSems fun sm =>
               { sm with mutex := sm.mutex - 1,
                         playersWaitTeam :=
                           List.replicate cfg.ntp (Agent.goalie j) ++ sm.playersWaitTeam }).withG
           j (.capWait 1))
  /-- goalieConstituteTeam, second loop continuation (lines 201-207). -/
  | gCapNext (σ : Sys) (j : Nat) (hj : j < cfg.ng) (k : Nat)
      (hpc : σ.gproc j = .capWait k) (hack : 1 ≤ σ.sems.playerRegistered)
      (hk : k + 1 ≤ cfg.ntp) :
      Step cfg σ
        ((σ.mapSems fun sm =>
            { sm with playerRegistered := sm.playerRegistered - 1 }).withG
          j (.capWait (k + 1)))
  /-- goalieConstituteTeam, captain completion (lines 203-237): collect
  the last registration, decrement playersFree, take the team id
  (post-increment), unlock, signal the referee. -/
  | gCapFinish (σ : Sys) (j : Nat) (hj : j < cfg.ng) (k : Nat)
      (hpc : σ.gproc j = .capWait k) (hack : 1 ≤ σ.sems.playerRegistered)
      (hk : cfg.ntp ≤ k) :
      Step cfg σ
        (((σ.mapFSt fun f =>
             { f with playersFree := f.playersFree - (cfg.ntp : Int),
                      teamId := f.teamId + 1 }).mapSems fun sm =>
               { sm with playerRegistered := sm.playerRegistered - 1,
                         mutex := sm.mutex + 1,
                         refereeWaitTeams := sm.refereeWaitTeams + 1 }).withG
          j (.done ⟨σ.fSt.teamId, .captain⟩))
  /-- goalieConstituteTeam, recruit wake-up (line 243). -/
  | gRecWake (σ : Sys) (j : Nat) (hj : j < cfg.ng) (c : Agent)
      (hpc : σ.gproc j = .recWait) (hc : c ∈ σ.sems.goaliesWaitTeam) :
      Step cfg σ
        ((σ.mapSems fun sm =>
            { sm with goaliesWaitTeam := sm.goaliesWaitTeam.erase c }).withG
          j (.recRead c))
  /-- goalieConstituteTeam, recruit reads the team id (line 248). -/
  | gRecReadStep (σ : Sys) (j : Nat) (hj : j < cfg.ng) (c : Agent)
      (hpc : σ.gproc j = .recRead c) :
      Step cfg σ (σ.withG j (.recAck c σ.fSt.teamId))
  /-- goalieConstituteTeam, recruit acknowledges registration (line
  251). -/
  | gRecAckStep (σ : Sys) (j : Nat) (hj : j < cfg.ng) (c : Agent) (t : Int)
      (hpc : σ.gproc j = .recAck c t) :
      Step cfg σ
        ((σ.mapSems fun sm =>
            { sm with playerRegistered := sm.playerRegistered + 1 }).withG
          j (.done ⟨t, .recruitOf c⟩))
  /-- waitReferee (goalie, lines 269-295). -/
  | gGate (σ : Sys) (j : Nat) (hj : j < cfg.ng) (r : Res)
      (hpc : σ.gproc j = .done r) (ht : r.team ≠ 0) (hm : 1 ≤ σ.sems.mutex) :
      Step cfg σ ((σ.writeOptG j (wsStatusOf r.team)).withG j (.waitStart r))
  /-- The match-start signal releases one waiting goalie. -/
  | gStartRelease (σ : Sys) (j : Nat) (hj : j < cfg.ng) (r : Res)
      (hpc : σ.gproc j = .waitStart r) (hs : 1 ≤ σ.sems.playersWaitReferee) :
      Step cfg σ
        ((σ.mapSems fun sm =>
            { sm with playersWaitReferee := sm.playersWaitReferee - 1 }).withG
          j (.gateOpen r))
  /-- playUntilEnd (goalie, lines 306-335): the playing signal and the
  PLAYING write happen inside one critical section (in this order),
  then the process blocks on playersWaitEnd. -/
  | gPlay (σ : Sys) (j : Nat) (hj : j < cfg.ng) (r : Res)
      (hpc : σ.gproc j = .gateOpen r) (hm : 1 ≤ σ.sems.mutex) :
      Step cfg σ
        (((σ.writeOptG j (playingStatusOf r.team)).mapSems fun sm =>
            { sm with playing := sm.playing + 1 }).withG j (.playWait r))
  /-- The match-end signal releases one playing goalie. -/
  | gEndRelease (σ : Sys) (j : Nat) (hj : j < cfg.ng) (r : Res)
      (hpc : σ.gproc j = .playWait r) (hs : 1 ≤ σ.sems.playersWaitEnd) :
      Step cfg σ
        ((σ.mapSems fun sm =>
            { sm with playersWaitEnd := sm.playersWaitEnd - 1 }).withG
          j (.term r))
  /-- The referee (external to this core) opens the start gate for one
  member. -/
  | envStart (σ : Sys) :
      Step cfg σ
        (σ.mapSems fun sm =>
          { sm with playersWaitReferee := sm.playersWaitReferee + 1 })
  /-- The referee opens the end gate for one member. -/
  | envEnd (σ : Sys) :
      Step cfg σ
        (σ.mapSems fun sm =>
          { sm with playersWaitEnd := sm.playersWaitEnd + 1 })

/-- Reachability from the initial system state. -/
def Reach (cfg : SysCfg) (σ : Sys) : Prop :=
  Relation.ReflTransGen (Step cfg) initSys σ

/-! ### Classifiers and counts over control states -/

/-- The result belongs to a captain. -/
def Res.isCap : Res → Bool
  | ⟨_, .captain⟩ => true
  | _ => false

/-- The result belongs to a late arrival. -/
def Res.isLate : Res → Bool
  | ⟨_, .late⟩ => true
  | _ => false

/-- The constituteTeam result carried by a control state past the
formation phase. -/
def PPC.res : PPC → Option Res
  | .done r => some r
  | .waitStart r => some r
  | .gateOpen r => some r
  | .playWait r => some r
  | .term r => some r
  | _ => none

/-- Captain currently in its player-recruitment loop. -/
def PPC.isCapWait : PPC → Bool
  | .capWait _ => true
  | _ => false

/-- Captain currently waiting for the goalie registration. -/
def PPC.isCapWaitG : PPC → Bool
  | .capWaitG => true
  | _ => false

/-- Captain currently holding the mutex (in formation). -/
def PPC.isActiveCap (pc : PPC) : Bool := pc.isCapWait || pc.isCapWaitG

/-- Recruit woken but not yet acknowledged. -/
def PPC.isMid : PPC → Bool
  | .recRead _ => true
  | .recAck _ _ => true
  | _ => false

/-- Process has executed its constituteTeam entry section. -/
def PPC.entered : PPC → Bool
  | .start => false
  | .arrived => false
  | _ => true

/-- Captain that has completed formation. -/
def PPC.isDoneCap (pc : PPC) : Bool := (pc.res.map Res.isCap).getD false

/-- Entered and not (finally) late. -/
def PPC.nonLate (pc : PPC) : Bool := pc.entered && !((pc.res.map Res.isLate).getD false)

/-- The per-formation playersFree consumption of a player captain has
happened (at the transition into capWaitG) or the captaincy is over. -/
def PPC.consumedP (pc : PPC) : Bool := pc.isCapWaitG || pc.isDoneCap

/-- Goalie analogue of PPC.res. -/
def GPC.res : GPC → Option Res
  | .done r => some r
  | .waitStart r => some r
  | .gateOpen r => some r
  | .playWait r => some r
  | .term r => some r
  | _ => none

/-- Goalie captain currently collecting registrations. -/
def GPC.isCapWait : GPC → Bool
  | .capWait _ => true
  | _ => false

/-- Goalie recruit woken but not yet acknowledged. -/
def GPC.isMid : GPC → Bool
  | .recRead _ => true
  | .recAck _ _ => true
  | _ => false

/-- Goalie process has executed its constituteTeam entry section. -/
def GPC.entered : GPC → Bool
  | .start => false
  | .arrived => false
  | _ => true

/-- Goalie captain that has completed formation. -/
def GPC.isDoneCap (pc : GPC) : Bool := (pc.res.map Res.isCap).getD false

/-- Entered and not (finally) late. -/
def GPC.nonLate (pc : GPC) : Bool := pc.entered && !((pc.res.map Res.isLate).getD false)

/-- Number of indices below n whose value satisfies f. -/
def countB {α : Type} (n : Nat) (g : Nat → α) (f : α → Bool) : Nat :=
  ∑ i ∈ Finset.range n, if f (g i) then 1 else 0

lemma countB_update {α : Type} (n i : Nat) (g : Nat → α) (v : α) (f : α → Bool)
    (hi : i < n) :
    countB n (fun x => if x = i then v else g x) f + (if f (g i) then 1 else 0)
      = countB n g f + (if f v then 1 else 0) := by
  unfold countB
  beta_reduce
  have hmem : i ∈ Finset.range n := Finset.mem_range.2 hi
  have h1 : ∑ x ∈ Finset.range n,
        (if f (if x = i then v else g x) then 1 else 0)
      = (if f v then 1 else 0)
        + ∑ x ∈ (Finset.range n).erase i, (if f (g x) then 1 else 0) := by
    rw [← Finset.add_sum_erase _ _ hmem]
    congr 1
    · simp
    · refine Finset.sum_congr rfl fun x hx => ?_
      have hne : x ≠ i := (Finset.mem_erase.1 hx).1
      simp [hne]
  have h2 : ∑ x ∈ Finset.range n, (if f (g x) then 1 else 0)
      = (if f (g i) then 1 else 0)
        + ∑ x ∈ (Finset.range n).erase i, (if f (g x) then 1 else 0) :=
    (Finset.add_sum_erase _ _ hmem).symm
  omega

lemma countB_congr {α : Type} (n : Nat) (g g' : Nat → α) (f : α → Bool)
    (h : ∀ x, x < n → g x = g' x) : countB n g f = countB n g' f := by
  unfold countB
  exact Finset.sum_congr rfl fun x hx => by rw [h x (Finset.mem_range.1 hx)]

lemma countB_le_countB {α : Type} (n : Nat) (g : Nat → α) (f f' : α → Bool)
    (h : ∀ a, f a = true → f' a = true) : countB n g f ≤ countB n g f' := by
  unfold countB
  refine Finset.sum_le_sum fun x _ => ?_
  by_cases hx : f (g x) = true
  · simp [hx, h _ hx]
  · simp [hx]

lemma one_le_countB {α : Type} (n i : Nat) (g : Nat → α) (f : α → Bool)
    (hi : i < n) (h : f (g i) = true) : 1 ≤ countB n g f := by
  unfold countB
  have hmem : i ∈ Finset.range n := Finset.mem_range.2 hi
  calc (1 : Nat) = (if f (g i) then 1 else 0) := by simp [h]
    _ ≤ ∑ x ∈ Finset.range n, (if f (g x) then 1 else 0) :=
        Finset.single_le_sum (f := fun x => if f (g x) then (1 : Nat) else 0)
          (fun x _ => by positivity) hmem

lemma two_le_countB {α : Type} (n i i' : Nat) (g : Nat → α) (f : α → Bool)
    (hi : i < n) (hi' : i' < n) (hne : i ≠ i')
    (h : f (g i) = true) (h' : f (g i') = true) : 2 ≤ countB n g f := by
  unfold countB
  have hsub : ({i, i'} : Finset Nat) ⊆ Finset.range n := by
    intro x hx
    rcases Finset.mem_insert.1 hx with rfl | hx
    · exact Finset.mem_range.2 hi
    · rw [Finset.mem_singleton.1 hx]
      exact Finset.mem_range.2 hi'
  calc (2 : Nat) = ∑ x ∈ ({i, i'} : Finset Nat), (if f (g x) then 1 else 0) := by
        rw [Finset.sum_pair hne]
        simp [h, h']
    _ ≤ ∑ x ∈ Finset.range n, (if f (g x) then 1 else 0) :=
        Finset.sum_le_sum_of_subset hsub

lemma countB_or {α : Type} (n : Nat) (g : Nat → α) (f f' : α → Bool)
    (hdisj : ∀ a, ¬ (f a = true ∧ f' a = true)) :
    countB n g (fun a => f a || f' a) = countB n g f + countB n g f' := by
  unfold countB
  rw [← Finset.sum_add_distrib]
  refine Finset.sum_congr rfl fun x _ => ?_
  by_cases h1 : f (g x) = true <;> by_cases h2 : f' (g x) = true <;>
    simp_all [hdisj (g x)]

/-- Count of player processes whose control state satisfies f. -/
def pCount (cfg : SysCfg) (σ : Sys) (f : PPC → Bool) : Nat := countB cfg.np σ.pproc f

/-- Count of goalie processes whose control state satisfies f. -/
def gCount (cfg : SysCfg) (σ : Sys) (f : GPC → Bool) : Nat := countB cfg.ng σ.gproc f

/-- Number of captains currently holding the mutex. -/
def activeCaps (cfg : SysCfg) (σ : Sys) : Nat :=
  pCount cfg σ PPC.isActiveCap + gCount cfg σ GPC.isCapWait

/-- Number of completed team formations. -/
def teamsFormed (cfg : SysCfg) (σ : Sys) : Nat :=
  pCount cfg σ PPC.isDoneCap + gCount cfg σ GPC.isDoneCap

/-- Number of per-formation playersFree consumptions performed. -/
def consPlayers (cfg : SysCfg) (σ : Sys) : Nat :=
  pCount cfg σ PPC.consumedP + gCount cfg σ GPC.isDoneCap

/-- Number of player recruits between wake-up and acknowledgment. -/
def midP (cfg : SysCfg) (σ : Sys) : Nat := pCount cfg σ PPC.isMid

/-- Number of goalie recruits between wake-up and acknowledgment. -/
def midG (cfg : SysCfg) (σ : Sys) : Nat := gCount cfg σ GPC.isMid

/-- Number of player processes past the constituteTeam entry. -/
def enteredP (cfg : SysCfg) (σ : Sys) : Nat := pCount cfg σ PPC.entered

/-- Number of goalie processes past the constituteTeam entry. -/
def enteredG (cfg : SysCfg) (σ : Sys) : Nat := gCount cfg σ GPC.entered

/-- Number of admitted (non-late) player processes. -/
def nonLateP (cfg : SysCfg) (σ : Sys) : Nat := pCount cfg σ PPC.nonLate

/-- Number of admitted (non-late) goalie processes. -/
def nonLateG (cfg : SysCfg) (σ : Sys) : Nat := gCount cfg σ GPC.nonLate

/-- The constituteTeam result of an agent, if it is past formation. -/
def Sys.resOf (σ : Sys) : Agent → Option Res
  | .player i => (σ.pproc i).res
  | .goalie j => (σ.gproc j).res

/-- c is a captain currently in its player-recruitment phase (holding
the mutex, collecting player registrations). -/
def pOwner (cfg : SysCfg) (σ : Sys) (c : Agent) : Prop :=
  match c with
  | .player i => i < cfg.np ∧ (σ.pproc i).isCapWait = true
  | .goalie j => j < cfg.ng ∧ (σ.gproc j).isCapWait = true

/-- c is a player captain currently waiting for its goalie
registration. -/
def gOwner (cfg : SysCfg) (σ : Sys) (c : Agent) : Prop :=
  match c with
  | .player i => i < cfg.np ∧ (σ.pproc i).isCapWaitG = true
  | .goalie _ => False

/-- c is a captain currently in formation. -/
def activeCapAgent (cfg : SysCfg) (σ : Sys) (c : Agent) : Prop :=
  pOwner cfg σ c ∨ gOwner cfg σ c

/-! ### Ghost histories expected from each control state -/

/-- Status writes performed during formation, by role. -/
def roleBase : Role → List Status
  | .captain => [.arriving, .formingTeam]
  | .recruitOf _ => [.arriving, .waitingTeam]
  | .late => [.arriving, .late]

/-- WAITING_START status of a team (used only for teams 1 and 2). -/
def wsOf (t : Int) : Status := if t = 1 then .waitingStart1 else .waitingStart2

/-- PLAYING status of a team (used only for teams 1 and 2). -/
def playOf (t : Int) : Status := if t = 1 then .playing1 else .playing2

/-- The status-write history a player process has produced when at a
given control state (given the invariant that post-formation teams are
1 or 2). -/
def histOfP : PPC → List Status
  | .start => []
  | .arrived => [.arriving]
  | .capWait _ => [.arriving, .formingTeam]
  | .capWaitG => [.arriving, .formingTeam]
  | .recWait => [.arriving, .waitingTeam]
  | .recRead _ => [.arriving, .waitingTeam]
  | .recAck _ _ => [.arriving, .waitingTeam]
  | .done r => roleBase r.role
  | .waitStart r => roleBase r.role ++ [wsOf r.team]
  | .gateOpen r => roleBase r.role ++ [wsOf r.team]
  | .playWait r => roleBase r.role ++ [wsOf r.team, playOf r.team]
  | .term r => roleBase r.role ++ [wsOf r.team, playOf r.team]

/-- Goalie analogue of histOfP. -/
def histOfG : GPC → List Status
  | .start => []
  | .arrived => [.arriving]
  | .capWait _ => [.arriving, .formingTeam]
  | .recWait => [.arriving, .waitingTeam]
  | .recRead _ => [.arriving, .waitingTeam]
  | .recAck _ _ => [.arriving, .waitingTeam]
  | .done r => roleBase r.role
  | .waitStart r => roleBase r.role ++ [wsOf r.team]
  | .gateOpen r => roleBase r.role ++ [wsOf r.team]
  | .playWait r => roleBase r.role ++ [wsOf r.team, playOf r.team]
  | .term r => roleBase r.role ++ [wsOf r.team, playOf r.team]

/-! ### The global inductive invariant -/

/-- Global invariant of the system, proved inductive over Step (for
configurations with at least one player per team).  Its clauses record
the mutual-exclusion discipline, the counter accounting, the team-id
accounting, the balance of the counting handshake of the captain in
formation, the ghost ownership of recruitment credits, the link
between every recruit's result and its captain's, the range of issued
team ids, and the status-write histories. -/
structure Inv (cfg : SysCfg) (σ : Sys) : Prop where
  mutexCap : σ.sems.mutex + activeCaps cfg σ = 1
  arrP : σ.fSt.playersArrived = (enteredP cfg σ : Int)
  arrG : σ.fSt.goaliesArrived = (enteredG cfg σ : Int)
  nlP : nonLateP cfg σ = min (enteredP cfg σ) (2 * cfg.ntp)
  nlG : nonLateG cfg σ = min (enteredG cfg σ) (2 * cfg.ntg)
  freeP : σ.fSt.playersFree + (cfg.ntp : Int) * (consPlayers cfg σ : Int)
    = (nonLateP cfg σ : Int)
  freePpos : 0 ≤ σ.fSt.playersFree
  cfP : ∀ c, pOwner cfg σ c → (cfg.ntp : Int) ≤ σ.fSt.playersFree
  teamIdEq : σ.fSt.teamId = 1 + (teamsFormed cfg σ : Int)
  quiet : activeCaps cfg σ = 0 →
    σ.sems.playersWaitTeam = [] ∧ σ.sems.goaliesWaitTeam = [] ∧
    σ.sems.playerRegistered = 0 ∧ midP cfg σ = 0 ∧ midG cfg σ = 0
  balP : ∀ i, i < cfg.np → ∀ k, σ.pproc i = .capWait k →
    1 ≤ k ∧ k + 1 ≤ cfg.ntp ∧
    σ.sems.playersWaitTeam.length + midP cfg σ + σ.sems.playerRegistered = 1 ∧
    σ.sems.goaliesWaitTeam = [] ∧ midG cfg σ = 0
  balPG : ∀ i, i < cfg.np → σ.pproc i = .capWaitG →
    σ.sems.playersWaitTeam = [] ∧ midP cfg σ = 0 ∧
    σ.sems.goaliesWaitTeam.length + midG cfg σ + σ.sems.playerRegistered = 1
  balG : ∀ j, j < cfg.ng → ∀ k, σ.gproc j = .capWait k →
    1 ≤ k ∧ k ≤ cfg.ntp ∧
    σ.sems.playersWaitTeam.length + midP cfg σ + σ.sems.playerRegistered + k
      = cfg.ntp + 1 ∧
    σ.sems.goaliesWaitTeam = [] ∧ midG cfg σ = 0
  ghostWp : ∀ c ∈ σ.sems.playersWaitTeam, pOwner cfg σ c
  ghostWg : ∀ c ∈ σ.sems.goaliesWaitTeam, gOwner cfg σ c
  ghostMidP : ∀ i, i < cfg.np → ∀ c,
    (σ.pproc i = .recRead c ∨ ∃ t, σ.pproc i = .recAck c t) → pOwner cfg σ c
  ghostMidG : ∀ j, j < cfg.ng → ∀ c,
    (σ.gproc j = .recRead c ∨ ∃ t, σ.gproc j = .recAck c t) → gOwner cfg σ c
  readP : ∀ i, i < cfg.np → ∀ c t, σ.pproc i = .recAck c t → t = σ.fSt.teamId
  readG : ∀ j, j < cfg.ng → ∀ c t, σ.gproc j = .recAck c t → t = σ.fSt.teamId
  recLinkP : ∀ i, i < cfg.np → ∀ r, (σ.pproc i).res = some r →
    ∀ c, r.role = .recruitOf c →
    (activeCapAgent cfg σ c ∧ r.team = σ.fSt.teamId) ∨
      σ.resOf c = some ⟨r.team, .captain⟩
  recLinkG : ∀ j, j < cfg.ng → ∀ r, (σ.gproc j).res = some r →
    ∀ c, r.role = .recruitOf c →
    (activeCapAgent cfg σ c ∧ r.team = σ.fSt.teamId) ∨
      σ.resOf c = some ⟨r.team, .captain⟩
  resIdP : ∀ i, i < cfg.np → ∀ r, (σ.pproc i).res = some r →
    (r.role = .late → r.team = 0 ∧ σ.pproc i = .done r) ∧
    (r.role ≠ .late → r.team = 1 ∨ r.team = 2)
  resIdG : ∀ j, j < cfg.ng → ∀ r, (σ.gproc j).res = some r →
    (r.role = .late → r.team = 0 ∧ σ.gproc j = .done r) ∧
    (r.role ≠ .late → r.team = 1 ∨ r.team = 2)
  histP : ∀ i, i < cfg.np → σ.phist i = histOfP (σ.pproc i)
  histG : ∀ j, j < cfg.ng → σ.ghist j = histOfG (σ.gproc j)
  oobP : ∀ i, ¬ i < cfg.np → σ.pproc i = .start ∧ σ.phist i = []
  oobG : ∀ j, ¬ j < cfg.ng → σ.gproc j = .start ∧ σ.ghist j = []

/-! ### The invariant holds initially -/

lemma inv_init (cfg : SysCfg) : Inv cfg initSys := by
  constructor <;>
    first
    | (simp [initSys, activeCaps, teamsFormed, consPlayers, midP, midG, enteredP,
        enteredG, nonLateP, nonLateG, pCount, gCount, countB, PPC.isActiveCap,
        PPC.isCapWait, PPC.isCapWaitG, PPC.isMid, PPC.entered, PPC.isDoneCap,
        PPC.nonLate, PPC.consumedP, PPC.res, GPC.isCapWait, GPC.isMid, GPC.entered,
        GPC.isDoneCap, GPC.nonLate, GPC.res, Sys.resOf, pOwner, gOwner,
        activeCapAgent, histOfP, histOfG]
       done)
    | (intro c hc; rcases c with i | j <;> simp [initSys, pOwner, PPC.isCapWait,
        GPC.isCapWait] at hc)

/-! ### Arithmetic consequences of the invariant -/

lemma teamsFormed_le_consPlayers (cfg : SysCfg) (σ : Sys) :
    teamsFormed cfg σ ≤ consPlayers cfg σ := by
  have h := countB_le_countB cfg.np σ.pproc PPC.isDoneCap PPC.consumedP
    (fun a ha => by simp [PPC.consumedP, ha])
  unfold teamsFormed consPlayers pCount gCount
  omega

lemma nonLateP_le (cfg : SysCfg) (σ : Sys) (h : Inv cfg σ) :
    nonLateP cfg σ ≤ 2 * cfg.ntp := by
  have := h.nlP
  omega

lemma consPlayers_le_two (cfg : SysCfg) (σ : Sys) (h : Inv cfg σ) (hn : 1 ≤ cfg.ntp) :
    consPlayers cfg σ ≤ 2 := by
  have h1 : ((nonLateP cfg σ : Nat) : Int) ≤ 2 * (cfg.ntp : Int) := by
    have := nonLateP_le cfg σ h
    exact_mod_cast this
  have h2 : (cfg.ntp : Int) * (consPlayers cfg σ : Int) ≤ 2 * (cfg.ntp : Int) := by
    have hf := h.freeP
    have hp := h.freePpos
    linarith
  by_contra hc
  push_neg at hc
  have h3 : (3 : Int) ≤ (consPlayers cfg σ : Int) := by exact_mod_cast hc
  have hpos : (1 : Int) ≤ (cfg.ntp : Int) := by exact_mod_cast hn
  nlinarith

lemma pOwner_teamsFormed_le_one (cfg : SysCfg) (σ : Sys) (h : Inv cfg σ)
    (hn : 1 ≤ cfg.ntp) (c : Agent) (hc : pOwner cfg σ c) :
    teamsFormed cfg σ ≤ 1 := by
  have hfree := h.cfP c hc
  have hf := h.freeP
  have h1 : ((nonLateP cfg σ : Nat) : Int) ≤ 2 * (cfg.ntp : Int) := by
    have := nonLateP_le cfg σ h
    exact_mod_cast this
  have hpos : (1 : Int) ≤ (cfg.ntp : Int) := by exact_mod_cast hn
  have h2 : (cfg.ntp : Int) * ((consPlayers cfg σ : Int) + 1) ≤ 2 * (cfg.ntp : Int) := by
    ring_nf
    ring_nf at hf
    linarith
  have h3 : (consPlayers cfg σ : Int) + 1 ≤ 2 := by
    nlinarith
  have h4 : consPlayers cfg σ ≤ 1 := by exact_mod_cast by linarith
  have := teamsFormed_le_consPlayers cfg σ
  omega

lemma gOwner_split (cfg : SysCfg) (σ : Sys) :
    consPlayers cfg σ = pCount cfg σ PPC.isCapWaitG + teamsFormed cfg σ := by
  unfold consPlayers teamsFormed
  have h : pCount cfg σ PPC.consumedP
      = pCount cfg σ PPC.isCapWaitG + pCount cfg σ PPC.isDoneCap := by
    unfold pCount
    have := countB_or cfg.np σ.pproc PPC.isCapWaitG PPC.isDoneCap
      (fun a => by cases a <;> simp [PPC.isCapWaitG, PPC.isDoneCap, PPC.res])
    rw [← this]
    rfl
  omega

lemma gOwner_teamsFormed_le_one (cfg : SysCfg) (σ : Sys) (h : Inv cfg σ)
    (hn : 1 ≤ cfg.ntp) (c : Agent) (hc : gOwner cfg σ c) :
    teamsFormed cfg σ ≤ 1 := by
  rcases c with i | j
  · obtain ⟨hi, hcw⟩ := hc
    have h1 : 1 ≤ pCount cfg σ PPC.isCapWaitG :=
      one_le_countB cfg.np i σ.pproc PPC.isCapWaitG hi hcw
    have h2 := consPlayers_le_two cfg σ h hn
    have h3 := gOwner_split cfg σ
    omega
  · exact absurd hc (by simp [gOwner])

lemma activeCap_teamsFormed_le_one (cfg : SysCfg) (σ : Sys) (h : Inv cfg σ)
    (hn : 1 ≤ cfg.ntp) (c : Agent) (hc : activeCapAgent cfg σ c) :
    teamsFormed cfg σ ≤ 1 := by
  rcases hc with hc | hc
  · exact pOwner_teamsFormed_le_one cfg σ h hn c hc
  · exact gOwner_teamsFormed_le_one cfg σ h hn c hc

lemma activeCapAgent_player (cfg : SysCfg) (σ : Sys) (i : Nat) :
    activeCapAgent cfg σ (.player i) ↔
      i < cfg.np ∧ (σ.pproc i).isActiveCap = true := by
  simp only [activeCapAgent, pOwner, gOwner, PPC.isActiveCap, Bool.or_eq_true]
  tauto

lemma activeCapAgent_goalie (cfg : SysCfg) (σ : Sys) (j : Nat) :
    activeCapAgent cfg σ (.goalie j) ↔
      j < cfg.ng ∧ (σ.gproc j).isCapWait = true := by
  simp only [activeCapAgent, pOwner, gOwner]
  tauto

lemma one_le_activeCaps_of (cfg : SysCfg) (σ : Sys) (c : Agent)
    (hc : activeCapAgent cfg σ c) : 1 ≤ activeCaps cfg σ := by
  unfold activeCaps
  rcases c with i | j
  · obtain ⟨hi, hcw⟩ := (activeCapAgent_player cfg σ i).1 hc
    have := one_le_countB cfg.np i σ.pproc PPC.isActiveCap hi hcw
    unfold pCount
    omega
  · obtain ⟨hj, hcw⟩ := (activeCapAgent_goalie cfg σ j).1 hc
    have := one_le_countB cfg.ng j σ.gproc GPC.isCapWait hj hcw
    unfold gCount
    omega

lemma activeCap_unique (cfg : SysCfg) (σ : Sys) (h : Inv cfg σ) (c c' : Agent)
    (hc : activeCapAgent cfg σ c) (hc' : activeCapAgent cfg σ c') : c = c' := by
  have hm := h.mutexCap
  by_contra hne
  have h2 : 2 ≤ activeCaps cfg σ := by
    unfold activeCaps
    rcases c with i | j <;> rcases c' with i' | j'
    · obtain ⟨hi, hw⟩ := (activeCapAgent_player cfg σ i).1 hc
      obtain ⟨hi', hw'⟩ := (activeCapAgent_player cfg σ i').1 hc'
      have hii : i ≠ i' := fun hh => hne (by rw [hh])
      have := two_le_countB cfg.np i i' σ.pproc PPC.isActiveCap hi hi' hii hw hw'
      unfold pCount
      omega
    · obtain ⟨hi, hw⟩ := (activeCapAgent_player cfg σ i).1 hc
      obtain ⟨hj', hw'⟩ := (activeCapAgent_goalie cfg σ j').1 hc'
      have h1 := one_le_countB cfg.np i σ.pproc PPC.isActiveCap hi hw
      have h2 := one_le_countB cfg.ng j' σ.gproc GPC.isCapWait hj' hw'
      unfold pCount gCount
      omega
    · obtain ⟨hj, hw⟩ := (activeCapAgent_goalie cfg σ j).1 hc
      obtain ⟨hi', hw'⟩ := (activeCapAgent_player cfg σ i').1 hc'
      have h1 := one_le_countB cfg.ng j σ.gproc GPC.isCapWait hj hw
      have h2 := one_le_countB cfg.np i' σ.pproc PPC.isActiveCap hi' hw'
      unfold pCount gCount
      omega
    · obtain ⟨hj, hw⟩ := (activeCapAgent_goalie cfg σ j).1 hc
      obtain ⟨hj', hw'⟩ := (activeCapAgent_goalie cfg σ j').1 hc'
      have hjj : j ≠ j' := fun hh => hne (by rw [hh])
      have := two_le_countB cfg.ng j j' σ.gproc GPC.isCapWait hj hj' hjj hw hw'
      unfold gCount
      omega
  omega

/-- While a captain is in formation, the current team id is the one it
will return, and it is 1 or 2. -/
lemma activeCap_teamId (cfg : SysCfg) (σ : Sys) (h : Inv cfg σ) (hn : 1 ≤ cfg.ntp)
    (c : Agent) (hc : activeCapAgent cfg σ c) :
    σ.fSt.teamId = 1 ∨ σ.fSt.teamId = 2 := by
  have h1 := activeCap_teamsFormed_le_one cfg σ h hn c hc
  have h2 := h.teamIdEq
  have : teamsFormed cfg σ = 0 ∨ teamsFormed cfg σ = 1 := by omega
  rcases this with h3 | h3 <;> rw [h3] at h2 <;> simp at h2 <;> omega

/-! ### Bookkeeping under a single control-state update -/

@[simp] lemma setPStat_playersArrived (s : FSt) (id : Nat) (st : Status) :
    (s.setPStat id st).playersArrived = s.playersArrived := rfl
@[simp] lemma setPStat_playersFree (s : FSt) (id : Nat) (st : Status) :
    (s.setPStat id st).playersFree = s.playersFree := rfl
@[simp] lemma setPStat_goaliesArrived (s : FSt) (id : Nat) (st : Status) :
    (s.setPStat id st).goaliesArrived = s.goaliesArrived := rfl
@[simp] lemma setPStat_goaliesFree (s : FSt) (id : Nat) (st : Status) :
    (s.setPStat id st).goaliesFree = s.goaliesFree := rfl
@[simp] lemma setPStat_teamId (s : FSt) (id : Nat) (st : Status) :
    (s.setPStat id st).teamId = s.teamId := rfl
@[simp] lemma setGStat_playersArrived (s : FSt) (id : Nat) (st : Status) :
    (s.setGStat id st).playersArrived = s.playersArrived := rfl
@[simp] lemma setGStat_playersFree (s : FSt) (id : Nat) (st : Status) :
    (s.setGStat id st).playersFree = s.playersFree := rfl
@[simp] lemma setGStat_goaliesArrived (s : FSt) (id : Nat) (st : Status) :
    (s.setGStat id st).goaliesArrived = s.goaliesArrived := rfl
@[simp] lemma setGStat_goaliesFree (s : FSt) (id : Nat) (st : Status) :
    (s.setGStat id st).goaliesFree = s.goaliesFree := rfl
@[simp] lemma setGStat_teamId (s : FSt) (id : Nat) (st : Status) :
    (s.setGStat id st).teamId = s.teamId := rfl

lemma pCount_shift (cfg : SysCfg) (σ σ' : Sys) (i : Nat) (pcNew : PPC) (f : PPC → Bool)
    (hi : i < cfg.np)
    (hp : σ'.pproc = fun n => if n = i then pcNew else σ.pproc n) :
    pCount cfg σ' f + (if f (σ.pproc i) then 1 else 0)
      = pCount cfg σ f + (if f pcNew then 1 else 0) := by
  unfold pCount
  rw [hp]
  exact countB_update cfg.np i σ.pproc pcNew f hi

lemma gCount_shift (cfg : SysCfg) (σ σ' : Sys) (j : Nat) (pcNew : GPC) (f : GPC → Bool)
    (hj : j < cfg.ng)
    (hp : σ'.gproc = fun n => if n = j then pcNew else σ.gproc n) :
    gCount cfg σ' f + (if f (σ.gproc j) then 1 else 0)
      = gCount cfg σ f + (if f pcNew then 1 else 0) := by
  unfold gCount
  rw [hp]
  exact countB_update cfg.ng j σ.gproc pcNew f hj

lemma pCount_frame (cfg : SysCfg) (σ σ' : Sys) (f : PPC → Bool)
    (hp : σ'.pproc = σ.pproc) : pCount cfg σ' f = pCount cfg σ f := by
  unfold pCount
  rw [hp]

lemma gCount_frame (cfg : SysCfg) (σ σ' : Sys) (f : GPC → Bool)
    (hp : σ'.gproc = σ.gproc) : gCount cfg σ' f = gCount cfg σ f := by
  unfold gCount
  rw [hp]

lemma pCount_same (cfg : SysCfg) (σ σ' : Sys) (i : Nat) (pcNew : PPC) (f : PPC → Bool)
    (hi : i < cfg.np)
    (hp : σ'.pproc = fun n => if n = i then pcNew else σ.pproc n)
    (hv : f (σ.pproc i) = f pcNew) :
    pCount cfg σ' f = pCount cfg σ f := by
  have := pCount_shift cfg σ σ' i pcNew f hi hp
  rw [hv] at this
  omega

lemma gCount_same (cfg : SysCfg) (σ σ' : Sys) (j : Nat) (pcNew : GPC) (f : GPC → Bool)
    (hj : j < cfg.ng)
    (hp : σ'.gproc = fun n => if n = j then pcNew else σ.gproc n)
    (hv : f (σ.gproc j) = f pcNew) :
    gCount cfg σ' f = gCount cfg σ f := by
  have := gCount_shift cfg σ σ' j pcNew f hj hp
  rw [hv] at this
  omega

lemma pCount_incr (cfg : SysCfg) (σ σ' : Sys) (i : Nat) (pcNew : PPC) (f : PPC → Bool)
    (hi : i < cfg.np)
    (hp : σ'.pproc = fun n => if n = i then pcNew else σ.pproc n)
    (hvOld : f (σ.pproc i) = false) (hvNew : f pcNew = true) :
    pCount cfg σ' f = pCount cfg σ f + 1 := by
  have := pCount_shift cfg σ σ' i pcNew f hi hp
  rw [hvOld, hvNew] at this
  simpa using this

lemma pCount_decr (cfg : SysCfg) (σ σ' : Sys) (i : Nat) (pcNew : PPC) (f : PPC → Bool)
    (hi : i < cfg.np)
    (hp : σ'.pproc = fun n => if n = i then pcNew else σ.pproc n)
    (hvOld : f (σ.pproc i) = true) (hvNew : f pcNew = false) :
    pCount cfg σ' f + 1 = pCount cfg σ f := by
  have := pCount_shift cfg σ σ' i pcNew f hi hp
  rw [hvOld, hvNew] at this
  simpa using this

lemma gCount_incr (cfg : SysCfg) (σ σ' : Sys) (j : Nat) (pcNew : GPC) (f : GPC → Bool)
    (hj : j < cfg.ng)
    (hp : σ'.gproc = fun n => if n = j then pcNew else σ.gproc n)
    (hvOld : f (σ.gproc j) = false) (hvNew : f pcNew = true) :
    gCount cfg σ' f = gCount cfg σ f + 1 := by
  have := gCount_shift cfg σ σ' j pcNew f hj hp
  rw [hvOld, hvNew] at this
  simpa using this

lemma gCount_decr (cfg : SysCfg) (σ σ' : Sys) (j : Nat) (pcNew : GPC) (f : GPC → Bool)
    (hj : j < cfg.ng)
    (hp : σ'.gproc = fun n => if n = j then pcNew else σ.gproc n)
    (hvOld : f (σ.gproc j) = true) (hvNew : f pcNew = false) :
    gCount cfg σ' f + 1 = gCount cfg σ f := by
  have := gCount_shift cfg σ σ' j pcNew f hj hp
  rw [hvOld, hvNew] at this
  simpa using this

lemma pOwner_congr (cfg : SysCfg) (σ σ' : Sys)
    (hp : ∀ i, i < cfg.np → (σ'.pproc i).isCapWait = (σ.pproc i).isCapWait)
    (hg : ∀ j, j < cfg.ng → (σ'.gproc j).isCapWait = (σ.gproc j).isCapWait)
    (c : Agent) : pOwner cfg σ' c ↔ pOwner cfg σ c := by
  rcases c with i | j
  · exact ⟨fun ⟨h1, h2⟩ => ⟨h1, by rw [← hp i h1]; exact h2⟩,
      fun ⟨h1, h2⟩ => ⟨h1, by rw [hp i h1]; exact h2⟩⟩
  · exact ⟨fun ⟨h1, h2⟩ => ⟨h1, by rw [← hg j h1]; exact h2⟩,
      fun ⟨h1, h2⟩ => ⟨h1, by rw [hg j h1]; exact h2⟩⟩

lemma gOwner_congr (cfg : SysCfg) (σ σ' : Sys)
    (hp : ∀ i, i < cfg.np → (σ'.pproc i).isCapWaitG = (σ.pproc i).isCapWaitG)
    (c : Agent) : gOwner cfg σ' c ↔ gOwner cfg σ c := by
  rcases c with i | j
  · exact ⟨fun ⟨h1, h2⟩ => ⟨h1, by rw [← hp i h1]; exact h2⟩,
      fun ⟨h1, h2⟩ => ⟨h1, by rw [hp i h1]; exact h2⟩⟩
  · simp [gOwner]

lemma activeCapAgent_congr (cfg : SysCfg) (σ σ' : Sys)
    (hp : ∀ i, i < cfg.np → (σ'.pproc i).isCapWait = (σ.pproc i).isCapWait)
    (hpg : ∀ i, i < cfg.np → (σ'.pproc i).isCapWaitG = (σ.pproc i).isCapWaitG)
    (hg : ∀ j, j < cfg.ng → (σ'.gproc j).isCapWait = (σ.gproc j).isCapWait)
    (c : Agent) : activeCapAgent cfg σ' c ↔ activeCapAgent cfg σ c :=
  or_congr (pOwner_congr cfg σ σ' hp hg c) (gOwner_congr cfg σ σ' hpg c)

lemma resOf_congr (σ σ' : Sys)
    (hp : ∀ i, (σ'.pproc i).res = (σ.pproc i).res)
    (hg : ∀ j, (σ'.gproc j).res = (σ.gproc j).res)
    (c : Agent) : σ'.resOf c = σ.resOf c := by
  rcases c with i | j
  · exact hp i
  · exact hg j

lemma ppcResSomeFacts (pc : PPC) (r : Res) (h : pc.res = some r) :
    pc.isCapWait = false ∧ pc.isCapWaitG = false ∧ pc.isMid = false ∧
      pc.entered = true := by
  cases pc <;> simp_all [PPC.res, PPC.isCapWait, PPC.isCapWaitG, PPC.isMid, PPC.entered]

lemma gpcResSomeFacts (pc : GPC) (r : Res) (h : pc.res = some r) :
    pc.isCapWait = false ∧ pc.isMid = false ∧ pc.entered = true := by
  cases pc <;> simp_all [GPC.res, GPC.isCapWait, GPC.isMid, GPC.entered]

/-- Frame preservation: a step that only changes semaphores other than
the mutex, the two recruitment semaphores and playerRegistered
preserves the invariant. -/
lemma inv_frame_sems (cfg : SysCfg) (σ : Sys) (h : Inv cfg σ) (f : Sems → Sems)
    (hmutex : (f σ.sems).mutex = σ.sems.mutex)
    (hwp : (f σ.sems).playersWaitTeam = σ.sems.playersWaitTeam)
    (hwg : (f σ.sems).goaliesWaitTeam = σ.sems.goaliesWaitTeam)
    (hreg : (f σ.sems).playerRegistered = σ.sems.playerRegistered) :
    Inv cfg (σ.mapSems f) := by
  set σ' := σ.mapSems f with hσ'
  have hpc : ∀ fc : PPC → Bool, pCount cfg σ' fc = pCount cfg σ fc :=
    fun fc => pCount_frame cfg σ σ' fc rfl
  have hgc : ∀ fc : GPC → Bool, gCount cfg σ' fc = gCount cfg σ fc :=
    fun fc => gCount_frame cfg σ σ' fc rfl
  have hAct : activeCaps cfg σ' = activeCaps cfg σ := by
    unfold activeCaps
    rw [hpc, hgc]
  have hTf : teamsFormed cfg σ' = teamsFormed cfg σ := by
    unfold teamsFormed
    rw [hpc, hgc]
  have hCons : consPlayers cfg σ' = consPlayers cfg σ := by
    unfold consPlayers
    rw [hpc, hgc]
  have hMidP : midP cfg σ' = midP cfg σ := by unfold midP; rw [hpc]
  have hMidG : midG cfg σ' = midG cfg σ := by unfold midG; rw [hgc]
  have hEntP : enteredP cfg σ' = enteredP cfg σ := by unfold enteredP; rw [hpc]
  have hEntG : enteredG cfg σ' = enteredG cfg σ := by unfold enteredG; rw [hgc]
  have hNlP : nonLateP cfg σ' = nonLateP cfg σ := by unfold nonLateP; rw [hpc]
  have hNlG : nonLateG cfg σ' = nonLateG cfg σ := by unfold nonLateG; rw [hgc]
  have hPO : ∀ c, pOwner cfg σ' c ↔ pOwner cfg σ c :=
    pOwner_congr cfg σ σ' (fun _ _ => rfl) (fun _ _ => rfl)
  have hGO : ∀ c, gOwner cfg σ' c ↔ gOwner cfg σ c :=
    gOwner_congr cfg σ σ' (fun _ _ => rfl)
  have hACA : ∀ c, activeCapAgent cfg σ' c ↔ activeCapAgent cfg σ c :=
    activeCapAgent_congr cfg σ σ' (fun _ _ => rfl) (fun _ _ => rfl) (fun _ _ => rfl)
  have hRO : ∀ c, σ'.resOf c = σ.resOf c :=
    resOf_congr σ σ' (fun _ => rfl) (fun _ => rfl)
  refine ⟨?_, ?_, ?_, ?_, ?_, ?_, ?_, ?_, ?_, ?_, ?_, ?_, ?_, ?_, ?_, ?_, ?_, ?_,
    ?_, ?_, ?_, ?_, ?_, ?_, ?_, ?_, ?_⟩
  · show (f σ.sems).mutex + activeCaps cfg σ' = 1
    rw [hmutex, hAct]
    exact h.mutexCap
  · show σ.fSt.playersArrived = _
    rw [hEntP]
    exact h.arrP
  · show σ.fSt.goaliesArrived = _
    rw [hEntG]
    exact h.arrG
  · rw [hNlP, hEntP]
    exact h.nlP
  · rw [hNlG, hEntG]
    exact h.nlG
  · show σ.fSt.playersFree + _ = _
    rw [hCons, hNlP]
    exact h.freeP
  · exact h.freePpos
  · intro c hc
    exact h.cfP c ((hPO c).1 hc)
  · show σ.fSt.teamId = _
    rw [hTf]
    exact h.teamIdEq
  · intro hz
    rw [hAct] at hz
    have := h.quiet hz
    rw [show σ'.sems = f σ.sems from rfl, hwp, hwg, hreg, hMidP, hMidG]
    exact this
  · intro i hi k hk
    have := h.balP i hi k hk
    rw [show σ'.sems = f σ.sems from rfl, hwp, hwg, hreg, hMidP, hMidG]
    exact this
  · intro i hi hk
    have := h.balPG i hi hk
    rw [show σ'.sems = f σ.sems from rfl, hwp, hwg, hreg, hMidP, hMidG]
    exact this
  · intro j hj k hk
    have := h.balG j hj k hk
    rw [show σ'.sems = f σ.sems from rfl, hwp, hwg, hreg, hMidP, hMidG]
    exact this
  · intro c hc
    rw [show σ'.sems = f σ.sems from rfl, hwp] at hc
    exact (hPO c).2 (h.ghostWp c hc)
  · intro c hc
    rw [show σ'.sems = f σ.sems from rfl, hwg] at hc
    exact (hGO c).2 (h.ghostWg c hc)
  · intro i hi c hc
    exact (hPO c).2 (h.ghostMidP i hi c hc)
  · intro j hj c hc
    exact (hGO c).2 (h.ghostMidG j hj c hc)
  · intro i hi c t ht
    exact h.readP i hi c t ht
  · intro j hj c t ht
    exact h.readG j hj c t ht
  · intro i hi r hr c hc
    rcases h.recLinkP i hi r hr c hc with ⟨ha, hteam⟩ | hres
    · exact Or.inl ⟨(hACA c).2 ha, hteam⟩
    · exact Or.inr (by rw [hRO c]; exact hres)
  · intro j hj r hr c hc
    rcases h.recLinkG j hj r hr c hc with ⟨ha, hteam⟩ | hres
    · exact Or.inl ⟨(hACA c).2 ha, hteam⟩
    · exact Or.inr (by rw [hRO c]; exact hres)
  · exact h.resIdP
  · exact h.resIdG
  · exact h.histP
  · exact h.histG
  · exact h.oobP
  · exact h.oobG

@[simp] lemma writeOptP_sems (σ : Sys) (i : Nat) (o : Option Status) :
    (σ.writeOptP i o).sems = σ.sems := by cases o <;> rfl
@[simp] lemma writeOptP_pproc (σ : Sys) (i : Nat) (o : Option Status) :
    (σ.writeOptP i o).pproc = σ.pproc := by cases o <;> rfl
@[simp] lemma writeOptP_gproc (σ : Sys) (i : Nat) (o : Option Status) :
    (σ.writeOptP i o).gproc = σ.gproc := by cases o <;> rfl
@[simp] lemma writeOptP_ghist (σ : Sys) (i : Nat) (o : Option Status) :
    (σ.writeOptP i o).ghist = σ.ghist := by cases o <;> rfl
lemma writeOptP_phist (σ : Sys) (i : Nat) (o : Option Status) :
    (σ.writeOptP i o).phist
      = fun n => if n = i then σ.phist n ++ o.toList else σ.phist n := by
  cases o <;> funext n <;> by_cases hn : n = i <;> simp [Sys.writeOptP, hn]
@[simp] lemma writeOptP_playersArrived (σ : Sys) (i : Nat) (o : Option Status) :
    (σ.writeOptP i o).fSt.playersArrived = σ.fSt.playersArrived := by cases o <;> simp [Sys.writeOptP]
@[simp] lemma writeOptP_playersFree (σ : Sys) (i : Nat) (o : Option Status) :
    (σ.writeOptP i o).fSt.playersFree = σ.fSt.playersFree := by cases o <;> simp [Sys.writeOptP]
@[simp] lemma writeOptP_goaliesArrived (σ : Sys) (i : Nat) (o : Option Status) :
    (σ.writeOptP i o).fSt.goaliesArrived = σ.fSt.goaliesArrived := by cases o <;> simp [Sys.writeOptP]
@[simp] lemma writeOptP_goaliesFree (σ : Sys) (i : Nat) (o : Option Status) :
    (σ.writeOptP i o).fSt.goaliesFree = σ.fSt.goaliesFree := by cases o <;> simp [Sys.writeOptP]
@[simp] lemma writeOptP_teamId (σ : Sys) (i : Nat) (o : Option Status) :
    (σ.writeOptP i o).fSt.teamId = σ.fSt.teamId := by cases o <;> simp [Sys.writeOptP]

@[simp] lemma writeOptG_sems (σ : Sys) (j : Nat) (o : Option Status) :
    (σ.writeOptG j o).sems = σ.sems := by cases o <;> rfl
@[simp] lemma writeOptG_pproc (σ : Sys) (j : Nat) (o : Option Status) :
    (σ.writeOptG j o).pproc = σ.pproc := by cases o <;> rfl
@[simp] lemma writeOptG_gproc (σ : Sys) (j : Nat) (o : Option Status) :
    (σ.writeOptG j o).gproc = σ.gproc := by cases o <;> rfl
@[simp] lemma writeOptG_phist (σ : Sys) (j : Nat) (o : Option Status) :
    (σ.writeOptG j o).phist = σ.phist := by cases o <;> rfl
lemma writeOptG_ghist (σ : Sys) (j : Nat) (o : Option Status) :
    (σ.writeOptG j o).ghist
      = fun n => if n = j then σ.ghist n ++ o.toList else σ.ghist n := by
  cases o <;> funext n <;> by_cases hn : n = j <;> simp [Sys.writeOptG, hn]
@[simp] lemma writeOptG_playersArrived (σ : Sys) (j : Nat) (o : Option Status) :
    (σ.writeOptG j o).fSt.playersArrived = σ.fSt.playersArrived := by cases o <;> simp [Sys.writeOptG]
@[simp] lemma writeOptG_playersFree (σ : Sys) (j : Nat) (o : Option Status) :
    (σ.writeOptG j o).fSt.playersFree = σ.fSt.playersFree := by cases o <;> simp [Sys.writeOptG]
@[simp] lemma writeOptG_goaliesArrived (σ : Sys) (j : Nat) (o : Option Status) :
    (σ.writeOptG j o).fSt.goaliesArrived = σ.fSt.goaliesArrived := by cases o <;> simp [Sys.writeOptG]
@[simp] lemma writeOptG_goaliesFree (σ : Sys) (j : Nat) (o : Option Status) :
    (σ.writeOptG j o).fSt.goaliesFree = σ.fSt.goaliesFree := by cases o <;> simp [Sys.writeOptG]
@[simp] lemma writeOptG_teamId (σ : Sys) (j : Nat) (o : Option Status) :
    (σ.writeOptG j o).fSt.teamId = σ.fSt.teamId := by cases o <;> simp [Sys.writeOptG]

/-- Preservation template for every step a player process takes after
formation (gate entries and releases): the process keeps the same
result r, possibly appends one status write, and touches no semaphore
among mutex, the recruitment credits and playerRegistered. -/
lemma inv_pMove (cfg : SysCfg) (σ : Sys) (i : Nat) (r : Res) (pcNew : PPC)
    (o : Option Status) (f : Sems → Sems) (h : Inv cfg σ) (hi : i < cfg.np)
    (hresOld : (σ.pproc i).res = some r) (hresNew : pcNew.res = some r)
    (hnl : r.role ≠ .late)
    (hhist : histOfP pcNew = histOfP (σ.pproc i) ++ o.toList)
    (hmutex : (f σ.sems).mutex = σ.sems.mutex)
    (hwp : (f σ.sems).playersWaitTeam = σ.sems.playersWaitTeam)
    (hwg : (f σ.sems).goaliesWaitTeam = σ.sems.goaliesWaitTeam)
    (hreg : (f σ.sems).playerRegistered = σ.sems.playerRegistered) :
    Inv cfg (((σ.writeOptP i o).mapSems f).withP i pcNew) := by
  obtain ⟨ow1, ow2, ow3, ow4⟩ := ppcResSomeFacts _ r hresOld
  obtain ⟨nw1, nw2, nw3, nw4⟩ := ppcResSomeFacts _ r hresNew
  set σ' := ((σ.writeOptP i o).mapSems f).withP i pcNew with hσ'
  have hpp : σ'.pproc = fun n => if n = i then pcNew else σ.pproc n := by
    funext n
    simp [hσ']
  have hsems : σ'.sems = f σ.sems := by simp [hσ']
  have hsame : ∀ fc : PPC → Bool, fc (σ.pproc i) = fc pcNew →
      pCount cfg σ' fc = pCount cfg σ fc :=
    fun fc hv => pCount_same cfg σ σ' i pcNew fc hi hpp hv
  have hgc : ∀ fc : GPC → Bool, gCount cfg σ' fc = gCount cfg σ fc :=
    fun fc => gCount_frame cfg σ σ' fc (by simp [hσ'])
  have hAct : activeCaps cfg σ' = activeCaps cfg σ := by
    unfold activeCaps
    rw [hsame _ (by simp [PPC.isActiveCap, ow1, ow2, nw1, nw2]), hgc]
  have hTf : teamsFormed cfg σ' = teamsFormed cfg σ := by
    unfold teamsFormed
    rw [hsame _ (by simp [PPC.isDoneCap, hresOld, hresNew]), hgc]
  have hCons : consPlayers cfg σ' = consPlayers cfg σ := by
    unfold consPlayers
    rw [hsame _ (by simp [PPC.consumedP, PPC.isDoneCap, hresOld, hresNew, ow2, nw2]), hgc]
  have hMidP : midP cfg σ' = midP cfg σ := by
    unfold midP
    rw [hsame _ (by rw [ow3, nw3])]
  have hMidG : midG cfg σ' = midG cfg σ := by unfold midG; rw [hgc]
  have hEntP : enteredP cfg σ' = enteredP cfg σ := by
    unfold enteredP
    rw [hsame _ (by rw [ow4, nw4])]
  have hEntG : enteredG cfg σ' = enteredG cfg σ := by unfold enteredG; rw [hgc]
  have hNlP : nonLateP cfg σ' = nonLateP cfg σ := by
    unfold nonLateP
    rw [hsame _ (by simp [PPC.nonLate, ow4, nw4, hresOld, hresNew])]
  have hNlG : nonLateG cfg σ' = nonLateG cfg σ := by unfold nonLateG; rw [hgc]
  have hpcw : ∀ n, n < cfg.np → (σ'.pproc n).isCapWait = (σ.pproc n).isCapWait := by
    intro n _
    rw [hpp]
    by_cases hn : n = i
    · subst hn; simp [ow1, nw1]
    · simp [hn]
  have hpcwg : ∀ n, n < cfg.np → (σ'.pproc n).isCapWaitG = (σ.pproc n).isCapWaitG := by
    intro n _
    rw [hpp]
    by_cases hn : n = i
    · subst hn; simp [ow2, nw2]
    · simp [hn]
  have hPO := pOwner_congr cfg σ σ' hpcw (fun _ _ => by rw [show σ'.gproc = σ.gproc by simp [hσ']])
  have hGO := gOwner_congr cfg σ σ' hpcwg
  have hACA := activeCapAgent_congr cfg σ σ' hpcw hpcwg
    (fun _ _ => by rw [show σ'.gproc = σ.gproc by simp [hσ']])
  have hRes : ∀ n, (σ'.pproc n).res = (σ.pproc n).res := by
    intro n
    rw [hpp]
    by_cases hn : n = i
    · subst hn; simp [hresOld, hresNew]
    · simp [hn]
  have hRO := resOf_congr σ σ' hRes (fun _ => by rw [show σ'.gproc = σ.gproc by simp [hσ']])
  have hFa : σ'.fSt.playersArrived = σ.fSt.playersArrived := by simp [hσ']
  have hFf : σ'.fSt.playersFree = σ.fSt.playersFree := by simp [hσ']
  have hGa : σ'.fSt.goaliesArrived = σ.fSt.goaliesArrived := by simp [hσ']
  have hTi : σ'.fSt.teamId = σ.fSt.teamId := by simp [hσ']
  have hGproc : σ'.gproc = σ.gproc := by simp [hσ']
  have hPh : σ'.phist = fun n => if n = i then σ.phist n ++ o.toList else σ.phist n := by
    funext n
    simp [hσ', writeOptP_phist]
  have hGh : σ'.ghist = σ.ghist := by simp [hσ']
  refine ⟨?_, ?_, ?_, ?_, ?_, ?_, ?_, ?_, ?_, ?_, ?_, ?_, ?_, ?_, ?_, ?_, ?_, ?_,
    ?_, ?_, ?_, ?_, ?_, ?_, ?_, ?_, ?_⟩
  · rw [hsems, hmutex, hAct]
    exact h.mutexCap
  · rw [hFa, hEntP]
    exact h.arrP
  · rw [hGa, hEntG]
    exact h.arrG
  · rw [hNlP, hEntP]
    exact h.nlP
  · rw [hNlG, hEntG]
    exact h.nlG
  · rw [hFf, hCons, hNlP]
    exact h.freeP
  · rw [hFf]
    exact h.freePpos
  · intro c hc
    rw [hFf]
    exact h.cfP c ((hPO c).1 hc)
  · rw [hTi, hTf]
    exact h.teamIdEq
  · intro hz
    rw [hAct] at hz
    rw [hsems, hwp, hwg, hreg, hMidP, hMidG]
    exact h.quiet hz
  · intro i' hi' k hk
    rw [hpp] at hk
    by_cases hii : i' = i
    · subst hii
      simp at hk
      rw [hk] at nw1
      simp [PPC.isCapWait] at nw1
    · simp [hii] at hk
      rw [hsems, hwp, hwg, hreg, hMidP, hMidG]
      exact h.balP i' hi' k hk
  · intro i' hi' hk
    rw [hpp] at hk
    by_cases hii : i' = i
    · subst hii
      simp at hk
      rw [hk] at nw2
      simp [PPC.isCapWaitG] at nw2
    · simp [hii] at hk
      rw [hsems, hwp, hwg, hreg, hMidP, hMidG]
      exact h.balPG i' hi' hk
  · intro j hj k hk
    rw [hGproc] at hk
    rw [hsems, hwp, hwg, hreg, hMidP, hMidG]
    exact h.balG j hj k hk
  · intro c hc
    rw [hsems, hwp] at hc
    exact (hPO c).2 (h.ghostWp c hc)
  · intro c hc
    rw [hsems, hwg] at hc
    exact (hGO c).2 (h.ghostWg c hc)
  · intro i' hi' c hc
    rw [hpp] at hc
    by_cases hii : i' = i
    · subst hii
      simp at hc
      rcases hc with hc | ⟨t, hc⟩ <;> rw [hc] at nw3 <;> simp [PPC.isMid] at nw3
    · simp [hii] at hc
      exact (hPO c).2 (h.ghostMidP i' hi' c hc)
  · intro j hj c hc
    rw [hGproc] at hc
    exact (hGO c).2 (h.ghostMidG j hj c hc)
  · intro i' hi' c t ht
    rw [hpp] at ht
    by_cases hii : i' = i
    · subst hii
      simp at ht
      rw [ht] at nw3
      simp [PPC.isMid] at nw3
    · simp [hii] at ht
      rw [hTi]
      exact h.readP i' hi' c t ht
  · intro j hj c t ht
    rw [hGproc] at ht
    rw [hTi]
    exact h.readG j hj c t ht
  · intro i' hi' r0 hr0 c hc
    rw [hRes i'] at hr0
    rcases h.recLinkP i' hi' r0 hr0 c hc with ⟨ha, hteam⟩ | hres
    · exact Or.inl ⟨(hACA c).2 ha, by rw [hTi]; exact hteam⟩
    · exact Or.inr (by rw [hRO c]; exact hres)
  · intro j hj r0 hr0 c hc
    rw [hGproc] at hr0
    rcases h.recLinkG j hj r0 hr0 c hc with ⟨ha, hteam⟩ | hres
    · exact Or.inl ⟨(hACA c).2 ha, by rw [hTi]; exact hteam⟩
    · exact Or.inr (by rw [hRO c]; exact hres)
  · intro i' hi' r0 hr0
    have hold := h.resIdP i' hi' r0 (by rw [← hRes i']; exact hr0)
    refine ⟨fun hl => ?_, hold.2⟩
    by_cases hii : i' = i
    · subst hii
      rw [hRes i', hresOld] at hr0
      have : r0 = r := by
        injection hr0 with hv
        exact hv.symm
      subst this
      exact absurd hl hnl
    · refine ⟨(hold.1 hl).1, ?_⟩
      rw [hpp]
      simp [hii]
      exact (hold.1 hl).2
  · intro j hj r0 hr0
    rw [hGproc] at hr0
    have hold := h.resIdG j hj r0 hr0
    refine ⟨fun hl => ⟨(hold.1 hl).1, by rw [hGproc]; exact (hold.1 hl).2⟩, hold.2⟩
  · intro i' hi'
    rw [hPh, hpp]
    by_cases hii : i' = i
    · subst hii
      simp [hhist, h.histP i' hi']
    · simp [hii, h.histP i' hi']
  · intro j hj
    rw [hGh, hGproc]
    exact h.histG j hj
  · intro i' hi'
    have hold := h.oobP i' hi'
    have hne : i' ≠ i := fun hh => hi' (hh ▸ hi)
    constructor
    · rw [hpp]
      simp [hne]
      exact hold.1
    · rw [hPh]
      simp [hne]
      exact hold.2
  · intro j hj
    rw [hGproc, hGh]
    exact h.oobG j hj

/-- Goalie analogue of inv_pMove: preservation for every step a goalie
process takes after formation. -/
lemma inv_gMove (cfg : SysCfg) (σ : Sys) (j : Nat) (r : Res) (pcNew : GPC)
    (o : Option Status) (f : Sems → Sems) (h : Inv cfg σ) (hj : j < cfg.ng)
    (hresOld : (σ.gproc j).res = some r) (hresNew : pcNew.res = some r)
    (hnl : r.role ≠ .late)
    (hhist : histOfG pcNew = histOfG (σ.gproc j) ++ o.toList)
    (hmutex : (f σ.sems).mutex = σ.sems.mutex)
    (hwp : (f σ.sems).playersWaitTeam = σ.sems.playersWaitTeam)
    (hwg : (f σ.sems).goaliesWaitTeam = σ.sems.goaliesWaitTeam)
    (hreg : (f σ.sems).playerRegistered = σ.sems.playerRegistered) :
    Inv cfg (((σ.writeOptG j o).mapSems f).withG j pcNew) := by
  obtain ⟨ow1, ow2, ow3⟩ := gpcResSomeFacts _ r hresOld
  obtain ⟨nw1, nw2, nw3⟩ := gpcResSomeFacts _ r hresNew
  set σ' := ((σ.writeOptG j o).mapSems f).withG j pcNew with hσ'
  have hgp : σ'.gproc = fun n => if n = j then pcNew else σ.gproc n := by
    funext n
    simp [hσ']
  have hsems : σ'.sems = f σ.sems := by simp [hσ']
  have hsame : ∀ fc : GPC → Bool, fc (σ.gproc j) = fc pcNew →
      gCount cfg σ' fc = gCount cfg σ fc :=
    fun fc hv => gCount_same cfg σ σ' j pcNew fc hj hgp hv
  have hpcf : ∀ fc : PPC → Bool, pCount cfg σ' fc = pCount cfg σ fc :=
    fun fc => pCount_frame cfg σ σ' fc (by simp [hσ'])
  have hAct : activeCaps cfg σ' = activeCaps cfg σ := by
    unfold activeCaps
    rw [hpcf, hsame _ (by rw [ow1, nw1])]
  have hTf : teamsFormed cfg σ' = teamsFormed cfg σ := by
    unfold teamsFormed
    rw [hpcf, hsame _ (by simp [GPC.isDoneCap, hresOld, hresNew])]
  have hCons : consPlayers cfg σ' = consPlayers cfg σ := by
    unfold consPlayers
    rw [hpcf, hsame _ (by simp [GPC.isDoneCap, hresOld, hresNew])]
  have hMidP : midP cfg σ' = midP cfg σ := by unfold midP; rw [hpcf]
  have hMidG : midG cfg σ' = midG cfg σ := by
    unfold midG
    rw [hsame _ (by rw [ow2, nw2])]
  have hEntP : enteredP cfg σ' = enteredP cfg σ := by unfold enteredP; rw [hpcf]
  have hEntG : enteredG cfg σ' = enteredG cfg σ := by
    unfold enteredG
    rw [hsame _ (by rw [ow3, nw3])]
  have hNlP : nonLateP cfg σ' = nonLateP cfg σ := by unfold nonLateP; rw [hpcf]
  have hNlG : nonLateG cfg σ' = nonLateG cfg σ := by
    unfold nonLateG
    rw [hsame _ (by simp [GPC.nonLate, ow3, nw3, hresOld, hresNew])]
  have hPproc : σ'.pproc = σ.pproc := by simp [hσ']
  have hgcw : ∀ n, n < cfg.ng → (σ'.gproc n).isCapWait = (σ.gproc n).isCapWait := by
    intro n _
    rw [hgp]
    by_cases hn : n = j
    · subst hn; simp [ow1, nw1]
    · simp [hn]
  have hPO := pOwner_congr cfg σ σ' (fun _ _ => by rw [hPproc]) hgcw
  have hGO := gOwner_congr cfg σ σ' (fun _ _ => by rw [hPproc])
  have hACA := activeCapAgent_congr cfg σ σ' (fun _ _ => by rw [hPproc])
    (fun _ _ => by rw [hPproc]) hgcw
  have hRes : ∀ n, (σ'.gproc n).res = (σ.gproc n).res := by
    intro n
    rw [hgp]
    by_cases hn : n = j
    · subst hn; simp [hresOld, hresNew]
    · simp [hn]
  have hRO := resOf_congr σ σ' (fun _ => by rw [hPproc]) hRes
  have hFa : σ'.fSt.playersArrived = σ.fSt.playersArrived := by simp [hσ']
  have hFf : σ'.fSt.playersFree = σ.fSt.playersFree := by simp [hσ']
  have hGa : σ'.fSt.goaliesArrived = σ.fSt.goaliesArrived := by simp [hσ']
  have hTi : σ'.fSt.teamId = σ.fSt.teamId := by simp [hσ']
  have hGh : σ'.ghist = fun n => if n = j then σ.ghist n ++ o.toList else σ.ghist n := by
    funext n
    simp [hσ', writeOptG_ghist]
  have hPhh : σ'.phist = σ.phist := by simp [hσ']
  refine ⟨?_, ?_, ?_, ?_, ?_, ?_, ?_, ?_, ?_, ?_, ?_, ?_, ?_, ?_, ?_, ?_, ?_, ?_,
    ?_, ?_, ?_, ?_, ?_, ?_, ?_, ?_, ?_⟩
  · rw [hsems, hmutex, hAct]
    exact h.mutexCap
  · rw [hFa, hEntP]
    exact h.arrP
  · rw [hGa, hEntG]
    exact h.arrG
  · rw [hNlP, hEntP]
    exact h.nlP
  · rw [hNlG, hEntG]
    exact h.nlG
  · rw [hFf, hCons, hNlP]
    exact h.freeP
  · rw [hFf]
    exact h.freePpos
  · intro c hc
    rw [hFf]
    exact h.cfP c ((hPO c).1 hc)
  · rw [hTi, hTf]
    exact h.teamIdEq
  · intro hz
    rw [hAct] at hz
    rw [hsems, hwp, hwg, hreg, hMidP, hMidG]
    exact h.quiet hz
  · intro i' hi' k hk
    rw [hPproc] at hk
    rw [hsems, hwp, hwg, hreg, hMidP, hMidG]
    exact h.balP i' hi' k hk
  · intro i' hi' hk
    rw [hPproc] at hk
    rw [hsems, hwp, hwg, hreg, hMidP, hMidG]
    exact h.balPG i' hi' hk
  · intro j' hj' k hk
    rw [hgp] at hk
    by_cases hjj : j' = j
    · subst hjj
      simp at hk
      rw [hk] at nw1
      simp [GPC.isCapWait] at nw1
    · simp [hjj] at hk
      rw [hsems, hwp, hwg, hreg, hMidP, hMidG]
      exact h.balG j' hj' k hk
  · intro c hc
    rw [hsems, hwp] at hc
    exact (hPO c).2 (h.ghostWp c hc)
  · intro c hc
    rw [hsems, hwg] at hc
    exact (hGO c).2 (h.ghostWg c hc)
  · intro i' hi' c hc
    rw [hPproc] at hc
    exact (hPO c).2 (h.ghostMidP i' hi' c hc)
  · intro j' hj' c hc
    rw [hgp] at hc
    by_cases hjj : j' = j
    · subst hjj
      simp at hc
      rcases hc with hc | ⟨t, hc⟩ <;> rw [hc] at nw2 <;> simp [GPC.isMid] at nw2
    · simp [hjj] at hc
      exact (hGO c).2 (h.ghostMidG j' hj' c hc)
  · intro i' hi' c t ht
    rw [hPproc] at ht
    rw [hTi]
    exact h.readP i' hi' c t ht
  · intro j' hj' c t ht
    rw [hgp] at ht
    by_cases hjj : j' = j
    · subst hjj
      simp at ht
      rw [ht] at nw2
      simp [GPC.isMid] at nw2
    · simp [hjj] at ht
      rw [hTi]
      exact h.readG j' hj' c t ht
  · intro i' hi' r0 hr0 c hc
    rw [hPproc] at hr0
    rcases h.recLinkP i' hi' r0 hr0 c hc with ⟨ha, hteam⟩ | hres
    · exact Or.inl ⟨(hACA c).2 ha, by rw [hTi]; exact hteam⟩
    · exact Or.inr (by rw [hRO c]; exact hres)
  · intro j' hj' r0 hr0 c hc
    rw [hRes j'] at hr0
    rcases h.recLinkG j' hj' r0 hr0 c hc with ⟨ha, hteam⟩ | hres
    · exact Or.inl ⟨(hACA c).2 ha, by rw [hTi]; exact hteam⟩
    · exact Or.inr (by rw [hRO c]; exact hres)
  · intro i' hi' r0 hr0
    rw [hPproc] at hr0
    have hold := h.resIdP i' hi' r0 hr0
    refine ⟨fun hl => ⟨(hold.1 hl).1, by rw [hPproc]; exact (hold.1 hl).2⟩, hold.2⟩
  · intro j' hj' r0 hr0
    have hold := h.resIdG j' hj' r0 (by rw [← hRes j']; exact hr0)
    refine ⟨fun hl => ?_, hold.2⟩
    by_cases hjj : j' = j
    · subst hjj
      rw [hRes j', hresOld] at hr0
      have : r0 = r := by
        injection hr0 with hv
        exact hv.symm
      subst this
      exact absurd hl hnl
    · refine ⟨(hold.1 hl).1, ?_⟩
      rw [hgp]
      simp [hjj]
      exact (hold.1 hl).2
  · intro i' hi'
    rw [hPhh, hPproc]
    exact h.histP i' hi'
  · intro j' hj'
    rw [hGh, hgp]
    by_cases hjj : j' = j
    · subst hjj
      simp [hhist, h.histG j' hj']
    · simp [hjj, h.histG j' hj']
  · intro i' hi'
    rw [hPproc, hPhh]
    exact h.oobP i' hi'
  · intro j' hj'
    have hold := h.oobG j' hj'
    have hne : j' ≠ j := fun hh => hj' (hh ▸ hj)
    constructor
    · rw [hgp]
      simp [hne]
      exact hold.1
    · rw [hGh]
      simp [hne]
      exact hold.2

/-- Preservation template for player steps between pre-formation
control states that do not touch shared counters or the relevant
semaphores: arrival and the recruit's read step. -/
lemma inv_pStep0 (cfg : SysCfg) (σ : Sys) (i : Nat) (pcNew : PPC)
    (o : Option Status) (f : Sems → Sems) (h : Inv cfg σ) (hi : i < cfg.np)
    (hresOld : (σ.pproc i).res = none) (hresNew : pcNew.res = none)
    (hcwO : (σ.pproc i).isCapWait = false) (hcwN : pcNew.isCapWait = false)
    (hcwgO : (σ.pproc i).isCapWaitG = false) (hcwgN : pcNew.isCapWaitG = false)
    (hmid : (σ.pproc i).isMid = pcNew.isMid)
    (hent : (σ.pproc i).entered = pcNew.entered)
    (hGhost : ∀ c, (pcNew = .recRead c ∨ ∃ t, pcNew = .recAck c t) →
      (σ.pproc i = .recRead c ∨ ∃ t, σ.pproc i = .recAck c t))
    (hRead : ∀ c t, pcNew = .recAck c t → t = σ.fSt.teamId)
    (hhist : histOfP pcNew = histOfP (σ.pproc i) ++ o.toList)
    (hmutex : (f σ.sems).mutex = σ.sems.mutex)
    (hwp : (f σ.sems).playersWaitTeam = σ.sems.playersWaitTeam)
    (hwg : (f σ.sems).goaliesWaitTeam = σ.sems.goaliesWaitTeam)
    (hreg : (f σ.sems).playerRegistered = σ.sems.playerRegistered) :
    Inv cfg (((σ.writeOptP i o).mapSems f).withP i pcNew) := by
  set σ' := ((σ.writeOptP i o).mapSems f).withP i pcNew with hσ'
  have hpp : σ'.pproc = fun n => if n = i then pcNew else σ.pproc n := by
    funext n
    simp [hσ']
  have hsems : σ'.sems = f σ.sems := by simp [hσ']
  have hsame : ∀ fc : PPC → Bool, fc (σ.pproc i) = fc pcNew →
      pCount cfg σ' fc = pCount cfg σ fc :=
    fun fc hv => pCount_same cfg σ σ' i pcNew fc hi hpp hv
  have hgc : ∀ fc : GPC → Bool, gCount cfg σ' fc = gCount cfg σ fc :=
    fun fc => gCount_frame cfg σ σ' fc (by simp [hσ'])
  have hAct : activeCaps cfg σ' = activeCaps cfg σ := by
    unfold activeCaps
    rw [hsame _ (by simp [PPC.isActiveCap, hcwO, hcwN, hcwgO, hcwgN]), hgc]
  have hTf : teamsFormed cfg σ' = teamsFormed cfg σ := by
    unfold teamsFormed
    rw [hsame _ (by simp [PPC.isDoneCap, hresOld, hresNew]), hgc]
  have hCons : consPlayers cfg σ' = consPlayers cfg σ := by
    unfold consPlayers
    rw [hsame _ (by simp [PPC.consumedP, PPC.isDoneCap, hresOld, hresNew, hcwgO, hcwgN]),
      hgc]
  have hMidP : midP cfg σ' = midP cfg σ := by
    unfold midP
    rw [hsame _ hmid]
  have hMidG : midG cfg σ' = midG cfg σ := by unfold midG; rw [hgc]
  have hEntP : enteredP cfg σ' = enteredP cfg σ := by
    unfold enteredP
    rw [hsame _ hent]
  have hEntG : enteredG cfg σ' = enteredG cfg σ := by unfold enteredG; rw [hgc]
  have hNlP : nonLateP cfg σ' = nonLateP cfg σ := by
    unfold nonLateP
    rw [hsame _ (by simp [PPC.nonLate, hresOld, hresNew, hent])]
  have hNlG : nonLateG cfg σ' = nonLateG cfg σ := by unfold nonLateG; rw [hgc]
  have hpcw : ∀ n, n < cfg.np → (σ'.pproc n).isCapWait = (σ.pproc n).isCapWait := by
    intro n _
    rw [hpp]
    by_cases hn : n = i
    · subst hn; simp [hcwO, hcwN]
    · simp [hn]
  have hpcwg : ∀ n, n < cfg.np → (σ'.pproc n).isCapWaitG = (σ.pproc n).isCapWaitG := by
    intro n _
    rw [hpp]
    by_cases hn : n = i
    · subst hn; simp [hcwgO, hcwgN]
    · simp [hn]
  have hGproc : σ'.gproc = σ.gproc := by simp [hσ']
  have hPO := pOwner_congr cfg σ σ' hpcw (fun _ _ => by rw [hGproc])
  have hGO := gOwner_congr cfg σ σ' hpcwg
  have hACA := activeCapAgent_congr cfg σ σ' hpcw hpcwg (fun _ _ => by rw [hGproc])
  have hRes : ∀ n, (σ'.pproc n).res = (σ.pproc n).res := by
    intro n
    rw [hpp]
    by_cases hn : n = i
    · subst hn; simp [hresOld, hresNew]
    · simp [hn]
  have hRO := resOf_congr σ σ' hRes (fun _ => by rw [hGproc])
  have hFa : σ'.fSt.playersArrived = σ.fSt.playersArrived := by simp [hσ']
  have hFf : σ'.fSt.playersFree = σ.fSt.playersFree := by simp [hσ']
  have hGa : σ'.fSt.goaliesArrived = σ.fSt.goaliesArrived := by simp [hσ']
  have hTi : σ'.fSt.teamId = σ.fSt.teamId := by simp [hσ']
  have hPh : σ'.phist = fun n => if n = i then σ.phist n ++ o.toList else σ.phist n := by
    funext n
    simp [hσ', writeOptP_phist]
  have hGh : σ'.ghist = σ.ghist := by simp [hσ']
  refine ⟨?_, ?_, ?_, ?_, ?_, ?_, ?_, ?_, ?_, ?_, ?_, ?_, ?_, ?_, ?_, ?_, ?_, ?_,
    ?_, ?_, ?_, ?_, ?_, ?_, ?_, ?_, ?_⟩
  · rw [hsems, hmutex, hAct]
    exact h.mutexCap
  · rw [hFa, hEntP]
    exact h.arrP
  · rw [hGa, hEntG]
    exact h.arrG
  · rw [hNlP, hEntP]
    exact h.nlP
  · rw [hNlG, hEntG]
    exact h.nlG
  · rw [hFf, hCons, hNlP]
    exact h.freeP
  · rw [hFf]
    exact h.freePpos
  · intro c hc
    rw [hFf]
    exact h.cfP c ((hPO c).1 hc)
  · rw [hTi, hTf]
    exact h.teamIdEq
  · intro hz
    rw [hAct] at hz
    rw [hsems, hwp, hwg, hreg, hMidP, hMidG]
    exact h.quiet hz
  · intro i' hi' k hk
    rw [hpp] at hk
    by_cases hii : i' = i
    · subst hii
      simp at hk
      rw [hk] at hcwN
      simp [PPC.isCapWait] at hcwN
    · simp [hii] at hk
      rw [hsems, hwp, hwg, hreg, hMidP, hMidG]
      exact h.balP i' hi' k hk
  · intro i' hi' hk
    rw [hpp] at hk
    by_cases hii : i' = i
    · subst hii
      simp at hk
      rw [hk] at hcwgN
      simp [PPC.isCapWaitG] at hcwgN
    · simp [hii] at hk
      rw [hsems, hwp, hwg, hreg, hMidP, hMidG]
      exact h.balPG i' hi' hk
  · intro j hj k hk
    rw [hGproc] at hk
    rw [hsems, hwp, hwg, hreg, hMidP, hMidG]
    exact h.balG j hj k hk
  · intro c hc
    rw [hsems, hwp] at hc
    exact (hPO c).2 (h.ghostWp c hc)
  · intro c hc
    rw [hsems, hwg] at hc
    exact (hGO c).2 (h.ghostWg c hc)
  · intro i' hi' c hc
    rw [hpp] at hc
    by_cases hii : i' = i
    · subst hii
      simp at hc
      have hc' : pcNew = .recRead c ∨ ∃ t, pcNew = .recAck c t := by
        rcases hc with hc | ⟨t, hc⟩
        · exact Or.inl hc
        · exact Or.inr ⟨t, hc⟩
      exact (hPO c).2 (h.ghostMidP i' hi' c (hGhost c hc'))
    · simp [hii] at hc
      exact (hPO c).2 (h.ghostMidP i' hi' c hc)
  · intro j hj c hc
    rw [hGproc] at hc
    exact (hGO c).2 (h.ghostMidG j hj c hc)
  · intro i' hi' c t ht
    rw [hpp] at ht
    by_cases hii : i' = i
    · subst hii
      simp at ht
      rw [hTi]
      exact hRead c t ht
    · simp [hii] at ht
      rw [hTi]
      exact h.readP i' hi' c t ht
  · intro j hj c t ht
    rw [hGproc] at ht
    rw [hTi]
    exact h.readG j hj c t ht
  · intro i' hi' r0 hr0 c hc
    rw [hRes i'] at hr0
    rcases h.recLinkP i' hi' r0 hr0 c hc with ⟨ha, hteam⟩ | hres
    · exact Or.inl ⟨(hACA c).2 ha, by rw [hTi]; exact hteam⟩
    · exact Or.inr (by rw [hRO c]; exact hres)
  · intro j hj r0 hr0 c hc
    rw [hGproc] at hr0
    rcases h.recLinkG j hj r0 hr0 c hc with ⟨ha, hteam⟩ | hres
    · exact Or.inl ⟨(hACA c).2 ha, by rw [hTi]; exact hteam⟩
    · exact Or.inr (by rw [hRO c]; exact hres)
  · intro i' hi' r0 hr0
    have hold := h.resIdP i' hi' r0 (by rw [← hRes i']; exact hr0)
    refine ⟨fun hl => ?_, hold.2⟩
    by_cases hii : i' = i
    · subst hii
      rw [hRes i', hresOld] at hr0
      exact absurd hr0 (by simp)
    · refine ⟨(hold.1 hl).1, ?_⟩
      rw [hpp]
      simp [hii]
      exact (hold.1 hl).2
  · intro j hj r0 hr0
    rw [hGproc] at hr0
    have hold := h.resIdG j hj r0 hr0
    refine ⟨fun hl => ⟨(hold.1 hl).1, by rw [hGproc]; exact (hold.1 hl).2⟩, hold.2⟩
  · intro i' hi'
    rw [hPh, hpp]
    by_cases hii : i' = i
    · subst hii
      simp [hhist, h.histP i' hi']
    · simp [hii, h.histP i' hi']
  · intro j hj
    rw [hGh, hGproc]
    exact h.histG j hj
  · intro i' hi'
    have hold := h.oobP i' hi'
    have hne : i' ≠ i := fun hh => hi' (hh ▸ hi)
    constructor
    · rw [hpp]
      simp [hne]
      exact hold.1
    · rw [hPh]
      simp [hne]
      exact hold.2
  · intro j hj
    rw [hGproc, hGh]
    exact h.oobG j hj

/-- Goalie analogue of inv_pStep0. -/
lemma inv_gStep0 (cfg : SysCfg) (σ : Sys) (j : Nat) (pcNew : GPC)
    (o : Option Status) (f : Sems → Sems) (h : Inv cfg σ) (hj : j < cfg.ng)
    (hresOld : (σ.gproc j).res = none) (hresNew : pcNew.res = none)
    (hcwO : (σ.gproc j).isCapWait = false) (hcwN : pcNew.isCapWait = false)
    (hmid : (σ.gproc j).isMid = pcNew.isMid)
    (hent : (σ.gproc j).entered = pcNew.entered)
    (hGhost : ∀ c, (pcNew = .recRead c ∨ ∃ t, pcNew = .recAck c t) →
      (σ.gproc j = .recRead c ∨ ∃ t, σ.gproc j = .recAck c t))
    (hRead : ∀ c t, pcNew = .recAck c t → t = σ.fSt.teamId)
    (hhist : histOfG pcNew = histOfG (σ.gproc j) ++ o.toList)
    (hmutex : (f σ.sems).mutex = σ.sems.mutex)
    (hwp : (f σ.sems).playersWaitTeam = σ.sems.playersWaitTeam)
    (hwg : (f σ.sems).goaliesWaitTeam = σ.sems.goaliesWaitTeam)
    (hreg : (f σ.sems).playerRegistered = σ.sems.playerRegistered) :
    Inv cfg (((σ.writeOptG j o).mapSems f).withG j pcNew) := by
  set σ' := ((σ.writeOptG j o).mapSems f).withG j pcNew with hσ'
  have hgp : σ'.gproc = fun n => if n = j then pcNew else σ.gproc n := by
    funext n
    simp [hσ']
  have hsems : σ'.sems = f σ.sems := by simp [hσ']
  have hsame : ∀ fc : GPC → Bool, fc (σ.gproc j) = fc pcNew →
      gCount cfg σ' fc = gCount cfg σ fc :=
    fun fc hv => gCount_same cfg σ σ' j pcNew fc hj hgp hv
  have hpcf : ∀ fc : PPC → Bool, pCount cfg σ' fc = pCount cfg σ fc :=
    fun fc => pCount_frame cfg σ σ' fc (by simp [hσ'])
  have hAct : activeCaps cfg σ' = activeCaps cfg σ := by
    unfold activeCaps
    rw [hpcf, hsame _ (by rw [hcwO, hcwN])]
  have hTf : teamsFormed cfg σ' = teamsFormed cfg σ := by
    unfold teamsFormed
    rw [hpcf, hsame _ (by simp [GPC.isDoneCap, hresOld, hresNew])]
  have hCons : consPlayers cfg σ' = consPlayers cfg σ := by
    unfold consPlayers
    rw [hpcf, hsame _ (by simp [GPC.isDoneCap, hresOld, hresNew])]
  have hMidP : midP cfg σ' = midP cfg σ := by unfold midP; rw [hpcf]
  have hMidG : midG cfg σ' = midG cfg σ := by
    unfold midG
    rw [hsame _ hmid]
  have hEntP : enteredP cfg σ' = enteredP cfg σ := by unfold enteredP; rw [hpcf]
  have hEntG : enteredG cfg σ' = enteredG cfg σ := by
    unfold enteredG
    rw [hsame _ hent]
  have hNlP : nonLateP cfg σ' = nonLateP cfg σ := by unfold nonLateP; rw [hpcf]
  have hNlG : nonLateG cfg σ' = nonLateG cfg σ := by
    unfold nonLateG
    rw [hsame _ (by simp [GPC.nonLate, hresOld, hresNew, hent])]
  have hPproc : σ'.pproc = σ.pproc := by simp [hσ']
  have hgcw : ∀ n, n < cfg.ng → (σ'.gproc n).isCapWait = (σ.gproc n).isCapWait := by
    intro n _
    rw [hgp]
    by_cases hn : n = j
    · subst hn; simp [hcwO, hcwN]
    · simp [hn]
  have hPO := pOwner_congr cfg σ σ' (fun _ _ => by rw [hPproc]) hgcw
  have hGO := gOwner_congr cfg σ σ' (fun _ _ => by rw [hPproc])
  have hACA := activeCapAgent_congr cfg σ σ' (fun _ _ => by rw [hPproc])
    (fun _ _ => by rw [hPproc]) hgcw
  have hRes : ∀ n, (σ'.gproc n).res = (σ.gproc n).res := by
    intro n
    rw [hgp]
    by_cases hn : n = j
    · subst hn; simp [hresOld, hresNew]
    · simp [hn]
  have hRO := resOf_congr σ σ' (fun _ => by rw [hPproc]) hRes
  have hFa : σ'.fSt.playersArrived = σ.fSt.playersArrived := by simp [hσ']
  have hFf : σ'.fSt.playersFree = σ.fSt.playersFree := by simp [hσ']
  have hGa : σ'.fSt.goaliesArrived = σ.fSt.goaliesArrived := by simp [hσ']
  have hTi : σ'.fSt.teamId = σ.fSt.teamId := by simp [hσ']
  have hGh : σ'.ghist = fun n => if n = j then σ.ghist n ++ o.toList else σ.ghist n := by
    funext n
    simp [hσ', writeOptG_ghist]
  have hPhh : σ'.phist = σ.phist := by simp [hσ']
  refine ⟨?_, ?_, ?_, ?_, ?_, ?_, ?_, ?_, ?_, ?_, ?_, ?_, ?_, ?_, ?_, ?_, ?_, ?_,
    ?_, ?_, ?_, ?_, ?_, ?_, ?_, ?_, ?_⟩
  · rw [hsems, hmutex, hAct]
    exact h.mutexCap
  · rw [hFa, hEntP]
    exact h.arrP
  · rw [hGa, hEntG]
    exact h.arrG
  · rw [hNlP, hEntP]
    exact h.nlP
  · rw [hNlG, hEntG]
    exact h.nlG
  · rw [hFf, hCons, hNlP]
    exact h.freeP
  · rw [hFf]
    exact h.freePpos
  · intro c hc
    rw [hFf]
    exact h.cfP c ((hPO c).1 hc)
  · rw [hTi, hTf]
    exact h.teamIdEq
  · intro hz
    rw [hAct] at hz
    rw [hsems, hwp, hwg, hreg, hMidP, hMidG]
    exact h.quiet hz
  · intro i' hi' k hk
    rw [hPproc] at hk
    rw [hsems, hwp, hwg, hreg, hMidP, hMidG]
    exact h.balP i' hi' k hk
  · intro i' hi' hk
    rw [hPproc] at hk
    rw [hsems, hwp, hwg, hreg, hMidP, hMidG]
    exact h.balPG i' hi' hk
  · intro j' hj' k hk
    rw [hgp] at hk
    by_cases hjj : j' = j
    · subst hjj
      simp at hk
      rw [hk] at hcwN
      simp [GPC.isCapWait] at hcwN
    · simp [hjj] at hk
      rw [hsems, hwp, hwg, hreg, hMidP, hMidG]
      exact h.balG j' hj' k hk
  · intro c hc
    rw [hsems, hwp] at hc
    exact (hPO c).2 (h.ghostWp c hc)
  · intro c hc
    rw [hsems, hwg] at hc
    exact (hGO c).2 (h.ghostWg c hc)
  · intro i' hi' c hc
    rw [hPproc] at hc
    exact (hPO c).2 (h.ghostMidP i' hi' c hc)
  · intro j' hj' c hc
    rw [hgp] at hc
    by_cases hjj : j' = j
    · subst hjj
      simp at hc
      have hc' : pcNew = .recRead c ∨ ∃ t, pcNew = .recAck c t := by
        rcases hc with hc | ⟨t, hc⟩
        · exact Or.inl hc
        · exact Or.inr ⟨t, hc⟩
      exact (hGO c).2 (h.ghostMidG j' hj' c (hGhost c hc'))
    · simp [hjj] at hc
      exact (hGO c).2 (h.ghostMidG j' hj' c hc)
  · intro i' hi' c t ht
    rw [hPproc] at ht
    rw [hTi]
    exact h.readP i' hi' c t ht
  · intro j' hj' c t ht
    rw [hgp] at ht
    by_cases hjj : j' = j
    · subst hjj
      simp at ht
      rw [hTi]
      exact hRead c t ht
    · simp [hjj] at ht
      rw [hTi]
      exact h.readG j' hj' c t ht
  · intro i' hi' r0 hr0 c hc
    rw [hPproc] at hr0
    rcases h.recLinkP i' hi' r0 hr0 c hc with ⟨ha, hteam⟩ | hres
    · exact Or.inl ⟨(hACA c).2 ha, by rw [hTi]; exact hteam⟩
    · exact Or.inr (by rw [hRO c]; exact hres)
  · intro j' hj' r0 hr0 c hc
    rw [hRes j'] at hr0
    rcases h.recLinkG j' hj' r0 hr0 c hc with ⟨ha, hteam⟩ | hres
    · exact Or.inl ⟨(hACA c).2 ha, by rw [hTi]; exact hteam⟩
    · exact Or.inr (by rw [hRO c]; exact hres)
  · intro i' hi' r0 hr0
    rw [hPproc] at hr0
    have hold := h.resIdP i' hi' r0 hr0
    refine ⟨fun hl => ⟨(hold.1 hl).1, by rw [hPproc]; exact (hold.1 hl).2⟩, hold.2⟩
  · intro j' hj' r0 hr0
    have hold := h.resIdG j' hj' r0 (by rw [← hRes j']; exact hr0)
    refine ⟨fun hl => ?_, hold.2⟩
    by_cases hjj : j' = j
    · subst hjj
      rw [hRes j', hresOld] at hr0
      exact absurd hr0 (by simp)
    · refine ⟨(hold.1 hl).1, ?_⟩
      rw [hgp]
      simp [hjj]
      exact (hold.1 hl).2
  · intro i' hi'
    rw [hPhh, hPproc]
    exact h.histP i' hi'
  · intro j' hj'
    rw [hGh, hgp]
    by_cases hjj : j' = j
    · subst hjj
      simp [hhist, h.histG j' hj']
    · simp [hjj, h.histG j' hj']
  · intro i' hi'
    rw [hPproc, hPhh]
    exact h.oobP i' hi'
  · intro j' hj'
    have hold := h.oobG j' hj'
    have hne : j' ≠ j := fun hh => hj' (hh ▸ hj)
    constructor
    · rw [hgp]
      simp [hne]
      exact hold.1
    · rw [hGh]
      simp [hne]
      exact hold.2

/-- Preservation for the player late path. -/
lemma inv_pLate (cfg : SysCfg) (σ : Sys) (i : Nat) (h : Inv cfg σ) (hi : i < cfg.np)
    (hpc : σ.pproc i = .arrived) (_hm : 1 ≤ σ.sems.mutex)
    (hlate : 2 * (cfg.ntp : Int) < σ.fSt.playersArrived + 1) :
    Inv cfg (((σ.mapFSt fun f =>
        { f with playersArrived := f.playersArrived + 1 }).writeP
          i .late).withP i (.done ⟨0, .late⟩)) := by
  set pcNew : PPC := .done ⟨0, .late⟩ with hpcNew
  set σ' := ((σ.mapFSt fun f =>
      { f with playersArrived := f.playersArrived + 1 }).writeP i .late).withP i pcNew
    with hσ'
  have hpp : σ'.pproc = fun n => if n = i then pcNew else σ.pproc n := by
    funext n
    simp [hσ']
  have hsems : σ'.sems = σ.sems := by simp [hσ']
  have hsame : ∀ fc : PPC → Bool, fc (σ.pproc i) = fc pcNew →
      pCount cfg σ' fc = pCount cfg σ fc :=
    fun fc hv => pCount_same cfg σ σ' i pcNew fc hi hpp hv
  have hgc : ∀ fc : GPC → Bool, gCount cfg σ' fc = gCount cfg σ fc :=
    fun fc => gCount_frame cfg σ σ' fc (by simp [hσ'])
  have hAct : activeCaps cfg σ' = activeCaps cfg σ := by
    unfold activeCaps
    rw [hsame _ (by rw [hpc, hpcNew]; decide), hgc]
  have hTf : teamsFormed cfg σ' = teamsFormed cfg σ := by
    unfold teamsFormed
    rw [hsame _ (by rw [hpc, hpcNew]; decide), hgc]
  have hCons : consPlayers cfg σ' = consPlayers cfg σ := by
    unfold consPlayers
    rw [hsame _ (by rw [hpc, hpcNew]; decide), hgc]
  have hMidP : midP cfg σ' = midP cfg σ := by
    unfold midP
    rw [hsame _ (by rw [hpc, hpcNew]; decide)]
  have hMidG : midG cfg σ' = midG cfg σ := by unfold midG; rw [hgc]
  have hEntP : enteredP cfg σ' = enteredP cfg σ + 1 := by
    unfold enteredP
    exact pCount_incr cfg σ σ' i pcNew PPC.entered hi hpp (by rw [hpc]; decide) (by rw [hpcNew]; decide)
  have hEntG : enteredG cfg σ' = enteredG cfg σ := by unfold enteredG; rw [hgc]
  have hNlP : nonLateP cfg σ' = nonLateP cfg σ := by
    unfold nonLateP
    rw [hsame _ (by rw [hpc, hpcNew]; decide)]
  have hNlG : nonLateG cfg σ' = nonLateG cfg σ := by unfold nonLateG; rw [hgc]
  have hpcw : ∀ n, n < cfg.np → (σ'.pproc n).isCapWait = (σ.pproc n).isCapWait := by
    intro n _
    rw [hpp]
    by_cases hn : n = i
    · subst hn; simp [hpc, hpcNew, PPC.isCapWait]
    · simp [hn]
  have hpcwg : ∀ n, n < cfg.np → (σ'.pproc n).isCapWaitG = (σ.pproc n).isCapWaitG := by
    intro n _
    rw [hpp]
    by_cases hn : n = i
    · subst hn; simp [hpc, hpcNew, PPC.isCapWaitG]
    · simp [hn]
  have hGproc : σ'.gproc = σ.gproc := by simp [hσ']
  have hPO := pOwner_congr cfg σ σ' hpcw (fun _ _ => by rw [hGproc])
  have hGO := gOwner_congr cfg σ σ' hpcwg
  have hACA := activeCapAgent_congr cfg σ σ' hpcw hpcwg (fun _ _ => by rw [hGproc])
  have hRes : ∀ n, n ≠ i → (σ'.pproc n).res = (σ.pproc n).res := by
    intro n hn
    rw [hpp]
    simp [hn]
  have hResI : (σ'.pproc i).res = some ⟨0, .late⟩ := by
    rw [hpp]
    simp [hpcNew, PPC.res]
  have hFa : σ'.fSt.playersArrived = σ.fSt.playersArrived + 1 := by simp [hσ']
  have hFf : σ'.fSt.playersFree = σ.fSt.playersFree := by simp [hσ']
  have hGa : σ'.fSt.goaliesArrived = σ.fSt.goaliesArrived := by simp [hσ']
  have hTi : σ'.fSt.teamId = σ.fSt.teamId := by simp [hσ']
  have hPh : σ'.phist = fun n => if n = i then σ.phist n ++ [Status.late] else σ.phist n := by
    funext n
    simp [hσ']
  have hGh : σ'.ghist = σ.ghist := by simp [hσ']
  have hentLate : σ.fSt.playersArrived = (enteredP cfg σ : Int) := h.arrP
  refine ⟨?_, ?_, ?_, ?_, ?_, ?_, ?_, ?_, ?_, ?_, ?_, ?_, ?_, ?_, ?_, ?_, ?_, ?_,
    ?_, ?_, ?_, ?_, ?_, ?_, ?_, ?_, ?_⟩
  · rw [hsems, hAct]
    exact h.mutexCap
  · rw [hFa, hEntP, hentLate]
    push_cast
    ring
  · rw [hGa, hEntG]
    exact h.arrG
  · rw [hNlP, hEntP]
    have h1 := h.nlP
    have h2 : 2 * cfg.ntp ≤ enteredP cfg σ := by
      have : 2 * (cfg.ntp : Int) < (enteredP cfg σ : Int) + 1 := by
        rw [← hentLate]
        exact hlate
      exact_mod_cast by omega
    omega
  · rw [hNlG, hEntG]
    exact h.nlG
  · rw [hFf, hCons, hNlP]
    exact h.freeP
  · rw [hFf]
    exact h.freePpos
  · intro c hc
    rw [hFf]
    exact h.cfP c ((hPO c).1 hc)
  · rw [hTi, hTf]
    exact h.teamIdEq
  · intro hz
    rw [hAct] at hz
    rw [hsems, hMidP, hMidG]
    exact h.quiet hz
  · intro i' hi' k hk
    rw [hpp] at hk
    by_cases hii : i' = i
    · subst hii
      simp [hpcNew] at hk
    · simp [hii] at hk
      rw [hsems, hMidP, hMidG]
      exact h.balP i' hi' k hk
  · intro i' hi' hk
    rw [hpp] at hk
    by_cases hii : i' = i
    · subst hii
      simp [hpcNew] at hk
    · simp [hii] at hk
      rw [hsems, hMidP, hMidG]
      exact h.balPG i' hi' hk
  · intro j hj k hk
    rw [hGproc] at hk
    rw [hsems, hMidP, hMidG]
    exact h.balG j hj k hk
  · intro c hc
    rw [hsems] at hc
    exact (hPO c).2 (h.ghostWp c hc)
  · intro c hc
    rw [hsems] at hc
    exact (hGO c).2 (h.ghostWg c hc)
  · intro i' hi' c hc
    rw [hpp] at hc
    by_cases hii : i' = i
    · subst hii
      simp [hpcNew] at hc
    · simp [hii] at hc
      exact (hPO c).2 (h.ghostMidP i' hi' c hc)
  · intro j hj c hc
    rw [hGproc] at hc
    exact (hGO c).2 (h.ghostMidG j hj c hc)
  · intro i' hi' c t ht
    rw [hpp] at ht
    by_cases hii : i' = i
    · subst hii
      simp [hpcNew] at ht
    · simp [hii] at ht
      rw [hTi]
      exact h.readP i' hi' c t ht
  · intro j hj c t ht
    rw [hGproc] at ht
    rw [hTi]
    exact h.readG j hj c t ht
  · intro i' hi' r0 hr0 c hc
    by_cases hii : i' = i
    · subst hii
      rw [hResI] at hr0
      have : r0 = ⟨0, .late⟩ := by
        injection hr0 with hv
        exact hv.symm
      subst this
      simp at hc
    · rw [hRes i' hii] at hr0
      rcases h.recLinkP i' hi' r0 hr0 c hc with ⟨ha, hteam⟩ | hres
      · exact Or.inl ⟨(hACA c).2 ha, by rw [hTi]; exact hteam⟩
      · refine Or.inr ?_
        rcases c with ic | jc
        · show (σ'.pproc ic).res = _
          by_cases hci : ic = i
          · subst hci
            have : (σ.pproc ic).res = some ⟨r0.team, .captain⟩ := hres
            rw [hpc] at this
            simp [PPC.res] at this
          · rw [hRes ic hci]
            exact hres
        · show (σ'.gproc jc).res = _
          rw [hGproc]
          exact hres
  · intro j hj r0 hr0 c hc
    rw [hGproc] at hr0
    rcases h.recLinkG j hj r0 hr0 c hc with ⟨ha, hteam⟩ | hres
    · exact Or.inl ⟨(hACA c).2 ha, by rw [hTi]; exact hteam⟩
    · refine Or.inr ?_
      rcases c with ic | jc
      · show (σ'.pproc ic).res = _
        by_cases hci : ic = i
        · subst hci
          have : (σ.pproc ic).res = some ⟨r0.team, .captain⟩ := hres
          rw [hpc] at this
          simp [PPC.res] at this
        · rw [hRes ic hci]
          exact hres
      · show (σ'.gproc jc).res = _
        rw [hGproc]
        exact hres
  · intro i' hi' r0 hr0
    by_cases hii : i' = i
    · subst hii
      rw [hResI] at hr0
      have : r0 = ⟨0, .late⟩ := by
        injection hr0 with hv
        exact hv.symm
      subst this
      refine ⟨fun _ => ⟨rfl, ?_⟩, fun hcon => absurd rfl hcon⟩
      rw [hpp]
      simp [hpcNew]
    · rw [hRes i' hii] at hr0
      have hold := h.resIdP i' hi' r0 hr0
      refine ⟨fun hl => ⟨(hold.1 hl).1, ?_⟩, hold.2⟩
      rw [hpp]
      simp [hii]
      exact (hold.1 hl).2
  · intro j hj r0 hr0
    rw [hGproc] at hr0
    have hold := h.resIdG j hj r0 hr0
    refine ⟨fun hl => ⟨(hold.1 hl).1, by rw [hGproc]; exact (hold.1 hl).2⟩, hold.2⟩
  · intro i' hi'
    rw [hPh, hpp]
    by_cases hii : i' = i
    · subst hii
      simp [h.histP i' hi', hpc, hpcNew, histOfP, roleBase]
    · simp [hii, h.histP i' hi']
  · intro j hj
    rw [hGh, hGproc]
    exact h.histG j hj
  · intro i' hi'
    have hold := h.oobP i' hi'
    have hne : i' ≠ i := fun hh => hi' (hh ▸ hi)
    constructor
    · rw [hpp]
      simp [hne]
      exact hold.1
    · rw [hPh]
      simp [hne]
      exact hold.2
  · intro j hj
    rw [hGproc, hGh]
    exact h.oobG j hj

/-- Preservation for the goalie late path. -/
lemma inv_gLate (cfg : SysCfg) (σ : Sys) (j : Nat) (h : Inv cfg σ) (hj : j < cfg.ng)
    (hpc : σ.gproc j = .arrived) (_hm : 1 ≤ σ.sems.mutex)
    (hlate : 2 * (cfg.ntg : Int) < σ.fSt.goaliesArrived + 1) :
    Inv cfg (((σ.mapFSt fun f =>
        { f with goaliesArrived := f.goaliesArrived + 1 }).writeG
          j .late).withG j (.done ⟨0, .late⟩)) := by
  set pcNew : GPC := .done ⟨0, .late⟩ with hpcNew
  set σ' := ((σ.mapFSt fun f =>
      { f with goaliesArrived := f.goaliesArrived + 1 }).writeG j .late).withG j pcNew
    with hσ'
  have hgp : σ'.gproc = fun n => if n = j then pcNew else σ.gproc n := by
    funext n
    simp [hσ']
  have hsems : σ'.sems = σ.sems := by simp [hσ']
  have hsame : ∀ fc : GPC → Bool, fc (σ.gproc j) = fc pcNew →
      gCount cfg σ' fc = gCount cfg σ fc :=
    fun fc hv => gCount_same cfg σ σ' j pcNew fc hj hgp hv
  have hpcf : ∀ fc : PPC → Bool, pCount cfg σ' fc = pCount cfg σ fc :=
    fun fc => pCount_frame cfg σ σ' fc (by simp [hσ'])
  have hAct : activeCaps cfg σ' = activeCaps cfg σ := by
    unfold activeCaps
    rw [hpcf, hsame _ (by rw [hpc, hpcNew]; decide)]
  have hTf : teamsFormed cfg σ' = teamsFormed cfg σ := by
    unfold teamsFormed
    rw [hpcf, hsame _ (by rw [hpc, hpcNew]; decide)]
  have hCons : consPlayers cfg σ' = consPlayers cfg σ := by
    unfold consPlayers
    rw [hpcf, hsame _ (by rw [hpc, hpcNew]; decide)]
  have hMidP : midP cfg σ' = midP cfg σ := by unfold midP; rw [hpcf]
  have hMidG : midG cfg σ' = midG cfg σ := by
    unfold midG
    rw [hsame _ (by rw [hpc, hpcNew]; decide)]
  have hEntP : enteredP cfg σ' = enteredP cfg σ := by unfold enteredP; rw [hpcf]
  have hEntG : enteredG cfg σ' = enteredG cfg σ + 1 := by
    unfold enteredG
    exact gCount_incr cfg σ σ' j pcNew GPC.entered hj hgp (by rw [hpc]; decide)
      (by rw [hpcNew]; decide)
  have hNlP : nonLateP cfg σ' = nonLateP cfg σ := by unfold nonLateP; rw [hpcf]
  have hNlG : nonLateG cfg σ' = nonLateG cfg σ := by
    unfold nonLateG
    rw [hsame _ (by rw [hpc, hpcNew]; decide)]
  have hgcw : ∀ n, n < cfg.ng → (σ'.gproc n).isCapWait = (σ.gproc n).isCapWait := by
    intro n _
    rw [hgp]
    by_cases hn : n = j
    · subst hn; simp [hpc, hpcNew, GPC.isCapWait]
    · simp [hn]
  have hPproc : σ'.pproc = σ.pproc := by simp [hσ']
  have hPO := pOwner_congr cfg σ σ' (fun _ _ => by rw [hPproc]) hgcw
  have hGO := gOwner_congr cfg σ σ' (fun _ _ => by rw [hPproc])
  have hACA := activeCapAgent_congr cfg σ σ' (fun _ _ => by rw [hPproc])
    (fun _ _ => by rw [hPproc]) hgcw
  have hRes : ∀ n, n ≠ j → (σ'.gproc n).res = (σ.gproc n).res := by
    intro n hn
    rw [hgp]
    simp [hn]
  have hResJ : (σ'.gproc j).res = some ⟨0, .late⟩ := by
    rw [hgp]
    simp [hpcNew, GPC.res]
  have hFa : σ'.fSt.playersArrived = σ.fSt.playersArrived := by simp [hσ']
  have hFf : σ'.fSt.playersFree = σ.fSt.playersFree := by simp [hσ']
  have hGa : σ'.fSt.goaliesArrived = σ.fSt.goaliesArrived + 1 := by simp [hσ']
  have hTi : σ'.fSt.teamId = σ.fSt.teamId := by simp [hσ']
  have hGh : σ'.ghist = fun n => if n = j then σ.ghist n ++ [Status.late] else σ.ghist n := by
    funext n
    simp [hσ']
  have hPhh : σ'.phist = σ.phist := by simp [hσ']
  have hentG : σ.fSt.goaliesArrived = (enteredG cfg σ : Int) := h.arrG
  refine ⟨?_, ?_, ?_, ?_, ?_, ?_, ?_, ?_, ?_, ?_, ?_, ?_, ?_, ?_, ?_, ?_, ?_, ?_,
    ?_, ?_, ?_, ?_, ?_, ?_, ?_, ?_, ?_⟩
  · rw [hsems, hAct]
    exact h.mutexCap
  · rw [hFa, hEntP]
    exact h.arrP
  · rw [hGa, hEntG, hentG]
    push_cast
    ring
  · rw [hNlP, hEntP]
    exact h.nlP
  · rw [hNlG, hEntG]
    have h1 := h.nlG
    have h2 : 2 * cfg.ntg ≤ enteredG cfg σ := by
      have : 2 * (cfg.ntg : Int) < (enteredG cfg σ : Int) + 1 := by
        rw [← hentG]
        exact hlate
      exact_mod_cast by omega
    omega
  · rw [hFf, hCons, hNlP]
    exact h.freeP
  · rw [hFf]
    exact h.freePpos
  · intro c hc
    rw [hFf]
    exact h.cfP c ((hPO c).1 hc)
  · rw [hTi, hTf]
    exact h.teamIdEq
  · intro hz
    rw [hAct] at hz
    rw [hsems, hMidP, hMidG]
    exact h.quiet hz
  · intro i' hi' k hk
    rw [hPproc] at hk
    rw [hsems, hMidP, hMidG]
    exact h.balP i' hi' k hk
  · intro i' hi' hk
    rw [hPproc] at hk
    rw [hsems, hMidP, hMidG]
    exact h.balPG i' hi' hk
  · intro j' hj' k hk
    rw [hgp] at hk
    by_cases hjj : j' = j
    · subst hjj
      simp [hpcNew] at hk
    · simp [hjj] at hk
      rw [hsems, hMidP, hMidG]
      exact h.balG j' hj' k hk
  · intro c hc
    rw [hsems] at hc
    exact (hPO c).2 (h.ghostWp c hc)
  · intro c hc
    rw [hsems] at hc
    exact (hGO c).2 (h.ghostWg c hc)
  · intro i' hi' c hc
    rw [hPproc] at hc
    exact (hPO c).2 (h.ghostMidP i' hi' c hc)
  · intro j' hj' c hc
    rw [hgp] at hc
    by_cases hjj : j' = j
    · subst hjj
      simp [hpcNew] at hc
    · simp [hjj] at hc
      exact (hGO c).2 (h.ghostMidG j' hj' c hc)
  · intro i' hi' c t ht
    rw [hPproc] at ht
    rw [hTi]
    exact h.readP i' hi' c t ht
  · intro j' hj' c t ht
    rw [hgp] at ht
    by_cases hjj : j' = j
    · subst hjj
      simp [hpcNew] at ht
    · simp [hjj] at ht
      rw [hTi]
      exact h.readG j' hj' c t ht
  · intro i' hi' r0 hr0 c hc
    rw [hPproc] at hr0
    rcases h.recLinkP i' hi' r0 hr0 c hc with ⟨ha, hteam⟩ | hres
    · exact Or.inl ⟨(hACA c).2 ha, by rw [hTi]; exact hteam⟩
    · refine Or.inr ?_
      rcases c with ic | jc
      · show (σ'.pproc ic).res = _
        rw [hPproc]
        exact hres
      · show (σ'.gproc jc).res = _
        by_cases hcj : jc = j
        · subst hcj
          have : (σ.gproc jc).res = some ⟨r0.team, .captain⟩ := hres
          rw [hpc] at this
          simp [GPC.res] at this
        · rw [hRes jc hcj]
          exact hres
  · intro j' hj' r0 hr0 c hc
    by_cases hjj : j' = j
    · subst hjj
      rw [hResJ] at hr0
      have : r0 = ⟨0, .late⟩ := by
        injection hr0 with hv
        exact hv.symm
      subst this
      simp at hc
    · rw [hRes j' hjj] at hr0
      rcases h.recLinkG j' hj' r0 hr0 c hc with ⟨ha, hteam⟩ | hres
      · exact Or.inl ⟨(hACA c).2 ha, by rw [hTi]; exact hteam⟩
      · refine Or.inr ?_
        rcases c with ic | jc
        · show (σ'.pproc ic).res = _
          rw [hPproc]
          exact hres
        · show (σ'.gproc jc).res = _
          by_cases hcj : jc = j
          · subst hcj
            have : (σ.gproc jc).res = some ⟨r0.team, .captain⟩ := hres
            rw [hpc] at this
            simp [GPC.res] at this
          · rw [hRes jc hcj]
            exact hres
  · intro i' hi' r0 hr0
    rw [hPproc] at hr0
    have hold := h.resIdP i' hi' r0 hr0
    refine ⟨fun hl => ⟨(hold.1 hl).1, by rw [hPproc]; exact (hold.1 hl).2⟩, hold.2⟩
  · intro j' hj' r0 hr0
    by_cases hjj : j' = j
    · subst hjj
      rw [hResJ] at hr0
      have : r0 = ⟨0, .late⟩ := by
        injection hr0 with hv
        exact hv.symm
      subst this
      refine ⟨fun _ => ⟨rfl, ?_⟩, fun hcon => absurd rfl hcon⟩
      rw [hgp]
      simp [hpcNew]
    · rw [hRes j' hjj] at hr0
      have hold := h.resIdG j' hj' r0 hr0
      refine ⟨fun hl => ⟨(hold.1 hl).1, ?_⟩, hold.2⟩
      rw [hgp]
      simp [hjj]
      exact (hold.1 hl).2
  · intro i' hi'
    rw [hPhh, hPproc]
    exact h.histP i' hi'
  · intro j' hj'
    rw [hGh, hgp]
    by_cases hjj : j' = j
    · subst hjj
      simp [h.histG j' hj', hpc, hpcNew, histOfG, roleBase]
    · simp [hjj, h.histG j' hj']
  · intro i' hi'
    rw [hPproc, hPhh]
    exact h.oobP i' hi'
  · intro j' hj'
    have hold := h.oobG j' hj'
    have hne : j' ≠ j := fun hh => hj' (hh ▸ hj)
    constructor
    · rw [hgp]
      simp [hne]
      exact hold.1
    · rw [hGh]
      simp [hne]
      exact hold.2

/-- Preservation for the player recruit-entry step. -/
lemma inv_pRecruitEnter (cfg : SysCfg) (σ : Sys) (i : Nat) (h : Inv cfg σ)
    (hi : i < cfg.np) (hpc : σ.pproc i = .arrived) (_hm : 1 ≤ σ.sems.mutex)
    (hok : σ.fSt.playersArrived + 1 ≤ 2 * (cfg.ntp : Int)) :
    Inv cfg (((σ.mapFSt fun f =>
        { f with playersArrived := f.playersArrived + 1,
                 playersFree := f.playersFree + 1 }).writeP
          i .waitingTeam).withP i .recWait) := by
  set pcNew : PPC := .recWait with hpcNew
  set σ' := ((σ.mapFSt fun f =>
      { f with playersArrived := f.playersArrived + 1,
               playersFree := f.playersFree + 1 }).writeP i .waitingTeam).withP i pcNew
    with hσ'
  have hpp : σ'.pproc = fun n => if n = i then pcNew else σ.pproc n := by
    funext n
    simp [hσ']
  have hsems : σ'.sems = σ.sems := by simp [hσ']
  have hsame : ∀ fc : PPC → Bool, fc (σ.pproc i) = fc pcNew →
      pCount cfg σ' fc = pCount cfg σ fc :=
    fun fc hv => pCount_same cfg σ σ' i pcNew fc hi hpp hv
  have hgc : ∀ fc : GPC → Bool, gCount cfg σ' fc = gCount cfg σ fc :=
    fun fc => gCount_frame cfg σ σ' fc (by simp [hσ'])
  have hAct : activeCaps cfg σ' = activeCaps cfg σ := by
    unfold activeCaps
    rw [hsame _ (by rw [hpc, hpcNew]; decide), hgc]
  have hTf : teamsFormed cfg σ' = teamsFormed cfg σ := by
    unfold teamsFormed
    rw [hsame _ (by rw [hpc, hpcNew]; decide), hgc]
  have hCons : consPlayers cfg σ' = consPlayers cfg σ := by
    unfold consPlayers
    rw [hsame _ (by rw [hpc, hpcNew]; decide), hgc]
  have hMidP : midP cfg σ' = midP cfg σ := by
    unfold midP
    rw [hsame _ (by rw [hpc, hpcNew]; decide)]
  have hMidG : midG cfg σ' = midG cfg σ := by unfold midG; rw [hgc]
  have hEntP : enteredP cfg σ' = enteredP cfg σ + 1 := by
    unfold enteredP
    exact pCount_incr cfg σ σ' i pcNew PPC.entered hi hpp (by rw [hpc]; decide)
      (by rw [hpcNew]; decide)
  have hEntG : enteredG cfg σ' = enteredG cfg σ := by unfold enteredG; rw [hgc]
  have hNlP : nonLateP cfg σ' = nonLateP cfg σ + 1 := by
    unfold nonLateP
    exact pCount_incr cfg σ σ' i pcNew PPC.nonLate hi hpp (by rw [hpc]; decide)
      (by rw [hpcNew]; decide)
  have hNlG : nonLateG cfg σ' = nonLateG cfg σ := by unfold nonLateG; rw [hgc]
  have hpcw : ∀ n, n < cfg.np → (σ'.pproc n).isCapWait = (σ.pproc n).isCapWait := by
    intro n _
    rw [hpp]
    by_cases hn : n = i
    · subst hn; simp [hpc, hpcNew, PPC.isCapWait]
    · simp [hn]
  have hpcwg : ∀ n, n < cfg.np → (σ'.pproc n).isCapWaitG = (σ.pproc n).isCapWaitG := by
    intro n _
    rw [hpp]
    by_cases hn : n = i
    · subst hn; simp [hpc, hpcNew, PPC.isCapWaitG]
    · simp [hn]
  have hGproc : σ'.gproc = σ.gproc := by simp [hσ']
  have hPO := pOwner_congr cfg σ σ' hpcw (fun _ _ => by rw [hGproc])
  have hGO := gOwner_congr cfg σ σ' hpcwg
  have hACA := activeCapAgent_congr cfg σ σ' hpcw hpcwg (fun _ _ => by rw [hGproc])
  have hRes : ∀ n, (σ'.pproc n).res = (σ.pproc n).res := by
    intro n
    rw [hpp]
    by_cases hn : n = i
    · subst hn; simp [hpc, hpcNew, PPC.res]
    · simp [hn]
  have hRO := resOf_congr σ σ' hRes (fun _ => by rw [hGproc])
  have hFa : σ'.fSt.playersArrived = σ.fSt.playersArrived + 1 := by simp [hσ']
  have hFf : σ'.fSt.playersFree = σ.fSt.playersFree + 1 := by simp [hσ']
  have hGa : σ'.fSt.goaliesArrived = σ.fSt.goaliesArrived := by simp [hσ']
  have hTi : σ'.fSt.teamId = σ.fSt.teamId := by simp [hσ']
  have hPh : σ'.phist
      = fun n => if n = i then σ.phist n ++ [Status.waitingTeam] else σ.phist n := by
    funext n
    simp [hσ']
  have hGh : σ'.ghist = σ.ghist := by simp [hσ']
  have hentP : σ.fSt.playersArrived = (enteredP cfg σ : Int) := h.arrP
  have hentBound : enteredP cfg σ + 1 ≤ 2 * cfg.ntp := by
    have : (enteredP cfg σ : Int) + 1 ≤ 2 * (cfg.ntp : Int) := by
      rw [← hentP]
      exact hok
    exact_mod_cast this
  refine ⟨?_, ?_, ?_, ?_, ?_, ?_, ?_, ?_, ?_, ?_, ?_, ?_, ?_, ?_, ?_, ?_, ?_, ?_,
    ?_, ?_, ?_, ?_, ?_, ?_, ?_, ?_, ?_⟩
  · rw [hsems, hAct]
    exact h.mutexCap
  · rw [hFa, hEntP, hentP]
    push_cast
    ring
  · rw [hGa, hEntG]
    exact h.arrG
  · rw [hNlP, hEntP]
    have h1 := h.nlP
    omega
  · rw [hNlG, hEntG]
    exact h.nlG
  · rw [hFf, hCons, hNlP]
    have := h.freeP
    push_cast
    push_cast at this
    linarith
  · rw [hFf]
    have := h.freePpos
    linarith
  · intro c hc
    rw [hFf]
    have := h.cfP c ((hPO c).1 hc)
    linarith
  · rw [hTi, hTf]
    exact h.teamIdEq
  · intro hz
    rw [hAct] at hz
    rw [hsems, hMidP, hMidG]
    exact h.quiet hz
  · intro i' hi' k hk
    rw [hpp] at hk
    by_cases hii : i' = i
    · subst hii
      simp [hpcNew] at hk
    · simp [hii] at hk
      rw [hsems, hMidP, hMidG]
      exact h.balP i' hi' k hk
  · intro i' hi' hk
    rw [hpp] at hk
    by_cases hii : i' = i
    · subst hii
      simp [hpcNew] at hk
    · simp [hii] at hk
      rw [hsems, hMidP, hMidG]
      exact h.balPG i' hi' hk
  · intro j hj k hk
    rw [hGproc] at hk
    rw [hsems, hMidP, hMidG]
    exact h.balG j hj k hk
  · intro c hc
    rw [hsems] at hc
    exact (hPO c).2 (h.ghostWp c hc)
  · intro c hc
    rw [hsems] at hc
    exact (hGO c).2 (h.ghostWg c hc)
  · intro i' hi' c hc
    rw [hpp] at hc
    by_cases hii : i' = i
    · subst hii
      simp [hpcNew] at hc
    · simp [hii] at hc
      exact (hPO c).2 (h.ghostMidP i' hi' c hc)
  · intro j hj c hc
    rw [hGproc] at hc
    exact (hGO c).2 (h.ghostMidG j hj c hc)
  · intro i' hi' c t ht
    rw [hpp] at ht
    by_cases hii : i' = i
    · subst hii
      simp [hpcNew] at ht
    · simp [hii] at ht
      rw [hTi]
      exact h.readP i' hi' c t ht
  · intro j hj c t ht
    rw [hGproc] at ht
    rw [hTi]
    exact h.readG j hj c t ht
  · intro i' hi' r0 hr0 c hc
    rw [hRes i'] at hr0
    rcases h.recLinkP i' hi' r0 hr0 c hc with ⟨ha, hteam⟩ | hres
    · exact Or.inl ⟨(hACA c).2 ha, by rw [hTi]; exact hteam⟩
    · exact Or.inr (by rw [hRO c]; exact hres)
  · intro j hj r0 hr0 c hc
    rw [hGproc] at hr0
    rcases h.recLinkG j hj r0 hr0 c hc with ⟨ha, hteam⟩ | hres
    · exact Or.inl ⟨(hACA c).2 ha, by rw [hTi]; exact hteam⟩
    · exact Or.inr (by rw [hRO c]; exact hres)
  · intro i' hi' r0 hr0
    have hold := h.resIdP i' hi' r0 (by rw [← hRes i']; exact hr0)
    refine ⟨fun hl => ?_, hold.2⟩
    by_cases hii : i' = i
    · subst hii
      rw [hRes i', hpc] at hr0
      simp [PPC.res] at hr0
    · refine ⟨(hold.1 hl).1, ?_⟩
      rw [hpp]
      simp [hii]
      exact (hold.1 hl).2
  · intro j hj r0 hr0
    rw [hGproc] at hr0
    have hold := h.resIdG j hj r0 hr0
    refine ⟨fun hl => ⟨(hold.1 hl).1, by rw [hGproc]; exact (hold.1 hl).2⟩, hold.2⟩
  · intro i' hi'
    rw [hPh, hpp]
    by_cases hii : i' = i
    · subst hii
      simp [h.histP i' hi', hpc, hpcNew, histOfP]
    · simp [hii, h.histP i' hi']
  · intro j hj
    rw [hGh, hGproc]
    exact h.histG j hj
  · intro i' hi'
    have hold := h.oobP i' hi'
    have hne : i' ≠ i := fun hh => hi' (hh ▸ hi)
    constructor
    · rw [hpp]
      simp [hne]
      exact hold.1
    · rw [hPh]
      simp [hne]
      exact hold.2
  · intro j hj
    rw [hGproc, hGh]
    exact h.oobG j hj

/-- Preservation for the goalie recruit-entry step. -/
lemma inv_gRecruitEnter (cfg : SysCfg) (σ : Sys) (j : Nat) (h : Inv cfg σ)
    (hj : j < cfg.ng) (hpc : σ.gproc j = .arrived) (_hm : 1 ≤ σ.sems.mutex)
    (hok : σ.fSt.goaliesArrived + 1 ≤ 2 * (cfg.ntg : Int)) :
    Inv cfg (((σ.mapFSt fun f =>
        { f with goaliesArrived := f.goaliesArrived + 1,
                 goaliesFree := f.goaliesFree + 1 }).writeG
          j .waitingTeam).withG j .recWait) := by
  set pcNew : GPC := .recWait with hpcNew
  set σ' := ((σ.mapFSt fun f =>
      { f with goaliesArrived := f.goaliesArrived + 1,
               goaliesFree := f.goaliesFree + 1 }).writeG j .waitingTeam).withG j pcNew
    with hσ'
  have hgp : σ'.gproc = fun n => if n = j then pcNew else σ.gproc n := by
    funext n
    simp [hσ']
  have hsems : σ'.sems = σ.sems := by simp [hσ']
  have hsame : ∀ fc : GPC → Bool, fc (σ.gproc j) = fc pcNew →
      gCount cfg σ' fc = gCount cfg σ fc :=
    fun fc hv => gCount_same cfg σ σ' j pcNew fc hj hgp hv
  have hpcf : ∀ fc : PPC → Bool, pCount cfg σ' fc = pCount cfg σ fc :=
    fun fc => pCount_frame cfg σ σ' fc (by simp [hσ'])
  have hAct : activeCaps cfg σ' = activeCaps cfg σ := by
    unfold activeCaps
    rw [hpcf, hsame _ (by rw [hpc, hpcNew]; decide)]
  have hTf : teamsFormed cfg σ' = teamsFormed cfg σ := by
    unfold teamsFormed
    rw [hpcf, hsame _ (by rw [hpc, hpcNew]; decide)]
  have hCons : consPlayers cfg σ' = consPlayers cfg σ := by
    unfold consPlayers
    rw [hpcf, hsame _ (by rw [hpc, hpcNew]; decide)]
  have hMidP : midP cfg σ' = midP cfg σ := by unfold midP; rw [hpcf]
  have hMidG : midG cfg σ' = midG cfg σ := by
    unfold midG
    rw [hsame _ (by rw [hpc, hpcNew]; decide)]
  have hEntP : enteredP cfg σ' = enteredP cfg σ := by unfold enteredP; rw [hpcf]
  have hEntG : enteredG cfg σ' = enteredG cfg σ + 1 := by
    unfold enteredG
    exact gCount_incr cfg σ σ' j pcNew GPC.entered hj hgp (by rw [hpc]; decide)
      (by rw [hpcNew]; decide)
  have hNlP : nonLateP cfg σ' = nonLateP cfg σ := by unfold nonLateP; rw [hpcf]
  have hNlG : nonLateG cfg σ' = nonLateG cfg σ + 1 := by
    unfold nonLateG
    exact gCount_incr cfg σ σ' j pcNew GPC.nonLate hj hgp (by rw [hpc]; decide)
      (by rw [hpcNew]; decide)
  have hgcw : ∀ n, n < cfg.ng → (σ'.gproc n).isCapWait = (σ.gproc n).isCapWait := by
    intro n _
    rw [hgp]
    by_cases hn : n = j
    · subst hn; simp [hpc, hpcNew, GPC.isCapWait]
    · simp [hn]
  have hPproc : σ'.pproc = σ.pproc := by simp [hσ']
  have hPO := pOwner_congr cfg σ σ' (fun _ _ => by rw [hPproc]) hgcw
  have hGO := gOwner_congr cfg σ σ' (fun _ _ => by rw [hPproc])
  have hACA := activeCapAgent_congr cfg σ σ' (fun _ _ => by rw [hPproc])
    (fun _ _ => by rw [hPproc]) hgcw
  have hRes : ∀ n, (σ'.gproc n).res = (σ.gproc n).res := by
    intro n
    rw [hgp]
    by_cases hn : n = j
    · subst hn; simp [hpc, hpcNew, GPC.res]
    · simp [hn]
  have hRO := resOf_congr σ σ' (fun _ => by rw [hPproc]) hRes
  have hFa : σ'.fSt.playersArrived = σ.fSt.playersArrived := by simp [hσ']
  have hFf : σ'.fSt.playersFree = σ.fSt.playersFree := by simp [hσ']
  have hGa : σ'.fSt.goaliesArrived = σ.fSt.goaliesArrived + 1 := by simp [hσ']
  have hTi : σ'.fSt.teamId = σ.fSt.teamId := by simp [hσ']
  have hGh : σ'.ghist
      = fun n => if n = j then σ.ghist n ++ [Status.waitingTeam] else σ.ghist n := by
    funext n
    simp [hσ']
  have hPhh : σ'.phist = σ.phist := by simp [hσ']
  have hentG : σ.fSt.goaliesArrived = (enteredG cfg σ : Int) := h.arrG
  have hentBound : enteredG cfg σ + 1 ≤ 2 * cfg.ntg := by
    have : (enteredG cfg σ : Int) + 1 ≤ 2 * (cfg.ntg : Int) := by
      rw [← hentG]
      exact hok
    exact_mod_cast this
  refine ⟨?_, ?_, ?_, ?_, ?_, ?_, ?_, ?_, ?_, ?_, ?_, ?_, ?_, ?_, ?_, ?_, ?_, ?_,
    ?_, ?_, ?_, ?_, ?_, ?_, ?_, ?_, ?_⟩
  · rw [hsems, hAct]
    exact h.mutexCap
  · rw [hFa, hEntP]
    exact h.arrP
  · rw [hGa, hEntG, hentG]
    push_cast
    ring
  · rw [hNlP, hEntP]
    exact h.nlP
  · rw [hNlG, hEntG]
    have h1 := h.nlG
    omega
  · rw [hFf, hCons, hNlP]
    exact h.freeP
  · rw [hFf]
    exact h.freePpos
  · intro c hc
    rw [hFf]
    exact h.cfP c ((hPO c).1 hc)
  · rw [hTi, hTf]
    exact h.teamIdEq
  · intro hz
    rw [hAct] at hz
    rw [hsems, hMidP, hMidG]
    exact h.quiet hz
  · intro i' hi' k hk
    rw [hPproc] at hk
    rw [hsems, hMidP, hMidG]
    exact h.balP i' hi' k hk
  · intro i' hi' hk
    rw [hPproc] at hk
    rw [hsems, hMidP, hMidG]
    exact h.balPG i' hi' hk
  · intro j' hj' k hk
    rw [hgp] at hk
    by_cases hjj : j' = j
    · subst hjj
      simp [hpcNew] at hk
    · simp [hjj] at hk
      rw [hsems, hMidP, hMidG]
      exact h.balG j' hj' k hk
  · intro c hc
    rw [hsems] at hc
    exact (hPO c).2 (h.ghostWp c hc)
  · intro c hc
    rw [hsems] at hc
    exact (hGO c).2 (h.ghostWg c hc)
  · intro i' hi' c hc
    rw [hPproc] at hc
    exact (hPO c).2 (h.ghostMidP i' hi' c hc)
  · intro j' hj' c hc
    rw [hgp] at hc
    by_cases hjj : j' = j
    · subst hjj
      simp [hpcNew] at hc
    · simp [hjj] at hc
      exact (hGO c).2 (h.ghostMidG j' hj' c hc)
  · intro i' hi' c t ht
    rw [hPproc] at ht
    rw [hTi]
    exact h.readP i' hi' c t ht
  · intro j' hj' c t ht
    rw [hgp] at ht
    by_cases hjj : j' = j
    · subst hjj
      simp [hpcNew] at ht
    · simp [hjj] at ht
      rw [hTi]
      exact h.readG j' hj' c t ht
  · intro i' hi' r0 hr0 c hc
    rw [hPproc] at hr0
    rcases h.recLinkP i' hi' r0 hr0 c hc with ⟨ha, hteam⟩ | hres
    · exact Or.inl ⟨(hACA c).2 ha, by rw [hTi]; exact hteam⟩
    · exact Or.inr (by rw [hRO c]; exact hres)
  · intro j' hj' r0 hr0 c hc
    rw [hRes j'] at hr0
    rcases h.recLinkG j' hj' r0 hr0 c hc with ⟨ha, hteam⟩ | hres
    · exact Or.inl ⟨(hACA c).2 ha, by rw [hTi]; exact hteam⟩
    · exact Or.inr (by rw [hRO c]; exact hres)
  · intro i' hi' r0 hr0
    rw [hPproc] at hr0
    have hold := h.resIdP i' hi' r0 hr0
    refine ⟨fun hl => ⟨(hold.1 hl).1, by rw [hPproc]; exact (hold.1 hl).2⟩, hold.2⟩
  · intro j' hj' r0 hr0
    have hold := h.resIdG j' hj' r0 (by rw [← hRes j']; exact hr0)
    refine ⟨fun hl => ?_, hold.2⟩
    by_cases hjj : j' = j
    · subst hjj
      rw [hRes j', hpc] at hr0
      simp [GPC.res] at hr0
    · refine ⟨(hold.1 hl).1, ?_⟩
      rw [hgp]
      simp [hjj]
      exact (hold.1 hl).2
  · intro i' hi'
    rw [hPhh, hPproc]
    exact h.histP i' hi'
  · intro j' hj'
    rw [hGh, hgp]
    by_cases hjj : j' = j
    · subst hjj
      simp [h.histG j' hj', hpc, hpcNew, histOfG]
    · simp [hjj, h.histG j' hj']
  · intro i' hi'
    rw [hPproc, hPhh]
    exact h.oobP i' hi'
  · intro j' hj'
    have hold := h.oobG j' hj'
    have hne : j' ≠ j := fun hh => hj' (hh ▸ hj)
    constructor
    · rw [hgp]
      simp [hne]
      exact hold.1
    · rw [hGh]
      simp [hne]
      exact hold.2

lemma countB_zero_no {α : Type} (n m : Nat) (g : Nat → α) (f : α → Bool)
    (hz : countB n g f = 0) (hm : m < n) : f (g m) = false := by
  cases hh : f (g m)
  · rfl
  · exfalso
    have := one_le_countB n m g f hm hh
    omega

/-- When no captain is active, no process is in a captain-wait state. -/
lemma noActive_facts (cfg : SysCfg) (σ : Sys) (hz : activeCaps cfg σ = 0) :
    (∀ n, n < cfg.np → (σ.pproc n).isActiveCap = false) ∧
    (∀ n, n < cfg.ng → (σ.gproc n).isCapWait = false) := by
  unfold activeCaps pCount gCount at hz
  constructor
  · intro n hn
    exact countB_zero_no cfg.np n σ.pproc PPC.isActiveCap (by omega) hn
  · intro n hn
    exact countB_zero_no cfg.ng n σ.gproc GPC.isCapWait (by omega) hn

/-- When the invariant's quiet state holds, no recruit is
mid-handshake. -/
lemma noMid_facts (cfg : SysCfg) (σ : Sys) (hp : midP cfg σ = 0) (hg : midG cfg σ = 0) :
    (∀ n, n < cfg.np → (σ.pproc n).isMid = false) ∧
    (∀ n, n < cfg.ng → (σ.gproc n).isMid = false) := by
  unfold midP at hp
  unfold midG at hg
  constructor
  · intro n hn
    exact countB_zero_no cfg.np n σ.pproc PPC.isMid hp hn
  · intro n hn
    exact countB_zero_no cfg.ng n σ.gproc GPC.isMid hg hn

/-- Preservation for the player captain entry (NUMTEAMPLAYERS ≥ 2). -/
lemma inv_pCapEnterLoop (cfg : SysCfg) (σ : Sys) (i : Nat) (h : Inv cfg σ)
    (hi : i < cfg.np) (hpc : σ.pproc i = .arrived) (hm : 1 ≤ σ.sems.mutex)
    (hok : σ.fSt.playersArrived + 1 ≤ 2 * (cfg.ntp : Int))
    (hcap : (cfg.ntp : Int) ≤ σ.fSt.playersFree + 1 ∧
            (cfg.ntg : Int) ≤ σ.fSt.goaliesFree)
    (hn : 2 ≤ cfg.ntp) :
    Inv cfg ((((σ.mapFSt fun f => { f with playersArrived := f.playersArrived + 1,
                                           playersFree := f.playersFree + 1 }).writeP
                 i .formingTeam).mapSems fun sm =>
                   { sm with mutex := sm.mutex - 1,
                             playersWaitTeam := Agent.player i :: sm.playersWaitTeam }).withP
               i (.capWait 1)) := by
  have hcaps0 : activeCaps cfg σ = 0 := by
    have := h.mutexCap
    omega
  have hmutex1 : σ.sems.mutex = 1 := by
    have := h.mutexCap
    omega
  obtain ⟨hq1, hq2, hq3, hq4, hq5⟩ := h.quiet hcaps0
  obtain ⟨hNoPcap, hNoGcap⟩ := noActive_facts cfg σ hcaps0
  obtain ⟨hNoMidP, hNoMidG⟩ := noMid_facts cfg σ hq4 hq5
  set pcNew : PPC := .capWait 1 with hpcNew
  set σ' := (((σ.mapFSt fun f => { f with playersArrived := f.playersArrived + 1,
                                          playersFree := f.playersFree + 1 }).writeP
                i .formingTeam).mapSems fun sm =>
                  { sm with mutex := sm.mutex - 1,
                            playersWaitTeam := Agent.player i :: sm.playersWaitTeam }).withP
              i pcNew with hσ'
  have hpp : σ'.pproc = fun n => if n = i then pcNew else σ.pproc n := by
    funext n
    simp [hσ']
  have hWp' : σ'.sems.playersWaitTeam = Agent.player i :: σ.sems.playersWaitTeam := by
    simp [hσ']
  have hWg' : σ'.sems.goaliesWaitTeam = σ.sems.goaliesWaitTeam := by simp [hσ']
  have hReg' : σ'.sems.playerRegistered = σ.sems.playerRegistered := by simp [hσ']
  have hMu' : σ'.sems.mutex = σ.sems.mutex - 1 := by simp [hσ']
  have hsame : ∀ fc : PPC → Bool, fc (σ.pproc i) = fc pcNew →
      pCount cfg σ' fc = pCount cfg σ fc :=
    fun fc hv => pCount_same cfg σ σ' i pcNew fc hi hpp hv
  have hgc : ∀ fc : GPC → Bool, gCount cfg σ' fc = gCount cfg σ fc :=
    fun fc => gCount_frame cfg σ σ' fc (by simp [hσ'])
  have hAct : activeCaps cfg σ' = activeCaps cfg σ + 1 := by
    unfold activeCaps
    have := pCount_incr cfg σ σ' i pcNew PPC.isActiveCap hi hpp (by rw [hpc]; decide)
      (by rw [hpcNew]; decide)
    rw [this, hgc]
    omega
  have hTf : teamsFormed cfg σ' = teamsFormed cfg σ := by
    unfold teamsFormed
    rw [hsame _ (by rw [hpc, hpcNew]; decide), hgc]
  have hCons : consPlayers cfg σ' = consPlayers cfg σ := by
    unfold consPlayers
    rw [hsame _ (by rw [hpc, hpcNew]; decide), hgc]
  have hMidP : midP cfg σ' = midP cfg σ := by
    unfold midP
    rw [hsame _ (by rw [hpc, hpcNew]; decide)]
  have hMidG : midG cfg σ' = midG cfg σ := by unfold midG; rw [hgc]
  have hEntP : enteredP cfg σ' = enteredP cfg σ + 1 := by
    unfold enteredP
    exact pCount_incr cfg σ σ' i pcNew PPC.entered hi hpp (by rw [hpc]; decide)
      (by rw [hpcNew]; decide)
  have hEntG : enteredG cfg σ' = enteredG cfg σ := by unfold enteredG; rw [hgc]
  have hNlP : nonLateP cfg σ' = nonLateP cfg σ + 1 := by
    unfold nonLateP
    exact pCount_incr cfg σ σ' i pcNew PPC.nonLate hi hpp (by rw [hpc]; decide)
      (by rw [hpcNew]; decide)
  have hNlG : nonLateG cfg σ' = nonLateG cfg σ := by unfold nonLateG; rw [hgc]
  have hGproc : σ'.gproc = σ.gproc := by simp [hσ']
  have hRes : ∀ n, (σ'.pproc n).res = (σ.pproc n).res := by
    intro n
    rw [hpp]
    by_cases hnn : n = i
    · subst hnn; simp [hpc, hpcNew, PPC.res]
    · simp [hnn]
  have hRO := resOf_congr σ σ' hRes (fun _ => by rw [hGproc])
  have hFa : σ'.fSt.playersArrived = σ.fSt.playersArrived + 1 := by simp [hσ']
  have hFf : σ'.fSt.playersFree = σ.fSt.playersFree + 1 := by simp [hσ']
  have hGa : σ'.fSt.goaliesArrived = σ.fSt.goaliesArrived := by simp [hσ']
  have hTi : σ'.fSt.teamId = σ.fSt.teamId := by simp [hσ']
  have hPh : σ'.phist
      = fun n => if n = i then σ.phist n ++ [Status.formingTeam] else σ.phist n := by
    funext n
    simp [hσ']
  have hGh : σ'.ghist = σ.ghist := by simp [hσ']
  have hentP : σ.fSt.playersArrived = (enteredP cfg σ : Int) := h.arrP
  refine ⟨?_, ?_, ?_, ?_, ?_, ?_, ?_, ?_, ?_, ?_, ?_, ?_, ?_, ?_, ?_, ?_, ?_, ?_,
    ?_, ?_, ?_, ?_, ?_, ?_, ?_, ?_, ?_⟩
  · rw [hMu', hAct, hmutex1, hcaps0]
  · rw [hFa, hEntP, hentP]
    push_cast
    ring
  · rw [hGa, hEntG]
    exact h.arrG
  · rw [hNlP, hEntP]
    have h1 := h.nlP
    have hentBound : enteredP cfg σ + 1 ≤ 2 * cfg.ntp := by
      have : (enteredP cfg σ : Int) + 1 ≤ 2 * (cfg.ntp : Int) := by
        rw [← hentP]
        exact hok
      exact_mod_cast this
    omega
  · rw [hNlG, hEntG]
    exact h.nlG
  · rw [hFf, hCons, hNlP]
    have := h.freeP
    push_cast
    push_cast at this
    linarith
  · rw [hFf]
    have := h.freePpos
    linarith
  · intro c hc
    rw [hFf]
    rcases c with ic | jc
    · obtain ⟨hic, hw⟩ := hc
      by_cases hii : ic = i
      · exact hcap.1
      · rw [hpp] at hw
        simp [hii] at hw
        have hfalse := hNoPcap ic hic
        simp [PPC.isActiveCap, hw] at hfalse
    · obtain ⟨hjc, hw⟩ := hc
      rw [hGproc] at hw
      rw [hNoGcap jc hjc] at hw
      simp at hw
  · rw [hTi, hTf]
    exact h.teamIdEq
  · intro hz
    rw [hAct] at hz
    omega
  · intro i' hi' k hk
    rw [hpp] at hk
    by_cases hii : i' = i
    · subst hii
      simp [hpcNew] at hk
      subst hk
      refine ⟨le_refl 1, by omega, ?_, ?_, ?_⟩
      · rw [hWp', hReg', hMidP, hq1, hq3, hq4]
        simp
      · rw [hWg']
        exact hq2
      · rw [hMidG]
        exact hq5
    · simp [hii] at hk
      exfalso
      have := hNoPcap i' hi'
      rw [hk] at this
      simp [PPC.isActiveCap, PPC.isCapWait] at this
  · intro i' hi' hk
    rw [hpp] at hk
    by_cases hii : i' = i
    · subst hii
      simp [hpcNew] at hk
    · simp [hii] at hk
      exfalso
      have := hNoPcap i' hi'
      rw [hk] at this
      simp [PPC.isActiveCap, PPC.isCapWaitG] at this
  · intro j hj k hk
    rw [hGproc] at hk
    exfalso
    have := hNoGcap j hj
    rw [hk] at this
    simp [GPC.isCapWait] at this
  · intro c hc
    rw [hWp'] at hc
    rcases List.mem_cons.1 hc with rfl | hc
    · refine ⟨hi, ?_⟩
      rw [hpp]
      simp [hpcNew, PPC.isCapWait]
    · rw [hq1] at hc
      exact absurd hc (List.not_mem_nil c)
  · intro c hc
    rw [hWg', hq2] at hc
    exact absurd hc (List.not_mem_nil c)
  · intro i' hi' c hc
    rw [hpp] at hc
    by_cases hii : i' = i
    · subst hii
      simp [hpcNew] at hc
    · simp [hii] at hc
      exfalso
      have := hNoMidP i' hi'
      rcases hc with hc | ⟨t, hc⟩ <;> rw [hc] at this <;> simp [PPC.isMid] at this
  · intro j hj c hc
    rw [hGproc] at hc
    exfalso
    have := hNoMidG j hj
    rcases hc with hc | ⟨t, hc⟩ <;> rw [hc] at this <;> simp [GPC.isMid] at this
  · intro i' hi' c t ht
    rw [hpp] at ht
    by_cases hii : i' = i
    · subst hii
      simp [hpcNew] at ht
    · simp [hii] at ht
      exfalso
      have := hNoMidP i' hi'
      rw [ht] at this
      simp [PPC.isMid] at this
  · intro j hj c t ht
    rw [hGproc] at ht
    exfalso
    have := hNoMidG j hj
    rw [ht] at this
    simp [GPC.isMid] at this
  · intro i' hi' r0 hr0 c hc
    rw [hRes i'] at hr0
    rcases h.recLinkP i' hi' r0 hr0 c hc with ⟨ha, _⟩ | hres
    · exfalso
      have := one_le_activeCaps_of cfg σ c ha
      omega
    · exact Or.inr (by rw [hRO c]; exact hres)
  · intro j hj r0 hr0 c hc
    rw [hGproc] at hr0
    rcases h.recLinkG j hj r0 hr0 c hc with ⟨ha, _⟩ | hres
    · exfalso
      have := one_le_activeCaps_of cfg σ c ha
      omega
    · exact Or.inr (by rw [hRO c]; exact hres)
  · intro i' hi' r0 hr0
    have hold := h.resIdP i' hi' r0 (by rw [← hRes i']; exact hr0)
    refine ⟨fun hl => ?_, hold.2⟩
    by_cases hii : i' = i
    · subst hii
      rw [hRes i', hpc] at hr0
      simp [PPC.res] at hr0
    · refine ⟨(hold.1 hl).1, ?_⟩
      rw [hpp]
      simp [hii]
      exact (hold.1 hl).2
  · intro j hj r0 hr0
    rw [hGproc] at hr0
    have hold := h.resIdG j hj r0 hr0
    refine ⟨fun hl => ⟨(hold.1 hl).1, by rw [hGproc]; exact (hold.1 hl).2⟩, hold.2⟩
  · intro i' hi'
    rw [hPh, hpp]
    by_cases hii : i' = i
    · subst hii
      simp [h.histP i' hi', hpc, hpcNew, histOfP]
    · simp [hii, h.histP i' hi']
  · intro j hj
    rw [hGh, hGproc]
    exact h.histG j hj
  · intro i' hi'
    have hold := h.oobP i' hi'
    have hne : i' ≠ i := fun hh => hi' (hh ▸ hi)
    constructor
    · rw [hpp]
      simp [hne]
      exact hold.1
    · rw [hPh]
      simp [hne]
      exact hold.2
  · intro j hj
    rw [hGproc, hGh]
    exact h.oobG j hj

/-- Preservation for the player captain entry with NUMTEAMPLAYERS = 1
(the player loop is skipped; playersFree is consumed and the goalie
credit issued immediately). -/
lemma inv_pCapEnterSkip (cfg : SysCfg) (σ : Sys) (i : Nat) (h : Inv cfg σ)
    (hi : i < cfg.np) (hpc : σ.pproc i = .arrived) (hm : 1 ≤ σ.sems.mutex)
    (hok : σ.fSt.playersArrived + 1 ≤ 2 * (cfg.ntp : Int))
    (hcap : (cfg.ntp : Int) ≤ σ.fSt.playersFree + 1 ∧
            (cfg.ntg : Int) ≤ σ.fSt.goaliesFree)
    (hn : cfg.ntp = 1) :
    Inv cfg ((((σ.mapFSt fun f =>
          { f with playersArrived := f.playersArrived + 1,
                   playersFree := f.playersFree + 1 - (cfg.ntp : Int) }).writeP
                 i .formingTeam).mapSems fun sm =>
                   { sm with mutex := sm.mutex - 1,
                             goaliesWaitTeam := Agent.player i :: sm.goaliesWaitTeam }).withP
               i .capWaitG) := by
  have hcaps0 : activeCaps cfg σ = 0 := by
    have := h.mutexCap
    omega
  have hmutex1 : σ.sems.mutex = 1 := by
    have := h.mutexCap
    omega
  obtain ⟨hq1, hq2, hq3, hq4, hq5⟩ := h.quiet hcaps0
  obtain ⟨hNoPcap, hNoGcap⟩ := noActive_facts cfg σ hcaps0
  obtain ⟨hNoMidP, hNoMidG⟩ := noMid_facts cfg σ hq4 hq5
  set pcNew : PPC := .capWaitG with hpcNew
  set σ' := (((σ.mapFSt fun f =>
      { f with playersArrived := f.playersArrived + 1,
               playersFree := f.playersFree + 1 - (cfg.ntp : Int) }).writeP
             i .formingTeam).mapSems fun sm =>
               { sm with mutex := sm.mutex - 1,
                         goaliesWaitTeam := Agent.player i :: sm.goaliesWaitTeam }).withP
           i pcNew with hσ'
  have hpp : σ'.pproc = fun n => if n = i then pcNew else σ.pproc n := by
    funext n
    simp [hσ']
  have hWp' : σ'.sems.playersWaitTeam = σ.sems.playersWaitTeam := by simp [hσ']
  have hWg' : σ'.sems.goaliesWaitTeam = Agent.player i :: σ.sems.goaliesWaitTeam := by
    simp [hσ']
  have hReg' : σ'.sems.playerRegistered = σ.sems.playerRegistered := by simp [hσ']
  have hMu' : σ'.sems.mutex = σ.sems.mutex - 1 := by simp [hσ']
  have hsame : ∀ fc : PPC → Bool, fc (σ.pproc i) = fc pcNew →
      pCount cfg σ' fc = pCount cfg σ fc :=
    fun fc hv => pCount_same cfg σ σ' i pcNew fc hi hpp hv
  have hgc : ∀ fc : GPC → Bool, gCount cfg σ' fc = gCount cfg σ fc :=
    fun fc => gCount_frame cfg σ σ' fc (by simp [hσ'])
  have hAct : activeCaps cfg σ' = activeCaps cfg σ + 1 := by
    unfold activeCaps
    have := pCount_incr cfg σ σ' i pcNew PPC.isActiveCap hi hpp (by rw [hpc]; decide)
      (by rw [hpcNew]; decide)
    rw [this, hgc]
    omega
  have hTf : teamsFormed cfg σ' = teamsFormed cfg σ := by
    unfold teamsFormed
    rw [hsame _ (by rw [hpc, hpcNew]; decide), hgc]
  have hCons : consPlayers cfg σ' = consPlayers cfg σ + 1 := by
    unfold consPlayers
    have := pCount_incr cfg σ σ' i pcNew PPC.consumedP hi hpp (by rw [hpc]; decide)
      (by rw [hpcNew]; decide)
    rw [this, hgc]
    omega
  have hMidP : midP cfg σ' = midP cfg σ := by
    unfold midP
    rw [hsame _ (by rw [hpc, hpcNew]; decide)]
  have hMidG : midG cfg σ' = midG cfg σ := by unfold midG; rw [hgc]
  have hEntP : enteredP cfg σ' = enteredP cfg σ + 1 := by
    unfold enteredP
    exact pCount_incr cfg σ σ' i pcNew PPC.entered hi hpp (by rw [hpc]; decide)
      (by rw [hpcNew]; decide)
  have hEntG : enteredG cfg σ' = enteredG cfg σ := by unfold enteredG; rw [hgc]
  have hNlP : nonLateP cfg σ' = nonLateP cfg σ + 1 := by
    unfold nonLateP
    exact pCount_incr cfg σ σ' i pcNew PPC.nonLate hi hpp (by rw [hpc]; decide)
      (by rw [hpcNew]; decide)
  have hNlG : nonLateG cfg σ' = nonLateG cfg σ := by unfold nonLateG; rw [hgc]
  have hGproc : σ'.gproc = σ.gproc := by simp [hσ']
  have hRes : ∀ n, (σ'.pproc n).res = (σ.pproc n).res := by
    intro n
    rw [hpp]
    by_cases hnn : n = i
    · subst hnn; simp [hpc, hpcNew, PPC.res]
    · simp [hnn]
  have hRO := resOf_congr σ σ' hRes (fun _ => by rw [hGproc])
  have hFa : σ'.fSt.playersArrived = σ.fSt.playersArrived + 1 := by simp [hσ']
  have hFf : σ'.fSt.playersFree = σ.fSt.playersFree + 1 - (cfg.ntp : Int) := by simp [hσ']
  have hGa : σ'.fSt.goaliesArrived = σ.fSt.goaliesArrived := by simp [hσ']
  have hTi : σ'.fSt.teamId = σ.fSt.teamId := by simp [hσ']
  have hPh : σ'.phist
      = fun n => if n = i then σ.phist n ++ [Status.formingTeam] else σ.phist n := by
    funext n
    simp [hσ']
  have hGh : σ'.ghist = σ.ghist := by simp [hσ']
  have hentP : σ.fSt.playersArrived = (enteredP cfg σ : Int) := h.arrP
  refine ⟨?_, ?_, ?_, ?_, ?_, ?_, ?_, ?_, ?_, ?_, ?_, ?_, ?_, ?_, ?_, ?_, ?_, ?_,
    ?_, ?_, ?_, ?_, ?_, ?_, ?_, ?_, ?_⟩
  · rw [hMu', hAct, hmutex1, hcaps0]
  · rw [hFa, hEntP, hentP]
    push_cast
    ring
  · rw [hGa, hEntG]
    exact h.arrG
  · rw [hNlP, hEntP]
    have h1 := h.nlP
    have hentBound : enteredP cfg σ + 1 ≤ 2 * cfg.ntp := by
      have : (enteredP cfg σ : Int) + 1 ≤ 2 * (cfg.ntp : Int) := by
        rw [← hentP]
        exact hok
      exact_mod_cast this
    omega
  · rw [hNlG, hEntG]
    exact h.nlG
  · rw [hFf, hCons, hNlP]
    have := h.freeP
    push_cast
    push_cast at this
    linarith
  · rw [hFf]
    have := hcap.1
    linarith
  · intro c hc
    rcases c with ic | jc
    · obtain ⟨hic, hw⟩ := hc
      rw [hpp] at hw
      by_cases hii : ic = i
      · subst hii
        simp [hpcNew, PPC.isCapWait] at hw
      · simp [hii] at hw
        have hfalse := hNoPcap ic hic
        simp [PPC.isActiveCap, hw] at hfalse
    · obtain ⟨hjc, hw⟩ := hc
      rw [hGproc] at hw
      rw [hNoGcap jc hjc] at hw
      simp at hw
  · rw [hTi, hTf]
    exact h.teamIdEq
  · intro hz
    rw [hAct] at hz
    omega
  · intro i' hi' k hk
    rw [hpp] at hk
    by_cases hii : i' = i
    · subst hii
      simp [hpcNew] at hk
    · simp [hii] at hk
      exfalso
      have := hNoPcap i' hi'
      rw [hk] at this
      simp [PPC.isActiveCap, PPC.isCapWait] at this
  · intro i' hi' hk
    rw [hpp] at hk
    by_cases hii : i' = i
    · subst hii
      refine ⟨?_, ?_, ?_⟩
      · rw [hWp']
        exact hq1
      · rw [hMidP]
        exact hq4
      · rw [hWg', hReg', hMidG, hq2, hq3, hq5]
        simp
    · simp [hii] at hk
      exfalso
      have := hNoPcap i' hi'
      rw [hk] at this
      simp [PPC.isActiveCap, PPC.isCapWaitG] at this
  · intro j hj k hk
    rw [hGproc] at hk
    exfalso
    have := hNoGcap j hj
    rw [hk] at this
    simp [GPC.isCapWait] at this
  · intro c hc
    rw [hWp', hq1] at hc
    exact absurd hc (List.not_mem_nil c)
  · intro c hc
    rw [hWg'] at hc
    rcases List.mem_cons.1 hc with rfl | hc
    · refine ⟨hi, ?_⟩
      rw [hpp]
      simp [hpcNew, PPC.isCapWaitG]
    · rw [hq2] at hc
      exact absurd hc (List.not_mem_nil c)
  · intro i' hi' c hc
    rw [hpp] at hc
    by_cases hii : i' = i
    · subst hii
      simp [hpcNew] at hc
    · simp [hii] at hc
      exfalso
      have := hNoMidP i' hi'
      rcases hc with hc | ⟨t, hc⟩ <;> rw [hc] at this <;> simp [PPC.isMid] at this
  · intro j hj c hc
    rw [hGproc] at hc
    exfalso
    have := hNoMidG j hj
    rcases hc with hc | ⟨t, hc⟩ <;> rw [hc] at this <;> simp [GPC.isMid] at this
  · intro i' hi' c t ht
    rw [hpp] at ht
    by_cases hii : i' = i
    · subst hii
      simp [hpcNew] at ht
    · simp [hii] at ht
      exfalso
      have := hNoMidP i' hi'
      rw [ht] at this
      simp [PPC.isMid] at this
  · intro j hj c t ht
    rw [hGproc] at ht
    exfalso
    have := hNoMidG j hj
    rw [ht] at this
    simp [GPC.isMid] at this
  · intro i' hi' r0 hr0 c hc
    rw [hRes i'] at hr0
    rcases h.recLinkP i' hi' r0 hr0 c hc with ⟨ha, _⟩ | hres
    · exfalso
      have := one_le_activeCaps_of cfg σ c ha
      omega
    · exact Or.inr (by rw [hRO c]; exact hres)
  · intro j hj r0 hr0 c hc
    rw [hGproc] at hr0
    rcases h.recLinkG j hj r0 hr0 c hc with ⟨ha, _⟩ | hres
    · exfalso
      have := one_le_activeCaps_of cfg σ c ha
      omega
    · exact Or.inr (by rw [hRO c]; exact hres)
  · intro i' hi' r0 hr0
    have hold := h.resIdP i' hi' r0 (by rw [← hRes i']; exact hr0)
    refine ⟨fun hl => ?_, hold.2⟩
    by_cases hii : i' = i
    · subst hii
      rw [hRes i', hpc] at hr0
      simp [PPC.res] at hr0
    · refine ⟨(hold.1 hl).1, ?_⟩
      rw [hpp]
      simp [hii]
      exact (hold.1 hl).2
  · intro j hj r0 hr0
    rw [hGproc] at hr0
    have hold := h.resIdG j hj r0 hr0
    refine ⟨fun hl => ⟨(hold.1 hl).1, by rw [hGproc]; exact (hold.1 hl).2⟩, hold.2⟩
  · intro i' hi'
    rw [hPh, hpp]
    by_cases hii : i' = i
    · subst hii
      simp [h.histP i' hi', hpc, hpcNew, histOfP]
    · simp [hii, h.histP i' hi']
  · intro j hj
    rw [hGh, hGproc]
    exact h.histG j hj
  · intro i' hi'
    have hold := h.oobP i' hi'
    have hne : i' ≠ i := fun hh => hi' (hh ▸ hi)
    constructor
    · rw [hpp]
      simp [hne]
      exact hold.1
    · rw [hPh]
      simp [hne]
      exact hold.2
  · intro j hj
    rw [hGproc, hGh]
    exact h.oobG j hj

/-- Preservation for the goalie captain entry: all NUMTEAMPLAYERS
player credits are issued at once (the code's first loop is
non-blocking). -/
lemma inv_gCapEnter (cfg : SysCfg) (σ : Sys) (j : Nat) (h : Inv cfg σ)
    (hj : j < cfg.ng) (hpc : σ.gproc j = .arrived) (hm : 1 ≤ σ.sems.mutex)
    (hok : σ.fSt.goaliesArrived + 1 ≤ 2 * (cfg.ntg : Int))
    (hcap : (cfg.ntp : Int) ≤ σ.fSt.playersFree ∧
            (cfg.ntg : Int) ≤ σ.fSt.goaliesFree + 1)
    (hn : 1 ≤ cfg.ntp) :
    Inv cfg ((((σ.mapFSt fun f =>
          { f with goaliesArrived := f.goaliesArrived + 1,
                   goaliesFree := f.goaliesFree + 1 - (cfg.ntg : Int) }).writeG
                 j .formingTeam).mapSems fun sm =>
                   { sm with mutex := sm.mutex - 1,
                             playersWaitTeam :=
                               List.replicate cfg.ntp (Agent.goalie j)
                                 ++ sm.playersWaitTeam }).withG
               j (.capWait 1)) := by
  have hcaps0 : activeCaps cfg σ = 0 := by
    have := h.mutexCap
    omega
  have hmutex1 : σ.sems.mutex = 1 := by
    have := h.mutexCap
    omega
  obtain ⟨hq1, hq2, hq3, hq4, hq5⟩ := h.quiet hcaps0
  obtain ⟨hNoPcap, hNoGcap⟩ := noActive_facts cfg σ hcaps0
  obtain ⟨hNoMidP, hNoMidG⟩ := noMid_facts cfg σ hq4 hq5
  set pcNew : GPC := .capWait 1 with hpcNew
  set σ' := (((σ.mapFSt fun f =>
      { f with goaliesArrived := f.goaliesArrived + 1,
               goaliesFree := f.goaliesFree + 1 - (cfg.ntg : Int) }).writeG
             j .formingTeam).mapSems fun sm =>
               { sm with mutex := sm.mutex - 1,
                         playersWaitTeam :=
                           List.replicate cfg.ntp (Agent.goalie j)
                             ++ sm.playersWaitTeam }).withG j pcNew with hσ'
  have hgp : σ'.gproc = fun n => if n = j then pcNew else σ.gproc n := by
    funext n
    simp [hσ']
  have hWp' : σ'.sems.playersWaitTeam
      = List.replicate cfg.ntp (Agent.goalie j) ++ σ.sems.playersWaitTeam := by
    simp [hσ']
  have hWg' : σ'.sems.goaliesWaitTeam = σ.sems.goaliesWaitTeam := by simp [hσ']
  have hReg' : σ'.sems.playerRegistered = σ.sems.playerRegistered := by simp [hσ']
  have hMu' : σ'.sems.mutex = σ.sems.mutex - 1 := by simp [hσ']
  have hsame : ∀ fc : GPC → Bool, fc (σ.gproc j) = fc pcNew →
      gCount cfg σ' fc = gCount cfg σ fc :=
    fun fc hv => gCount_same cfg σ σ' j pcNew fc hj hgp hv
  have hpcf : ∀ fc : PPC → Bool, pCount cfg σ' fc = pCount cfg σ fc :=
    fun fc => pCount_frame cfg σ σ' fc (by simp [hσ'])
  have hAct : activeCaps cfg σ' = activeCaps cfg σ + 1 := by
    unfold activeCaps
    have := gCount_incr cfg σ σ' j pcNew GPC.isCapWait hj hgp (by rw [hpc]; decide)
      (by rw [hpcNew]; decide)
    rw [this, hpcf]
    omega
  have hTf : teamsFormed cfg σ' = teamsFormed cfg σ := by
    unfold teamsFormed
    rw [hpcf, hsame _ (by rw [hpc, hpcNew]; decide)]
  have hCons : consPlayers cfg σ' = consPlayers cfg σ := by
    unfold consPlayers
    rw [hpcf, hsame _ (by rw [hpc, hpcNew]; decide)]
  have hMidP : midP cfg σ' = midP cfg σ := by unfold midP; rw [hpcf]
  have hMidG : midG cfg σ' = midG cfg σ := by
    unfold midG
    rw [hsame _ (by rw [hpc, hpcNew]; decide)]
  have hEntP : enteredP cfg σ' = enteredP cfg σ := by unfold enteredP; rw [hpcf]
  have hEntG : enteredG cfg σ' = enteredG cfg σ + 1 := by
    unfold enteredG
    exact gCount_incr cfg σ σ' j pcNew GPC.entered hj hgp (by rw [hpc]; decide)
      (by rw [hpcNew]; decide)
  have hNlP : nonLateP cfg σ' = nonLateP cfg σ := by unfold nonLateP; rw [hpcf]
  have hNlG : nonLateG cfg σ' = nonLateG cfg σ + 1 := by
    unfold nonLateG
    exact gCount_incr cfg σ σ' j pcNew GPC.nonLate hj hgp (by rw [hpc]; decide)
      (by rw [hpcNew]; decide)
  have hPproc : σ'.pproc = σ.pproc := by simp [hσ']
  have hRes : ∀ n, (σ'.gproc n).res = (σ.gproc n).res := by
    intro n
    rw [hgp]
    by_cases hnn : n = j
    · subst hnn; simp [hpc, hpcNew, GPC.res]
    · simp [hnn]
  have hRO := resOf_congr σ σ' (fun _ => by rw [hPproc]) hRes
  have hFa : σ'.fSt.playersArrived = σ.fSt.playersArrived := by simp [hσ']
  have hFf : σ'.fSt.playersFree = σ.fSt.playersFree := by simp [hσ']
  have hGa : σ'.fSt.goaliesArrived = σ.fSt.goaliesArrived + 1 := by simp [hσ']
  have hTi : σ'.fSt.teamId = σ.fSt.teamId := by simp [hσ']
  have hGh : σ'.ghist
      = fun n => if n = j then σ.ghist n ++ [Status.formingTeam] else σ.ghist n := by
    funext n
    simp [hσ']
  have hPhh : σ'.phist = σ.phist := by simp [hσ']
  have hentG : σ.fSt.goaliesArrived = (enteredG cfg σ : Int) := h.arrG
  refine ⟨?_, ?_, ?_, ?_, ?_, ?_, ?_, ?_, ?_, ?_, ?_, ?_, ?_, ?_, ?_, ?_, ?_, ?_,
    ?_, ?_, ?_, ?_, ?_, ?_, ?_, ?_, ?_⟩
  · rw [hMu', hAct, hmutex1, hcaps0]
  · rw [hFa, hEntP]
    exact h.arrP
  · rw [hGa, hEntG, hentG]
    push_cast
    ring
  · rw [hNlP, hEntP]
    exact h.nlP
  · rw [hNlG, hEntG]
    have h1 := h.nlG
    have hentBound : enteredG cfg σ + 1 ≤ 2 * cfg.ntg := by
      have : (enteredG cfg σ : Int) + 1 ≤ 2 * (cfg.ntg : Int) := by
        rw [← hentG]
        exact hok
      exact_mod_cast this
    omega
  · rw [hFf, hCons, hNlP]
    exact h.freeP
  · rw [hFf]
    exact h.freePpos
  · intro c hc
    rw [hFf]
    rcases c with ic | jc
    · obtain ⟨hic, hw⟩ := hc
      rw [hPproc] at hw
      have hfalse := hNoPcap ic hic
      simp [PPC.isActiveCap, hw] at hfalse
    · obtain ⟨hjc, hw⟩ := hc
      rw [hgp] at hw
      by_cases hjj : jc = j
      · exact hcap.1
      · simp [hjj] at hw
        have hfalse := hNoGcap jc hjc
        rw [hw] at hfalse
        exact absurd hfalse (by simp)
  · rw [hTi, hTf]
    exact h.teamIdEq
  · intro hz
    rw [hAct] at hz
    omega
  · intro i' hi' k hk
    rw [hPproc] at hk
    exfalso
    have := hNoPcap i' hi'
    rw [hk] at this
    simp [PPC.isActiveCap, PPC.isCapWait] at this
  · intro i' hi' hk
    rw [hPproc] at hk
    exfalso
    have := hNoPcap i' hi'
    rw [hk] at this
    simp [PPC.isActiveCap, PPC.isCapWaitG] at this
  · intro j' hj' k hk
    rw [hgp] at hk
    by_cases hjj : j' = j
    · subst hjj
      simp [hpcNew] at hk
      subst hk
      refine ⟨le_refl 1, hn, ?_, ?_, ?_⟩
      · rw [hWp', hReg', hMidP, hq1, hq3, hq4]
        simp
      · rw [hWg']
        exact hq2
      · rw [hMidG]
        exact hq5
    · simp [hjj] at hk
      exfalso
      have := hNoGcap j' hj'
      rw [hk] at this
      simp [GPC.isCapWait] at this
  · intro c hc
    rw [hWp'] at hc
    rcases List.mem_append.1 hc with hc | hc
    · have : c = Agent.goalie j := (List.mem_replicate.1 hc).2
      subst this
      refine ⟨hj, ?_⟩
      rw [hgp]
      simp [hpcNew, GPC.isCapWait]
    · rw [hq1] at hc
      exact absurd hc (List.not_mem_nil c)
  · intro c hc
    rw [hWg', hq2] at hc
    exact absurd hc (List.not_mem_nil c)
  · intro i' hi' c hc
    rw [hPproc] at hc
    exfalso
    have := hNoMidP i' hi'
    rcases hc with hc | ⟨t, hc⟩ <;> rw [hc] at this <;> simp [PPC.isMid] at this
  · intro j' hj' c hc
    rw [hgp] at hc
    by_cases hjj : j' = j
    · subst hjj
      simp [hpcNew] at hc
    · simp [hjj] at hc
      exfalso
      have := hNoMidG j' hj'
      rcases hc with hc | ⟨t, hc⟩ <;> rw [hc] at this <;> simp [GPC.isMid] at this
  · intro i' hi' c t ht
    rw [hPproc] at ht
    exfalso
    have := hNoMidP i' hi'
    rw [ht] at this
    simp [PPC.isMid] at this
  · intro j' hj' c t ht
    rw [hgp] at ht
    by_cases hjj : j' = j
    · subst hjj
      simp [hpcNew] at ht
    · simp [hjj] at ht
      exfalso
      have := hNoMidG j' hj'
      rw [ht] at this
      simp [GPC.isMid] at this
  · intro i' hi' r0 hr0 c hc
    rw [hPproc] at hr0
    rcases h.recLinkP i' hi' r0 hr0 c hc with ⟨ha, _⟩ | hres
    · exfalso
      have := one_le_activeCaps_of cfg σ c ha
      omega
    · exact Or.inr (by rw [hRO c]; exact hres)
  · intro j' hj' r0 hr0 c hc
    rw [hRes j'] at hr0
    rcases h.recLinkG j' hj' r0 hr0 c hc with ⟨ha, _⟩ | hres
    · exfalso
      have := one_le_activeCaps_of cfg σ c ha
      omega
    · exact Or.inr (by rw [hRO c]; exact hres)
  · intro i' hi' r0 hr0
    rw [hPproc] at hr0
    have hold := h.resIdP i' hi' r0 hr0
    refine ⟨fun hl => ⟨(hold.1 hl).1, by rw [hPproc]; exact (hold.1 hl).2⟩, hold.2⟩
  · intro j' hj' r0 hr0
    have hold := h.resIdG j' hj' r0 (by rw [← hRes j']; exact hr0)
    refine ⟨fun hl => ?_, hold.2⟩
    by_cases hjj : j' = j
    · subst hjj
      rw [hRes j', hpc] at hr0
      simp [GPC.res] at hr0
    · refine ⟨(hold.1 hl).1, ?_⟩
      rw [hgp]
      simp [hjj]
      exact (hold.1 hl).2
  · intro i' hi'
    rw [hPhh, hPproc]
    exact h.histP i' hi'
  · intro j' hj'
    rw [hGh, hgp]
    by_cases hjj : j' = j
    · subst hjj
      simp [h.histG j' hj', hpc, hpcNew, histOfG]
    · simp [hjj, h.histG j' hj']
  · intro i' hi'
    rw [hPproc, hPhh]
    exact h.oobP i' hi'
  · intro j' hj'
    have hold := h.oobG j' hj'
    have hne : j' ≠ j := fun hh => hj' (hh ▸ hj)
    constructor
    · rw [hgp]
      simp [hne]
      exact hold.1
    · rw [hGh]
      simp [hne]
      exact hold.2

/-- Preservation for the player captain's loop continuation: collect
one registration, release the next recruit. -/
lemma inv_pCapNext (cfg : SysCfg) (σ : Sys) (i : Nat) (k : Nat) (h : Inv cfg σ)
    (hi : i < cfg.np) (hpc : σ.pproc i = .capWait k)
    (hack : 1 ≤ σ.sems.playerRegistered) (hk : k + 2 ≤ cfg.ntp) :
    Inv cfg ((σ.mapSems fun sm =>
        { sm with playerRegistered := sm.playerRegistered - 1,
                  playersWaitTeam := Agent.player i :: sm.playersWaitTeam }).withP
      i (.capWait (k + 1))) := by
  obtain ⟨hb1, hb2, hb3, hb4, hb5⟩ := h.balP i hi k hpc
  have hWpNil : σ.sems.playersWaitTeam = [] := by
    cases hW : σ.sems.playersWaitTeam with
    | nil => rfl
    | cons a l => rw [hW] at hb3; simp at hb3; omega
  have hMid0 : midP cfg σ = 0 := by omega
  have hReg1 : σ.sems.playerRegistered = 1 := by
    rw [hWpNil] at hb3
    simp at hb3
    omega
  obtain ⟨hNoMidP, hNoMidG⟩ := noMid_facts cfg σ hMid0 hb5
  have hOwnI : pOwner cfg σ (.player i) := ⟨hi, by rw [hpc]; rfl⟩
  have hActI : activeCapAgent cfg σ (.player i) := Or.inl hOwnI
  set pcNew : PPC := .capWait (k + 1) with hpcNew
  set σ' := (σ.mapSems fun sm =>
      { sm with playerRegistered := sm.playerRegistered - 1,
                playersWaitTeam := Agent.player i :: sm.playersWaitTeam }).withP
    i pcNew with hσ'
  have hpp : σ'.pproc = fun n => if n = i then pcNew else σ.pproc n := by
    funext n
    simp [hσ']
  have hWp' : σ'.sems.playersWaitTeam = Agent.player i :: σ.sems.playersWaitTeam := by
    simp [hσ']
  have hWg' : σ'.sems.goaliesWaitTeam = σ.sems.goaliesWaitTeam := by simp [hσ']
  have hReg' : σ'.sems.playerRegistered = σ.sems.playerRegistered - 1 := by simp [hσ']
  have hMu' : σ'.sems.mutex = σ.sems.mutex := by simp [hσ']
  have hsame : ∀ fc : PPC → Bool, fc (σ.pproc i) = fc pcNew →
      pCount cfg σ' fc = pCount cfg σ fc :=
    fun fc hv => pCount_same cfg σ σ' i pcNew fc hi hpp hv
  have hgc : ∀ fc : GPC → Bool, gCount cfg σ' fc = gCount cfg σ fc :=
    fun fc => gCount_frame cfg σ σ' fc (by simp [hσ'])
  have hAct : activeCaps cfg σ' = activeCaps cfg σ := by
    unfold activeCaps
    rw [hsame _ (by rw [hpc, hpcNew]; rfl), hgc]
  have hTf : teamsFormed cfg σ' = teamsFormed cfg σ := by
    unfold teamsFormed
    rw [hsame _ (by rw [hpc, hpcNew]; rfl), hgc]
  have hCons : consPlayers cfg σ' = consPlayers cfg σ := by
    unfold consPlayers
    rw [hsame _ (by rw [hpc, hpcNew]; rfl), hgc]
  have hMidP : midP cfg σ' = midP cfg σ := by
    unfold midP
    rw [hsame _ (by rw [hpc, hpcNew]; rfl)]
  have hMidG : midG cfg σ' = midG cfg σ := by unfold midG; rw [hgc]
  have hEntP : enteredP cfg σ' = enteredP cfg σ := by
    unfold enteredP
    rw [hsame _ (by rw [hpc, hpcNew]; rfl)]
  have hEntG : enteredG cfg σ' = enteredG cfg σ := by unfold enteredG; rw [hgc]
  have hNlP : nonLateP cfg σ' = nonLateP cfg σ := by
    unfold nonLateP
    rw [hsame _ (by rw [hpc, hpcNew]; rfl)]
  have hNlG : nonLateG cfg σ' = nonLateG cfg σ := by unfold nonLateG; rw [hgc]
  have hpcw : ∀ n, n < cfg.np → (σ'.pproc n).isCapWait = (σ.pproc n).isCapWait := by
    intro n _
    rw [hpp]
    by_cases hn : n = i
    · subst hn; simp [hpc, hpcNew, PPC.isCapWait]
    · simp [hn]
  have hpcwg : ∀ n, n < cfg.np → (σ'.pproc n).isCapWaitG = (σ.pproc n).isCapWaitG := by
    intro n _
    rw [hpp]
    by_cases hn : n = i
    · subst hn; simp [hpc, hpcNew, PPC.isCapWaitG]
    · simp [hn]
  have hGproc : σ'.gproc = σ.gproc := by simp [hσ']
  have hPO := pOwner_congr cfg σ σ' hpcw (fun _ _ => by rw [hGproc])
  have hGO := gOwner_congr cfg σ σ' hpcwg
  have hACA := activeCapAgent_congr cfg σ σ' hpcw hpcwg (fun _ _ => by rw [hGproc])
  have hRes : ∀ n, (σ'.pproc n).res = (σ.pproc n).res := by
    intro n
    rw [hpp]
    by_cases hnn : n = i
    · subst hnn; simp [hpc, hpcNew, PPC.res]
    · simp [hnn]
  have hRO := resOf_congr σ σ' hRes (fun _ => by rw [hGproc])
  have hFSt : σ'.fSt = σ.fSt := by simp [hσ']
  have hPh : σ'.phist = σ.phist := by simp [hσ']
  have hGh : σ'.ghist = σ.ghist := by simp [hσ']
  refine ⟨?_, ?_, ?_, ?_, ?_, ?_, ?_, ?_, ?_, ?_, ?_, ?_, ?_, ?_, ?_, ?_, ?_, ?_,
    ?_, ?_, ?_, ?_, ?_, ?_, ?_, ?_, ?_⟩
  · rw [hMu', hAct]
    exact h.mutexCap
  · rw [hFSt, hEntP]
    exact h.arrP
  · rw [hFSt, hEntG]
    exact h.arrG
  · rw [hNlP, hEntP]
    exact h.nlP
  · rw [hNlG, hEntG]
    exact h.nlG
  · rw [hFSt, hCons, hNlP]
    exact h.freeP
  · rw [hFSt]
    exact h.freePpos
  · intro c hc
    rw [hFSt]
    exact h.cfP c ((hPO c).1 hc)
  · rw [hFSt, hTf]
    exact h.teamIdEq
  · intro hz
    rw [hAct] at hz
    exfalso
    have := one_le_activeCaps_of cfg σ _ hActI
    omega
  · intro i' hi' k' hk'
    rw [hpp] at hk'
    by_cases hii : i' = i
    · subst hii
      simp [hpcNew] at hk'
      subst hk'
      refine ⟨by omega, by omega, ?_, ?_, ?_⟩
      · rw [hWp', hReg', hMidP, hWpNil, hReg1, hMid0]
        simp
      · rw [hWg']
        exact hb4
      · rw [hMidG]
        exact hb5
    · simp [hii] at hk'
      exfalso
      have huniq := activeCap_unique cfg σ h (.player i') (.player i)
        (Or.inl ⟨hi', by rw [hk']; rfl⟩) hActI
      injection huniq with hv
      exact hii hv
  · intro i' hi' hk'
    rw [hpp] at hk'
    by_cases hii : i' = i
    · subst hii
      simp [hpcNew] at hk'
    · simp [hii] at hk'
      exfalso
      have huniq := activeCap_unique cfg σ h (.player i') (.player i)
        (Or.inr ⟨hi', by rw [hk']; rfl⟩) hActI
      injection huniq with hv
      exact hii hv
  · intro j hj k' hk'
    rw [hGproc] at hk'
    exfalso
    have huniq := activeCap_unique cfg σ h (.goalie j) (.player i)
      (Or.inl ⟨hj, by rw [hk']; rfl⟩) hActI
    exact absurd huniq (by simp)
  · intro c hc
    rw [hWp'] at hc
    rcases List.mem_cons.1 hc with rfl | hc
    · exact (hPO _).2 hOwnI
    · rw [hWpNil] at hc
      exact absurd hc (List.not_mem_nil c)
  · intro c hc
    rw [hWg'] at hc
    exact (hGO c).2 (h.ghostWg c hc)
  · intro i' hi' c hc
    rw [hpp] at hc
    by_cases hii : i' = i
    · subst hii
      simp [hpcNew] at hc
    · simp [hii] at hc
      exfalso
      have := hNoMidP i' hi'
      rcases hc with hc | ⟨t, hc⟩ <;> rw [hc] at this <;> simp [PPC.isMid] at this
  · intro j hj c hc
    rw [hGproc] at hc
    exfalso
    have := hNoMidG j hj
    rcases hc with hc | ⟨t, hc⟩ <;> rw [hc] at this <;> simp [GPC.isMid] at this
  · intro i' hi' c t ht
    rw [hpp] at ht
    by_cases hii : i' = i
    · subst hii
      simp [hpcNew] at ht
    · simp [hii] at ht
      exfalso
      have := hNoMidP i' hi'
      rw [ht] at this
      simp [PPC.isMid] at this
  · intro j hj c t ht
    rw [hGproc] at ht
    exfalso
    have := hNoMidG j hj
    rw [ht] at this
    simp [GPC.isMid] at this
  · intro i' hi' r0 hr0 c hc
    rw [hRes i'] at hr0
    rcases h.recLinkP i' hi' r0 hr0 c hc with ⟨ha, hteam⟩ | hres
    · exact Or.inl ⟨(hACA c).2 ha, by rw [hFSt]; exact hteam⟩
    · exact Or.inr (by rw [hRO c]; exact hres)
  · intro j hj r0 hr0 c hc
    rw [hGproc] at hr0
    rcases h.recLinkG j hj r0 hr0 c hc with ⟨ha, hteam⟩ | hres
    · exact Or.inl ⟨(hACA c).2 ha, by rw [hFSt]; exact hteam⟩
    · exact Or.inr (by rw [hRO c]; exact hres)
  · intro i' hi' r0 hr0
    have hold := h.resIdP i' hi' r0 (by rw [← hRes i']; exact hr0)
    refine ⟨fun hl => ?_, hold.2⟩
    by_cases hii : i' = i
    · subst hii
      rw [hRes i', hpc] at hr0
      simp [PPC.res] at hr0
    · refine ⟨(hold.1 hl).1, ?_⟩
      rw [hpp]
      simp [hii]
      exact (hold.1 hl).2
  · intro j hj r0 hr0
    rw [hGproc] at hr0
    have hold := h.resIdG j hj r0 hr0
    refine ⟨fun hl => ⟨(hold.1 hl).1, by rw [hGproc]; exact (hold.1 hl).2⟩, hold.2⟩
  · intro i' hi'
    rw [hPh, hpp]
    by_cases hii : i' = i
    · subst hii
      simp [h.histP i' hi', hpc, hpcNew, histOfP]
    · simp [hii, h.histP i' hi']
  · intro j hj
    rw [hGh, hGproc]
    exact h.histG j hj
  · intro i' hi'
    have hold := h.oobP i' hi'
    have hne : i' ≠ i := fun hh => hi' (hh ▸ hi)
    constructor
    · rw [hpp]
      simp [hne]
      exact hold.1
    · rw [hPh]
      exact hold.2
  · intro j hj
    rw [hGproc, hGh]
    exact h.oobG j hj

/-- Preservation for the player captain switching from the player
quota to the goalie handshake: collect the last player registration,
decrement playersFree, release the goalie credit. -/
lemma inv_pCapToGoalie (cfg : SysCfg) (σ : Sys) (i : Nat) (k : Nat) (h : Inv cfg σ)
    (hi : i < cfg.np) (hpc : σ.pproc i = .capWait k)
    (hack : 1 ≤ σ.sems.playerRegistered) :
    Inv cfg (((σ.mapFSt fun f =>
        { f with playersFree := f.playersFree - (cfg.ntp : Int) }).mapSems fun sm =>
          { sm with playerRegistered := sm.playerRegistered - 1,
                    goaliesWaitTeam := Agent.player i :: sm.goaliesWaitTeam }).withP
      i .capWaitG) := by
  obtain ⟨hb1, hb2, hb3, hb4, hb5⟩ := h.balP i hi k hpc
  have hWpNil : σ.sems.playersWaitTeam = [] := by
    cases hW : σ.sems.playersWaitTeam with
    | nil => rfl
    | cons a l => rw [hW] at hb3; simp at hb3; omega
  have hMid0 : midP cfg σ = 0 := by omega
  have hReg1 : σ.sems.playerRegistered = 1 := by
    rw [hWpNil] at hb3
    simp at hb3
    omega
  obtain ⟨hNoMidP, hNoMidG⟩ := noMid_facts cfg σ hMid0 hb5
  have hOwnI : pOwner cfg σ (.player i) := ⟨hi, by rw [hpc]; rfl⟩
  have hActI : activeCapAgent cfg σ (.player i) := Or.inl hOwnI
  set pcNew : PPC := .capWaitG with hpcNew
  set σ' := (((σ.mapFSt fun f =>
      { f with playersFree := f.playersFree - (cfg.ntp : Int) }).mapSems fun sm =>
        { sm with playerRegistered := sm.playerRegistered - 1,
                  goaliesWaitTeam := Agent.player i :: sm.goaliesWaitTeam }).withP
    i pcNew) with hσ'
  have hpp : σ'.pproc = fun n => if n = i then pcNew else σ.pproc n := by
    funext n
    simp [hσ']
  have hWp' : σ'.sems.playersWaitTeam = σ.sems.playersWaitTeam := by simp [hσ']
  have hWg' : σ'.sems.goaliesWaitTeam = Agent.player i :: σ.sems.goaliesWaitTeam := by
    simp [hσ']
  have hReg' : σ'.sems.playerRegistered = σ.sems.playerRegistered - 1 := by simp [hσ']
  have hMu' : σ'.sems.mutex = σ.sems.mutex := by simp [hσ']
  have hsame : ∀ fc : PPC → Bool, fc (σ.pproc i) = fc pcNew →
      pCount cfg σ' fc = pCount cfg σ fc :=
    fun fc hv => pCount_same cfg σ σ' i pcNew fc hi hpp hv
  have hgc : ∀ fc : GPC → Bool, gCount cfg σ' fc = gCount cfg σ fc :=
    fun fc => gCount_frame cfg σ σ' fc (by simp [hσ'])
  have hAct : activeCaps cfg σ' = activeCaps cfg σ := by
    unfold activeCaps
    rw [hsame _ (by rw [hpc, hpcNew]; rfl), hgc]
  have hTf : teamsFormed cfg σ' = teamsFormed cfg σ := by
    unfold teamsFormed
    rw [hsame _ (by rw [hpc, hpcNew]; rfl), hgc]
  have hCons : consPlayers cfg σ' = consPlayers cfg σ + 1 := by
    unfold consPlayers
    rw [pCount_incr cfg σ σ' i pcNew _ hi hpp (by rw [hpc]; rfl)
      (by rw [hpcNew]; rfl), hgc]
    omega
  have hMidP : midP cfg σ' = midP cfg σ := by
    unfold midP
    rw [hsame _ (by rw [hpc, hpcNew]; rfl)]
  have hMidG : midG cfg σ' = midG cfg σ := by unfold midG; rw [hgc]
  have hEntP : enteredP cfg σ' = enteredP cfg σ := by
    unfold enteredP
    rw [hsame _ (by rw [hpc, hpcNew]; rfl)]
  have hEntG : enteredG cfg σ' = enteredG cfg σ := by unfold enteredG; rw [hgc]
  have hNlP : nonLateP cfg σ' = nonLateP cfg σ := by
    unfold nonLateP
    rw [hsame _ (by rw [hpc, hpcNew]; rfl)]
  have hNlG : nonLateG cfg σ' = nonLateG cfg σ := by unfold nonLateG; rw [hgc]
  have hGproc : σ'.gproc = σ.gproc := by simp [hσ']
  have hRes : ∀ n, (σ'.pproc n).res = (σ.pproc n).res := by
    intro n
    rw [hpp]
    by_cases hnn : n = i
    · subst hnn; simp [hpc, hpcNew, PPC.res]
    · simp [hnn]
  have hRO := resOf_congr σ σ' hRes (fun _ => by rw [hGproc])
  have hFree' : σ'.fSt.playersFree = σ.fSt.playersFree - (cfg.ntp : Int) := by
    simp [hσ']
  have hArr' : σ'.fSt.playersArrived = σ.fSt.playersArrived := by simp [hσ']
  have hArrG' : σ'.fSt.goaliesArrived = σ.fSt.goaliesArrived := by simp [hσ']
  have hFreeG' : σ'.fSt.goaliesFree = σ.fSt.goaliesFree := by simp [hσ']
  have hTid' : σ'.fSt.teamId = σ.fSt.teamId := by simp [hσ']
  have hPh : σ'.phist = σ.phist := by simp [hσ']
  have hGh : σ'.ghist = σ.ghist := by simp [hσ']
  have hCapFree := h.cfP (.player i) hOwnI
  have hnewCapG : (σ'.pproc i).isCapWaitG = true := by
    rw [hpp]
    simp [hpcNew, PPC.isCapWaitG]
  have hActI' : activeCapAgent cfg σ' (.player i) := Or.inr ⟨hi, hnewCapG⟩
  refine ⟨?_, ?_, ?_, ?_, ?_, ?_, ?_, ?_, ?_, ?_, ?_, ?_, ?_, ?_, ?_, ?_, ?_, ?_,
    ?_, ?_, ?_, ?_, ?_, ?_, ?_, ?_, ?_⟩
  · rw [hMu', hAct]
    exact h.mutexCap
  · rw [hArr', hEntP]
    exact h.arrP
  · rw [hArrG', hEntG]
    exact h.arrG
  · rw [hNlP, hEntP]
    exact h.nlP
  · rw [hNlG, hEntG]
    exact h.nlG
  · rw [hFree', hCons, hNlP]
    have := h.freeP
    push_cast
    push_cast at this
    linarith
  · rw [hFree']
    omega
  · intro c hc
    exfalso
    rcases c with i' | j'
    · obtain ⟨hi', hw⟩ := hc
      rw [hpp] at hw
      by_cases hii : i' = i
      · subst hii
        simp [hpcNew, PPC.isCapWait] at hw
      · simp [hii] at hw
        have huniq := activeCap_unique cfg σ h (.player i') (.player i)
          (Or.inl ⟨hi', hw⟩) hActI
        injection huniq with hv
        exact hii hv
    · obtain ⟨hj', hw⟩ := hc
      rw [hGproc] at hw
      have huniq := activeCap_unique cfg σ h (.goalie j') (.player i)
        (Or.inl ⟨hj', hw⟩) hActI
      exact absurd huniq (by simp)
  · rw [hTid', hTf]
    exact h.teamIdEq
  · intro hz
    rw [hAct] at hz
    exfalso
    have := one_le_activeCaps_of cfg σ _ hActI
    omega
  · intro i' hi' k' hk'
    rw [hpp] at hk'
    by_cases hii : i' = i
    · subst hii
      simp [hpcNew] at hk'
    · simp [hii] at hk'
      exfalso
      have huniq := activeCap_unique cfg σ h (.player i') (.player i)
        (Or.inl ⟨hi', by rw [hk']; rfl⟩) hActI
      injection huniq with hv
      exact hii hv
  · intro i' hi' hk'
    rw [hpp] at hk'
    by_cases hii : i' = i
    · subst hii
      refine ⟨by rw [hWp']; exact hWpNil, by rw [hMidP]; exact hMid0, ?_⟩
      rw [hWg', hReg', hMidG, hb4, hReg1, hb5]
      simp
    · simp [hii] at hk'
      exfalso
      have huniq := activeCap_unique cfg σ h (.player i') (.player i)
        (Or.inr ⟨hi', by rw [hk']; rfl⟩) hActI
      injection huniq with hv
      exact hii hv
  · intro j hj k' hk'
    rw [hGproc] at hk'
    exfalso
    have huniq := activeCap_unique cfg σ h (.goalie j) (.player i)
      (Or.inl ⟨hj, by rw [hk']; rfl⟩) hActI
    exact absurd huniq (by simp)
  · intro c hc
    rw [hWp', hWpNil] at hc
    exact absurd hc (List.not_mem_nil c)
  · intro c hc
    rw [hWg', hb4] at hc
    rcases List.mem_cons.1 hc with rfl | hc
    · exact ⟨hi, hnewCapG⟩
    · exact absurd hc (List.not_mem_nil c)
  · intro i' hi' c hc
    rw [hpp] at hc
    by_cases hii : i' = i
    · subst hii
      simp [hpcNew] at hc
    · simp [hii] at hc
      exfalso
      have := hNoMidP i' hi'
      rcases hc with hc | ⟨t, hc⟩ <;> rw [hc] at this <;> simp [PPC.isMid] at this
  · intro j hj c hc
    rw [hGproc] at hc
    exfalso
    have := hNoMidG j hj
    rcases hc with hc | ⟨t, hc⟩ <;> rw [hc] at this <;> simp [GPC.isMid] at this
  · intro i' hi' c t ht
    rw [hpp] at ht
    by_cases hii : i' = i
    · subst hii
      simp [hpcNew] at ht
    · simp [hii] at ht
      exfalso
      have := hNoMidP i' hi'
      rw [ht] at this
      simp [PPC.isMid] at this
  · intro j hj c t ht
    rw [hGproc] at ht
    exfalso
    have := hNoMidG j hj
    rw [ht] at this
    simp [GPC.isMid] at this
  · intro i' hi' r0 hr0 c hc
    rw [hRes i'] at hr0
    rcases h.recLinkP i' hi' r0 hr0 c hc with ⟨ha, hteam⟩ | hres
    · have hceq := activeCap_unique cfg σ h c (.player i) ha hActI
      subst hceq
      exact Or.inl ⟨hActI', by rw [hTid']; exact hteam⟩
    · exact Or.inr (by rw [hRO c]; exact hres)
  · intro j hj r0 hr0 c hc
    rw [hGproc] at hr0
    rcases h.recLinkG j hj r0 hr0 c hc with ⟨ha, hteam⟩ | hres
    · have hceq := activeCap_unique cfg σ h c (.player i) ha hActI
      subst hceq
      exact Or.inl ⟨hActI', by rw [hTid']; exact hteam⟩
    · exact Or.inr (by rw [hRO c]; exact hres)
  · intro i' hi' r0 hr0
    have hold := h.resIdP i' hi' r0 (by rw [← hRes i']; exact hr0)
    refine ⟨fun hl => ?_, hold.2⟩
    by_cases hii : i' = i
    · subst hii
      rw [hRes i', hpc] at hr0
      simp [PPC.res] at hr0
    · refine ⟨(hold.1 hl).1, ?_⟩
      rw [hpp]
      simp [hii]
      exact (hold.1 hl).2
  · intro j hj r0 hr0
    rw [hGproc] at hr0
    have hold := h.resIdG j hj r0 hr0
    refine ⟨fun hl => ⟨(hold.1 hl).1, by rw [hGproc]; exact (hold.1 hl).2⟩, hold.2⟩
  · intro i' hi'
    rw [hPh, hpp]
    by_cases hii : i' = i
    · subst hii
      simp [h.histP i' hi', hpc, hpcNew, histOfP]
    · simp [hii, h.histP i' hi']
  · intro j hj
    rw [hGh, hGproc]
    exact h.histG j hj
  · intro i' hi'
    have hold := h.oobP i' hi'
    have hne : i' ≠ i := fun hh => hi' (hh ▸ hi)
    constructor
    · rw [hpp]
      simp [hne]
      exact hold.1
    · rw [hPh]
      exact hold.2
  · intro j hj
    rw [hGproc, hGh]
    exact h.oobG j hj

/-- Preservation for the player captain's completion: collect the
goalie registration, decrement goaliesFree, take the team id, unlock,
signal the referee. -/
lemma inv_pCapFinish (cfg : SysCfg) (σ : Sys) (i : Nat) (h : Inv cfg σ)
    (hn : 1 ≤ cfg.ntp) (hi : i < cfg.np) (hpc : σ.pproc i = .capWaitG)
    (hack : 1 ≤ σ.sems.playerRegistered) :
    Inv cfg (((σ.mapFSt fun f =>
        { f with goaliesFree := f.goaliesFree - (cfg.ntg : Int),
                 teamId := f.teamId + 1 }).mapSems fun sm =>
          { sm with playerRegistered := sm.playerRegistered - 1,
                    mutex := sm.mutex + 1,
                    refereeWaitTeams := sm.refereeWaitTeams + 1 }).withP
      i (.done ⟨σ.fSt.teamId, .captain⟩)) := by
  obtain ⟨hb1, hb2, hb3⟩ := h.balPG i hi hpc
  have hWgNil : σ.sems.goaliesWaitTeam = [] := by
    cases hW : σ.sems.goaliesWaitTeam with
    | nil => rfl
    | cons a l => rw [hW] at hb3; simp at hb3; omega
  have hMidG0 : midG cfg σ = 0 := by
    rw [hWgNil] at hb3
    simp at hb3
    omega
  have hReg1 : σ.sems.playerRegistered = 1 := by
    rw [hWgNil] at hb3
    simp at hb3
    omega
  obtain ⟨hNoMidP, hNoMidG⟩ := noMid_facts cfg σ hb2 hMidG0
  have hOwnI : gOwner cfg σ (.player i) := ⟨hi, by rw [hpc]; rfl⟩
  have hActI : activeCapAgent cfg σ (.player i) := Or.inr hOwnI
  set pcNew : PPC := .done ⟨σ.fSt.teamId, .captain⟩ with hpcNew
  set σ' := (((σ.mapFSt fun f =>
      { f with goaliesFree := f.goaliesFree - (cfg.ntg : Int),
               teamId := f.teamId + 1 }).mapSems fun sm =>
        { sm with playerRegistered := sm.playerRegistered - 1,
                  mutex := sm.mutex + 1,
                  refereeWaitTeams := sm.refereeWaitTeams + 1 }).withP
    i pcNew) with hσ'
  have hpp : σ'.pproc = fun n => if n = i then pcNew else σ.pproc n := by
    funext n
    simp [hσ']
  have hWp' : σ'.sems.playersWaitTeam = σ.sems.playersWaitTeam := by simp [hσ']
  have hWg' : σ'.sems.goaliesWaitTeam = σ.sems.goaliesWaitTeam := by simp [hσ']
  have hReg' : σ'.sems.playerRegistered = σ.sems.playerRegistered - 1 := by simp [hσ']
  have hMu' : σ'.sems.mutex = σ.sems.mutex + 1 := by simp [hσ']
  have hsame : ∀ fc : PPC → Bool, fc (σ.pproc i) = fc pcNew →
      pCount cfg σ' fc = pCount cfg σ fc :=
    fun fc hv => pCount_same cfg σ σ' i pcNew fc hi hpp hv
  have hgc : ∀ fc : GPC → Bool, gCount cfg σ' fc = gCount cfg σ fc :=
    fun fc => gCount_frame cfg σ σ' fc (by simp [hσ'])
  have hActD : activeCaps cfg σ' + 1 = activeCaps cfg σ := by
    unfold activeCaps
    have := pCount_decr cfg σ σ' i pcNew PPC.isActiveCap hi hpp
      (by rw [hpc]; rfl) (by rw [hpcNew]; rfl)
    rw [hgc]
    omega
  have hTfI : teamsFormed cfg σ' = teamsFormed cfg σ + 1 := by
    unfold teamsFormed
    have := pCount_incr cfg σ σ' i pcNew PPC.isDoneCap hi hpp
      (by rw [hpc]; rfl) (by rw [hpcNew]; rfl)
    rw [hgc]
    omega
  have hCons : consPlayers cfg σ' = consPlayers cfg σ := by
    unfold consPlayers
    rw [hsame _ (by rw [hpc, hpcNew]; rfl), hgc]
  have hMidP : midP cfg σ' = midP cfg σ := by
    unfold midP
    rw [hsame _ (by rw [hpc, hpcNew]; rfl)]
  have hMidG : midG cfg σ' = midG cfg σ := by unfold midG; rw [hgc]
  have hEntP : enteredP cfg σ' = enteredP cfg σ := by
    unfold enteredP
    rw [hsame _ (by rw [hpc, hpcNew]; rfl)]
  have hEntG : enteredG cfg σ' = enteredG cfg σ := by unfold enteredG; rw [hgc]
  have hNlP : nonLateP cfg σ' = nonLateP cfg σ := by
    unfold nonLateP
    rw [hsame _ (by rw [hpc, hpcNew]; rfl)]
  have hNlG : nonLateG cfg σ' = nonLateG cfg σ := by unfold nonLateG; rw [hgc]
  have hGproc : σ'.gproc = σ.gproc := by simp [hσ']
  have hFree' : σ'.fSt.playersFree = σ.fSt.playersFree := by simp [hσ']
  have hArr' : σ'.fSt.playersArrived = σ.fSt.playersArrived := by simp [hσ']
  have hArrG' : σ'.fSt.goaliesArrived = σ.fSt.goaliesArrived := by simp [hσ']
  have hTid' : σ'.fSt.teamId = σ.fSt.teamId + 1 := by simp [hσ']
  have hPh : σ'.phist = σ.phist := by simp [hσ']
  have hGh : σ'.ghist = σ.ghist := by simp [hσ']
  have hTid12 := activeCap_teamId cfg σ h hn (.player i) hActI
  have hResI : (σ'.pproc i).res = some ⟨σ.fSt.teamId, .captain⟩ := by
    rw [hpp]
    simp [hpcNew, PPC.res]
  have hResO : ∀ n, n ≠ i → (σ'.pproc n).res = (σ.pproc n).res := by
    intro n hnn
    rw [hpp]
    simp [hnn]
  have hCaps1 : activeCaps cfg σ = 1 := by
    have h1 := one_le_activeCaps_of cfg σ _ hActI
    have h2 := h.mutexCap
    omega
  refine ⟨?_, ?_, ?_, ?_, ?_, ?_, ?_, ?_, ?_, ?_, ?_, ?_, ?_, ?_, ?_, ?_, ?_, ?_,
    ?_, ?_, ?_, ?_, ?_, ?_, ?_, ?_, ?_⟩
  · rw [hMu']
    have h2 := h.mutexCap
    omega
  · rw [hArr', hEntP]
    exact h.arrP
  · rw [hArrG', hEntG]
    exact h.arrG
  · rw [hNlP, hEntP]
    exact h.nlP
  · rw [hNlG, hEntG]
    exact h.nlG
  · rw [hFree', hCons, hNlP]
    exact h.freeP
  · rw [hFree']
    exact h.freePpos
  · intro c hc
    exfalso
    rcases c with i' | j'
    · obtain ⟨hi', hw⟩ := hc
      rw [hpp] at hw
      by_cases hii : i' = i
      · subst hii
        simp [hpcNew, PPC.isCapWait] at hw
      · simp [hii] at hw
        have huniq := activeCap_unique cfg σ h (.player i') (.player i)
          (Or.inl ⟨hi', hw⟩) hActI
        injection huniq with hv
        exact hii hv
    · obtain ⟨hj', hw⟩ := hc
      rw [hGproc] at hw
      have huniq := activeCap_unique cfg σ h (.goalie j') (.player i)
        (Or.inl ⟨hj', hw⟩) hActI
      exact absurd huniq (by simp)
  · rw [hTid', hTfI]
    have := h.teamIdEq
    push_cast
    push_cast at this
    linarith
  · intro hz
    refine ⟨by rw [hWp']; exact hb1, by rw [hWg']; exact hWgNil, ?_, ?_, ?_⟩
    · rw [hReg', hReg1]
    · rw [hMidP]
      exact hb2
    · rw [hMidG]
      exact hMidG0
  · intro i' hi' k' hk'
    rw [hpp] at hk'
    by_cases hii : i' = i
    · subst hii
      simp [hpcNew] at hk'
    · simp [hii] at hk'
      exfalso
      have huniq := activeCap_unique cfg σ h (.player i') (.player i)
        (Or.inl ⟨hi', by rw [hk']; rfl⟩) hActI
      injection huniq with hv
      exact hii hv
  · intro i' hi' hk'
    rw [hpp] at hk'
    by_cases hii : i' = i
    · subst hii
      simp [hpcNew] at hk'
    · simp [hii] at hk'
      exfalso
      have huniq := activeCap_unique cfg σ h (.player i') (.player i)
        (Or.inr ⟨hi', by rw [hk']; rfl⟩) hActI
      injection huniq with hv
      exact hii hv
  · intro j hj k' hk'
    rw [hGproc] at hk'
    exfalso
    have huniq := activeCap_unique cfg σ h (.goalie j) (.player i)
      (Or.inl ⟨hj, by rw [hk']; rfl⟩) hActI
    exact absurd huniq (by simp)
  · intro c hc
    rw [hWp', hb1] at hc
    exact absurd hc (List.not_mem_nil c)
  · intro c hc
    rw [hWg', hWgNil] at hc
    exact absurd hc (List.not_mem_nil c)
  · intro i' hi' c hc
    rw [hpp] at hc
    by_cases hii : i' = i
    · subst hii
      simp [hpcNew] at hc
    · simp [hii] at hc
      exfalso
      have := hNoMidP i' hi'
      rcases hc with hc | ⟨t, hc⟩ <;> rw [hc] at this <;> simp [PPC.isMid] at this
  · intro j hj c hc
    rw [hGproc] at hc
    exfalso
    have := hNoMidG j hj
    rcases hc with hc | ⟨t, hc⟩ <;> rw [hc] at this <;> simp [GPC.isMid] at this
  · intro i' hi' c t ht
    rw [hpp] at ht
    by_cases hii : i' = i
    · subst hii
      simp [hpcNew] at ht
    · simp [hii] at ht
      exfalso
      have := hNoMidP i' hi'
      rw [ht] at this
      simp [PPC.isMid] at this
  · intro j hj c t ht
    rw [hGproc] at ht
    exfalso
    have := hNoMidG j hj
    rw [ht] at this
    simp [GPC.isMid] at this
  · intro i' hi' r0 hr0 c hc
    by_cases hii : i' = i
    · subst hii
      rw [hResI] at hr0
      injection hr0 with hv
      rw [← hv] at hc
      simp at hc
    · rw [hResO i' hii] at hr0
      rcases h.recLinkP i' hi' r0 hr0 c hc with ⟨ha, hteam⟩ | hres
      · have hceq := activeCap_unique cfg σ h c (.player i) ha hActI
        subst hceq
        refine Or.inr ?_
        show (σ'.pproc i).res = some ⟨r0.team, .captain⟩
        rw [hResI, hteam]
      · refine Or.inr ?_
        rcases c with ic | jc
        · by_cases hci : ic = i
          · subst hci
            exfalso
            have hresF : (σ.pproc ic).res = some ⟨r0.team, .captain⟩ := hres
            rw [hpc] at hresF
            simp [PPC.res] at hresF
          · show (σ'.pproc ic).res = some ⟨r0.team, .captain⟩
            rw [hResO ic hci]
            exact hres
        · show (σ'.gproc jc).res = some ⟨r0.team, .captain⟩
          rw [hGproc]
          exact hres
  · intro j hj r0 hr0 c hc
    rw [hGproc] at hr0
    rcases h.recLinkG j hj r0 hr0 c hc with ⟨ha, hteam⟩ | hres
    · have hceq := activeCap_unique cfg σ h c (.player i) ha hActI
      subst hceq
      refine Or.inr ?_
      show (σ'.pproc i).res = some ⟨r0.team, .captain⟩
      rw [hResI, hteam]
    · refine Or.inr ?_
      rcases c with ic | jc
      · by_cases hci : ic = i
        · subst hci
          exfalso
          have hresF : (σ.pproc ic).res = some ⟨r0.team, .captain⟩ := hres
          rw [hpc] at hresF
          simp [PPC.res] at hresF
        · show (σ'.pproc ic).res = some ⟨r0.team, .captain⟩
          rw [hResO ic hci]
          exact hres
      · show (σ'.gproc jc).res = some ⟨r0.team, .captain⟩
        rw [hGproc]
        exact hres
  · intro i' hi' r0 hr0
    by_cases hii : i' = i
    · subst hii
      rw [hResI] at hr0
      injection hr0 with hv
      constructor
      · intro hl
        rw [← hv] at hl
        simp at hl
      · intro _
        rw [← hv]
        simpa using hTid12
    · rw [hResO i' hii] at hr0
      have hold := h.resIdP i' hi' r0 hr0
      refine ⟨fun hl => ⟨(hold.1 hl).1, ?_⟩, hold.2⟩
      rw [hpp]
      simp [hii]
      exact (hold.1 hl).2
  · intro j hj r0 hr0
    rw [hGproc] at hr0
    have hold := h.resIdG j hj r0 hr0
    refine ⟨fun hl => ⟨(hold.1 hl).1, by rw [hGproc]; exact (hold.1 hl).2⟩, hold.2⟩
  · intro i' hi'
    rw [hPh, hpp]
    by_cases hii : i' = i
    · subst hii
      simp [h.histP i' hi', hpc, hpcNew, histOfP, roleBase]
    · simp [hii, h.histP i' hi']
  · intro j hj
    rw [hGh, hGproc]
    exact h.histG j hj
  · intro i' hi'
    have hold := h.oobP i' hi'
    have hne : i' ≠ i := fun hh => hi' (hh ▸ hi)
    constructor
    · rw [hpp]
      simp [hne]
      exact hold.1
    · rw [hPh]
      exact hold.2
  · intro j hj
    rw [hGproc, hGh]
    exact h.oobG j hj

/-- Preservation for a player recruit's wake-up: consume one
recruitment credit from the playersWaitTeam semaphore. -/
lemma inv_pRecWake (cfg : SysCfg) (σ : Sys) (i : Nat) (c : Agent) (h : Inv cfg σ)
    (hi : i < cfg.np) (hpc : σ.pproc i = .recWait)
    (hc : c ∈ σ.sems.playersWaitTeam) :
    Inv cfg ((σ.mapSems fun sm =>
        { sm with playersWaitTeam := sm.playersWaitTeam.erase c }).withP
      i (.recRead c)) := by
  have hOwnC : pOwner cfg σ c := h.ghostWp c hc
  have hActC : activeCapAgent cfg σ c := Or.inl hOwnC
  have hlen := List.length_erase_of_mem hc
  have hpos : 0 < σ.sems.playersWaitTeam.length := List.length_pos_of_mem hc
  set pcNew : PPC := .recRead c with hpcNew
  set σ' := ((σ.mapSems fun sm =>
      { sm with playersWaitTeam := sm.playersWaitTeam.erase c }).withP
    i pcNew) with hσ'
  have hpp : σ'.pproc = fun n => if n = i then pcNew else σ.pproc n := by
    funext n
    simp [hσ']
  have hWp' : σ'.sems.playersWaitTeam = σ.sems.playersWaitTeam.erase c := by
    simp [hσ']
  have hWg' : σ'.sems.goaliesWaitTeam = σ.sems.goaliesWaitTeam := by simp [hσ']
  have hReg' : σ'.sems.playerRegistered = σ.sems.playerRegistered := by simp [hσ']
  have hMu' : σ'.sems.mutex = σ.sems.mutex := by simp [hσ']
  have hsame : ∀ fc : PPC → Bool, fc (σ.pproc i) = fc pcNew →
      pCount cfg σ' fc = pCount cfg σ fc :=
    fun fc hv => pCount_same cfg σ σ' i pcNew fc hi hpp hv
  have hgc : ∀ fc : GPC → Bool, gCount cfg σ' fc = gCount cfg σ fc :=
    fun fc => gCount_frame cfg σ σ' fc (by simp [hσ'])
  have hAct : activeCaps cfg σ' = activeCaps cfg σ := by
    unfold activeCaps
    rw [hsame _ (by rw [hpc, hpcNew]; rfl), hgc]
  have hTf : teamsFormed cfg σ' = teamsFormed cfg σ := by
    unfold teamsFormed
    rw [hsame _ (by rw [hpc, hpcNew]; rfl), hgc]
  have hCons : consPlayers cfg σ' = consPlayers cfg σ := by
    unfold consPlayers
    rw [hsame _ (by rw [hpc, hpcNew]; rfl), hgc]
  have hMidI : midP cfg σ' = midP cfg σ + 1 := by
    unfold midP
    rw [pCount_incr cfg σ σ' i pcNew _ hi hpp (by rw [hpc]; rfl)
      (by rw [hpcNew]; rfl)]
  have hMidG : midG cfg σ' = midG cfg σ := by unfold midG; rw [hgc]
  have hEntP : enteredP cfg σ' = enteredP cfg σ := by
    unfold enteredP
    rw [hsame _ (by rw [hpc, hpcNew]; rfl)]
  have hEntG : enteredG cfg σ' = enteredG cfg σ := by unfold enteredG; rw [hgc]
  have hNlP : nonLateP cfg σ' = nonLateP cfg σ := by
    unfold nonLateP
    rw [hsame _ (by rw [hpc, hpcNew]; rfl)]
  have hNlG : nonLateG cfg σ' = nonLateG cfg σ := by unfold nonLateG; rw [hgc]
  have hpcw : ∀ n, n < cfg.np → (σ'.pproc n).isCapWait = (σ.pproc n).isCapWait := by
    intro n _
    rw [hpp]
    by_cases hn : n = i
    · subst hn; simp [hpc, hpcNew, PPC.isCapWait]
    · simp [hn]
  have hpcwg : ∀ n, n < cfg.np → (σ'.pproc n).isCapWaitG = (σ.pproc n).isCapWaitG := by
    intro n _
    rw [hpp]
    by_cases hn : n = i
    · subst hn; simp [hpc, hpcNew, PPC.isCapWaitG]
    · simp [hn]
  have hGproc : σ'.gproc = σ.gproc := by simp [hσ']
  have hPO := pOwner_congr cfg σ σ' hpcw (fun _ _ => by rw [hGproc])
  have hGO := gOwner_congr cfg σ σ' hpcwg
  have hACA := activeCapAgent_congr cfg σ σ' hpcw hpcwg (fun _ _ => by rw [hGproc])
  have hRes : ∀ n, (σ'.pproc n).res = (σ.pproc n).res := by
    intro n
    rw [hpp]
    by_cases hnn : n = i
    · subst hnn; simp [hpc, hpcNew, PPC.res]
    · simp [hnn]
  have hRO := resOf_congr σ σ' hRes (fun _ => by rw [hGproc])
  have hFSt : σ'.fSt = σ.fSt := by simp [hσ']
  have hPh : σ'.phist = σ.phist := by simp [hσ']
  have hGh : σ'.ghist = σ.ghist := by simp [hσ']
  refine ⟨?_, ?_, ?_, ?_, ?_, ?_, ?_, ?_, ?_, ?_, ?_, ?_, ?_, ?_, ?_, ?_, ?_, ?_,
    ?_, ?_, ?_, ?_, ?_, ?_, ?_, ?_, ?_⟩
  · rw [hMu', hAct]
    exact h.mutexCap
  · rw [hFSt, hEntP]
    exact h.arrP
  · rw [hFSt, hEntG]
    exact h.arrG
  · rw [hNlP, hEntP]
    exact h.nlP
  · rw [hNlG, hEntG]
    exact h.nlG
  · rw [hFSt, hCons, hNlP]
    exact h.freeP
  · rw [hFSt]
    exact h.freePpos
  · intro c0 hc0
    rw [hFSt]
    exact h.cfP c0 ((hPO c0).1 hc0)
  · rw [hFSt, hTf]
    exact h.teamIdEq
  · intro hz
    rw [hAct] at hz
    exfalso
    have hq := (h.quiet hz).1
    rw [hq] at hc
    exact absurd hc (List.not_mem_nil c)
  · intro i' hi' k' hk'
    rw [hpp] at hk'
    by_cases hii : i' = i
    · subst hii
      simp [hpcNew] at hk'
    · simp [hii] at hk'
      obtain ⟨hb1, hb2, hb3, hb4, hb5⟩ := h.balP i' hi' k' hk'
      refine ⟨hb1, hb2, ?_, by rw [hWg']; exact hb4, by rw [hMidG]; exact hb5⟩
      rw [hWp', hReg', hMidI]
      omega
  · intro i' hi' hk'
    rw [hpp] at hk'
    by_cases hii : i' = i
    · subst hii
      simp [hpcNew] at hk'
    · simp [hii] at hk'
      obtain ⟨hb1, _, _⟩ := h.balPG i' hi' hk'
      exfalso
      rw [hb1] at hc
      exact absurd hc (List.not_mem_nil c)
  · intro j hj k' hk'
    rw [hGproc] at hk'
    obtain ⟨hb1, hb2, hb3, hb4, hb5⟩ := h.balG j hj k' hk'
    refine ⟨hb1, hb2, ?_, by rw [hWg']; exact hb4, by rw [hMidG]; exact hb5⟩
    rw [hWp', hReg', hMidI]
    omega
  · intro c0 hc0
    rw [hWp'] at hc0
    exact (hPO c0).2 (h.ghostWp c0 (List.mem_of_mem_erase hc0))
  · intro c0 hc0
    rw [hWg'] at hc0
    exact (hGO c0).2 (h.ghostWg c0 hc0)
  · intro i' hi' c0 hc0
    rw [hpp] at hc0
    by_cases hii : i' = i
    · subst hii
      simp [hpcNew] at hc0
      subst hc0
      exact (hPO c).2 hOwnC
    · simp [hii] at hc0
      exact (hPO c0).2 (h.ghostMidP i' hi' c0 hc0)
  · intro j hj c0 hc0
    rw [hGproc] at hc0
    exact (hGO c0).2 (h.ghostMidG j hj c0 hc0)
  · intro i' hi' c0 t ht
    rw [hpp] at ht
    by_cases hii : i' = i
    · subst hii
      simp [hpcNew] at ht
    · simp [hii] at ht
      rw [hFSt]
      exact h.readP i' hi' c0 t ht
  · intro j hj c0 t ht
    rw [hGproc] at ht
    rw [hFSt]
    exact h.readG j hj c0 t ht
  · intro i' hi' r0 hr0 c0 hc0
    rw [hRes i'] at hr0
    rcases h.recLinkP i' hi' r0 hr0 c0 hc0 with ⟨ha, hteam⟩ | hres
    · exact Or.inl ⟨(hACA c0).2 ha, by rw [hFSt]; exact hteam⟩
    · exact Or.inr (by rw [hRO c0]; exact hres)
  · intro j hj r0 hr0 c0 hc0
    rw [hGproc] at hr0
    rcases h.recLinkG j hj r0 hr0 c0 hc0 with ⟨ha, hteam⟩ | hres
    · exact Or.inl ⟨(hACA c0).2 ha, by rw [hFSt]; exact hteam⟩
    · exact Or.inr (by rw [hRO c0]; exact hres)
  · intro i' hi' r0 hr0
    have hold := h.resIdP i' hi' r0 (by rw [← hRes i']; exact hr0)
    refine ⟨fun hl => ?_, hold.2⟩
    by_cases hii : i' = i
    · subst hii
      rw [hRes i', hpc] at hr0
      simp [PPC.res] at hr0
    · refine ⟨(hold.1 hl).1, ?_⟩
      rw [hpp]
      simp [hii]
      exact (hold.1 hl).2
  · intro j hj r0 hr0
    rw [hGproc] at hr0
    have hold := h.resIdG j hj r0 hr0
    refine ⟨fun hl => ⟨(hold.1 hl).1, by rw [hGproc]; exact (hold.1 hl).2⟩, hold.2⟩
  · intro i' hi'
    rw [hPh, hpp]
    by_cases hii : i' = i
    · subst hii
      simp [h.histP i' hi', hpc, hpcNew, histOfP]
    · simp [hii, h.histP i' hi']
  · intro j hj
    rw [hGh, hGproc]
    exact h.histG j hj
  · intro i' hi'
    have hold := h.oobP i' hi'
    have hne : i' ≠ i := fun hh => hi' (hh ▸ hi)
    constructor
    · rw [hpp]
      simp [hne]
      exact hold.1
    · rw [hPh]
      exact hold.2
  · intro j hj
    rw [hGproc, hGh]
    exact h.oobG j hj

/-- Preservation for a player recruit's acknowledgment: signal
playerRegistered and return the team id read earlier. -/
lemma inv_pRecAckStep (cfg : SysCfg) (σ : Sys) (i : Nat) (c : Agent) (t : Int)
    (h : Inv cfg σ) (hn : 1 ≤ cfg.ntp) (hi : i < cfg.np)
    (hpc : σ.pproc i = .recAck c t) :
    Inv cfg ((σ.mapSems fun sm =>
        { sm with playerRegistered := sm.playerRegistered + 1 }).withP
      i (.done ⟨t, .recruitOf c⟩)) := by
  have hOwnC : pOwner cfg σ c := h.ghostMidP i hi c (Or.inr ⟨t, hpc⟩)
  have hActC : activeCapAgent cfg σ c := Or.inl hOwnC
  have hT : t = σ.fSt.teamId := h.readP i hi c t hpc
  have hMid1 : 1 ≤ midP cfg σ := by
    unfold midP pCount
    exact one_le_countB cfg.np i σ.pproc PPC.isMid hi (by rw [hpc]; rfl)
  set pcNew : PPC := .done ⟨t, .recruitOf c⟩ with hpcNew
  set σ' := ((σ.mapSems fun sm =>
      { sm with playerRegistered := sm.playerRegistered + 1 }).withP
    i pcNew) with hσ'
  have hpp : σ'.pproc = fun n => if n = i then pcNew else σ.pproc n := by
    funext n
    simp [hσ']
  have hWp' : σ'.sems.playersWaitTeam = σ.sems.playersWaitTeam := by simp [hσ']
  have hWg' : σ'.sems.goaliesWaitTeam = σ.sems.goaliesWaitTeam := by simp [hσ']
  have hReg' : σ'.sems.playerRegistered = σ.sems.playerRegistered + 1 := by
    simp [hσ']
  have hMu' : σ'.sems.mutex = σ.sems.mutex := by simp [hσ']
  have hsame : ∀ fc : PPC → Bool, fc (σ.pproc i) = fc pcNew →
      pCount cfg σ' fc = pCount cfg σ fc :=
    fun fc hv => pCount_same cfg σ σ' i pcNew fc hi hpp hv
  have hgc : ∀ fc : GPC → Bool, gCount cfg σ' fc = gCount cfg σ fc :=
    fun fc => gCount_frame cfg σ σ' fc (by simp [hσ'])
  have hAct : activeCaps cfg σ' = activeCaps cfg σ := by
    unfold activeCaps
    rw [hsame _ (by rw [hpc, hpcNew]; rfl), hgc]
  have hTf : teamsFormed cfg σ' = teamsFormed cfg σ := by
    unfold teamsFormed
    rw [hsame _ (by rw [hpc, hpcNew]; rfl), hgc]
  have hCons : consPlayers cfg σ' = consPlayers cfg σ := by
    unfold consPlayers
    rw [hsame _ (by rw [hpc, hpcNew]; rfl), hgc]
  have hMidD : midP cfg σ' + 1 = midP cfg σ := by
    unfold midP
    exact pCount_decr cfg σ σ' i pcNew _ hi hpp (by rw [hpc]; rfl)
      (by rw [hpcNew]; rfl)
  have hMidG : midG cfg σ' = midG cfg σ := by unfold midG; rw [hgc]
  have hEntP : enteredP cfg σ' = enteredP cfg σ := by
    unfold enteredP
    rw [hsame _ (by rw [hpc, hpcNew]; rfl)]
  have hEntG : enteredG cfg σ' = enteredG cfg σ := by unfold enteredG; rw [hgc]
  have hNlP : nonLateP cfg σ' = nonLateP cfg σ := by
    unfold nonLateP
    rw [hsame _ (by rw [hpc, hpcNew]; rfl)]
  have hNlG : nonLateG cfg σ' = nonLateG cfg σ := by unfold nonLateG; rw [hgc]
  have hpcw : ∀ n, n < cfg.np → (σ'.pproc n).isCapWait = (σ.pproc n).isCapWait := by
    intro n _
    rw [hpp]
    by_cases hnn : n = i
    · subst hnn; simp [hpc, hpcNew, PPC.isCapWait]
    · simp [hnn]
  have hpcwg : ∀ n, n < cfg.np → (σ'.pproc n).isCapWaitG = (σ.pproc n).isCapWaitG := by
    intro n _
    rw [hpp]
    by_cases hnn : n = i
    · subst hnn; simp [hpc, hpcNew, PPC.isCapWaitG]
    · simp [hnn]
  have hGproc : σ'.gproc = σ.gproc := by simp [hσ']
  have hPO := pOwner_congr cfg σ σ' hpcw (fun _ _ => by rw [hGproc])
  have hGO := gOwner_congr cfg σ σ' hpcwg
  have hACA := activeCapAgent_congr cfg σ σ' hpcw hpcwg (fun _ _ => by rw [hGproc])
  have hResI : (σ'.pproc i).res = some ⟨t, .recruitOf c⟩ := by
    rw [hpp]
    simp [hpcNew, PPC.res]
  have hResO : ∀ n, n ≠ i → (σ'.pproc n).res = (σ.pproc n).res := by
    intro n hnn
    rw [hpp]
    simp [hnn]
  have hFSt : σ'.fSt = σ.fSt := by simp [hσ']
  have hPh : σ'.phist = σ.phist := by simp [hσ']
  have hGh : σ'.ghist = σ.ghist := by simp [hσ']
  refine ⟨?_, ?_, ?_, ?_, ?_, ?_, ?_, ?_, ?_, ?_, ?_, ?_, ?_, ?_, ?_, ?_, ?_, ?_,
    ?_, ?_, ?_, ?_, ?_, ?_, ?_, ?_, ?_⟩
  · rw [hMu', hAct]
    exact h.mutexCap
  · rw [hFSt, hEntP]
    exact h.arrP
  · rw [hFSt, hEntG]
    exact h.arrG
  · rw [hNlP, hEntP]
    exact h.nlP
  · rw [hNlG, hEntG]
    exact h.nlG
  · rw [hFSt, hCons, hNlP]
    exact h.freeP
  · rw [hFSt]
    exact h.freePpos
  · intro c0 hc0
    rw [hFSt]
    exact h.cfP c0 ((hPO c0).1 hc0)
  · rw [hFSt, hTf]
    exact h.teamIdEq
  · intro hz
    rw [hAct] at hz
    exfalso
    have := one_le_activeCaps_of cfg σ _ hActC
    omega
  · intro i' hi' k' hk'
    rw [hpp] at hk'
    by_cases hii : i' = i
    · subst hii
      simp [hpcNew] at hk'
    · simp [hii] at hk'
      obtain ⟨hb1, hb2, hb3, hb4, hb5⟩ := h.balP i' hi' k' hk'
      refine ⟨hb1, hb2, ?_, by rw [hWg']; exact hb4, by rw [hMidG]; exact hb5⟩
      rw [hWp', hReg']
      omega
  · intro i' hi' hk'
    rw [hpp] at hk'
    by_cases hii : i' = i
    · subst hii
      simp [hpcNew] at hk'
    · simp [hii] at hk'
      obtain ⟨_, hb2, _⟩ := h.balPG i' hi' hk'
      exfalso
      omega
  · intro j hj k' hk'
    rw [hGproc] at hk'
    obtain ⟨hb1, hb2, hb3, hb4, hb5⟩ := h.balG j hj k' hk'
    refine ⟨hb1, hb2, ?_, by rw [hWg']; exact hb4, by rw [hMidG]; exact hb5⟩
    rw [hWp', hReg']
    omega
  · intro c0 hc0
    rw [hWp'] at hc0
    exact (hPO c0).2 (h.ghostWp c0 hc0)
  · intro c0 hc0
    rw [hWg'] at hc0
    exact (hGO c0).2 (h.ghostWg c0 hc0)
  · intro i' hi' c0 hc0
    rw [hpp] at hc0
    by_cases hii : i' = i
    · subst hii
      simp [hpcNew] at hc0
    · simp [hii] at hc0
      exact (hPO c0).2 (h.ghostMidP i' hi' c0 hc0)
  · intro j hj c0 hc0
    rw [hGproc] at hc0
    exact (hGO c0).2 (h.ghostMidG j hj c0 hc0)
  · intro i' hi' c0 t0 ht0
    rw [hpp] at ht0
    by_cases hii : i' = i
    · subst hii
      simp [hpcNew] at ht0
    · simp [hii] at ht0
      rw [hFSt]
      exact h.readP i' hi' c0 t0 ht0
  · intro j hj c0 t0 ht0
    rw [hGproc] at ht0
    rw [hFSt]
    exact h.readG j hj c0 t0 ht0
  · intro i' hi' r0 hr0 c0 hc0
    by_cases hii : i' = i
    · subst hii
      rw [hResI] at hr0
      injection hr0 with hv
      rw [← hv] at hc0
      simp at hc0
      subst hc0
      refine Or.inl ⟨(hACA c).2 hActC, ?_⟩
      rw [← hv, hFSt]
      simpa using hT
    · rw [hResO i' hii] at hr0
      rcases h.recLinkP i' hi' r0 hr0 c0 hc0 with ⟨ha, hteam⟩ | hres
      · exact Or.inl ⟨(hACA c0).2 ha, by rw [hFSt]; exact hteam⟩
      · refine Or.inr ?_
        rcases c0 with ic | jc
        · by_cases hci : ic = i
          · subst hci
            exfalso
            have hresF : (σ.pproc ic).res = some ⟨r0.team, .captain⟩ := hres
            rw [hpc] at hresF
            simp [PPC.res] at hresF
          · show (σ'.pproc ic).res = some ⟨r0.team, .captain⟩
            rw [hResO ic hci]
            exact hres
        · show (σ'.gproc jc).res = some ⟨r0.team, .captain⟩
          rw [hGproc]
          exact hres
  · intro j hj r0 hr0 c0 hc0
    rw [hGproc] at hr0
    rcases h.recLinkG j hj r0 hr0 c0 hc0 with ⟨ha, hteam⟩ | hres
    · exact Or.inl ⟨(hACA c0).2 ha, by rw [hFSt]; exact hteam⟩
    · refine Or.inr ?_
      rcases c0 with ic | jc
      · by_cases hci : ic = i
        · subst hci
          exfalso
          have hresF : (σ.pproc ic).res = some ⟨r0.team, .captain⟩ := hres
          rw [hpc] at hresF
          simp [PPC.res] at hresF
        · show (σ'.pproc ic).res = some ⟨r0.team, .captain⟩
          rw [hResO ic hci]
          exact hres
      · show (σ'.gproc jc).res = some ⟨r0.team, .captain⟩
        rw [hGproc]
        exact hres
  · intro i' hi' r0 hr0
    by_cases hii : i' = i
    · subst hii
      rw [hResI] at hr0
      injection hr0 with hv
      constructor
      · intro hl
        rw [← hv] at hl
        simp at hl
      · intro _
        rw [← hv]
        have h12 := activeCap_teamId cfg σ h hn c hActC
        simpa [hT] using h12
    · rw [hResO i' hii] at hr0
      have hold := h.resIdP i' hi' r0 hr0
      refine ⟨fun hl => ⟨(hold.1 hl).1, ?_⟩, hold.2⟩
      rw [hpp]
      simp [hii]
      exact (hold.1 hl).2
  · intro j hj r0 hr0
    rw [hGproc] at hr0
    have hold := h.resIdG j hj r0 hr0
    refine ⟨fun hl => ⟨(hold.1 hl).1, by rw [hGproc]; exact (hold.1 hl).2⟩, hold.2⟩
  · intro i' hi'
    rw [hPh, hpp]
    by_cases hii : i' = i
    · subst hii
      simp [h.histP i' hi', hpc, hpcNew, histOfP, roleBase]
    · simp [hii, h.histP i' hi']
  · intro j hj
    rw [hGh, hGproc]
    exact h.histG j hj
  · intro i' hi'
    have hold := h.oobP i' hi'
    have hne : i' ≠ i := fun hh => hi' (hh ▸ hi)
    constructor
    · rw [hpp]
      simp [hne]
      exact hold.1
    · rw [hPh]
      exact hold.2
  · intro j hj
    rw [hGproc, hGh]
    exact h.oobG j hj

/-- Preservation for the goalie captain's ack-collection loop:
collect one player registration. -/
lemma inv_gCapNext (cfg : SysCfg) (σ : Sys) (j : Nat) (k : Nat) (h : Inv cfg σ)
    (hj : j < cfg.ng) (hpc : σ.gproc j = .capWait k)
    (hack : 1 ≤ σ.sems.playerRegistered) (hk : k + 1 ≤ cfg.ntp) :
    Inv cfg ((σ.mapSems fun sm =>
        { sm with playerRegistered := sm.playerRegistered - 1 }).withG
      j (.capWait (k + 1))) := by
  obtain ⟨hb1, hb2, hb3, hb4, hb5⟩ := h.balG j hj k hpc
  have hOwnJ : pOwner cfg σ (.goalie j) := ⟨hj, by rw [hpc]; rfl⟩
  have hActJ : activeCapAgent cfg σ (.goalie j) := Or.inl hOwnJ
  set pcNew : GPC := .capWait (k + 1) with hpcNew
  set σ' := ((σ.mapSems fun sm =>
      { sm with playerRegistered := sm.playerRegistered - 1 }).withG
    j pcNew) with hσ'
  have hgp : σ'.gproc = fun n => if n = j then pcNew else σ.gproc n := by
    funext n
    simp [hσ']
  have hPproc : σ'.pproc = σ.pproc := by simp [hσ']
  have hWp' : σ'.sems.playersWaitTeam = σ.sems.playersWaitTeam := by simp [hσ']
  have hWg' : σ'.sems.goaliesWaitTeam = σ.sems.goaliesWaitTeam := by simp [hσ']
  have hReg' : σ'.sems.playerRegistered = σ.sems.playerRegistered - 1 := by
    simp [hσ']
  have hMu' : σ'.sems.mutex = σ.sems.mutex := by simp [hσ']
  have hsameG : ∀ fc : GPC → Bool, fc (σ.gproc j) = fc pcNew →
      gCount cfg σ' fc = gCount cfg σ fc :=
    fun fc hv => gCount_same cfg σ σ' j pcNew fc hj hgp hv
  have hpcC : ∀ fc : PPC → Bool, pCount cfg σ' fc = pCount cfg σ fc :=
    fun fc => pCount_frame cfg σ σ' fc hPproc
  have hAct : activeCaps cfg σ' = activeCaps cfg σ := by
    unfold activeCaps
    rw [hpcC, hsameG _ (by rw [hpc, hpcNew]; rfl)]
  have hTf : teamsFormed cfg σ' = teamsFormed cfg σ := by
    unfold teamsFormed
    rw [hpcC, hsameG _ (by rw [hpc, hpcNew]; rfl)]
  have hCons : consPlayers cfg σ' = consPlayers cfg σ := by
    unfold consPlayers
    rw [hpcC, hsameG _ (by rw [hpc, hpcNew]; rfl)]
  have hMidP : midP cfg σ' = midP cfg σ := by unfold midP; rw [hpcC]
  have hMidG : midG cfg σ' = midG cfg σ := by
    unfold midG
    rw [hsameG _ (by rw [hpc, hpcNew]; rfl)]
  have hEntP : enteredP cfg σ' = enteredP cfg σ := by unfold enteredP; rw [hpcC]
  have hEntG : enteredG cfg σ' = enteredG cfg σ := by
    unfold enteredG
    rw [hsameG _ (by rw [hpc, hpcNew]; rfl)]
  have hNlP : nonLateP cfg σ' = nonLateP cfg σ := by unfold nonLateP; rw [hpcC]
  have hNlG : nonLateG cfg σ' = nonLateG cfg σ := by
    unfold nonLateG
    rw [hsameG _ (by rw [hpc, hpcNew]; rfl)]
  have hgcw : ∀ n, n < cfg.ng → (σ'.gproc n).isCapWait = (σ.gproc n).isCapWait := by
    intro n _
    rw [hgp]
    by_cases hn : n = j
    · subst hn; simp [hpc, hpcNew, GPC.isCapWait]
    · simp [hn]
  have hPO := pOwner_congr cfg σ σ' (fun _ _ => by rw [hPproc]) hgcw
  have hGO := gOwner_congr cfg σ σ' (fun _ _ => by rw [hPproc])
  have hACA := activeCapAgent_congr cfg σ σ' (fun _ _ => by rw [hPproc])
    (fun _ _ => by rw [hPproc]) hgcw
  have hResG : ∀ n, (σ'.gproc n).res = (σ.gproc n).res := by
    intro n
    rw [hgp]
    by_cases hnn : n = j
    · subst hnn; simp [hpc, hpcNew, GPC.res]
    · simp [hnn]
  have hRO := resOf_congr σ σ' (fun n => by rw [hPproc]) hResG
  have hFSt : σ'.fSt = σ.fSt := by simp [hσ']
  have hPh : σ'.phist = σ.phist := by simp [hσ']
  have hGh : σ'.ghist = σ.ghist := by simp [hσ']
  refine ⟨?_, ?_, ?_, ?_, ?_, ?_, ?_, ?_, ?_, ?_, ?_, ?_, ?_, ?_, ?_, ?_, ?_, ?_,
    ?_, ?_, ?_, ?_, ?_, ?_, ?_, ?_, ?_⟩
  · rw [hMu', hAct]
    exact h.mutexCap
  · rw [hFSt, hEntP]
    exact h.arrP
  · rw [hFSt, hEntG]
    exact h.arrG
  · rw [hNlP, hEntP]
    exact h.nlP
  · rw [hNlG, hEntG]
    exact h.nlG
  · rw [hFSt, hCons, hNlP]
    exact h.freeP
  · rw [hFSt]
    exact h.freePpos
  · intro c0 hc0
    rw [hFSt]
    exact h.cfP c0 ((hPO c0).1 hc0)
  · rw [hFSt, hTf]
    exact h.teamIdEq
  · intro hz
    rw [hAct] at hz
    exfalso
    have := one_le_activeCaps_of cfg σ _ hActJ
    omega
  · intro i' hi' k' hk'
    rw [hPproc] at hk'
    exfalso
    have huniq := activeCap_unique cfg σ h (.player i') (.goalie j)
      (Or.inl ⟨hi', by rw [hk']; rfl⟩) hActJ
    exact absurd huniq (by simp)
  · intro i' hi' hk'
    rw [hPproc] at hk'
    exfalso
    have huniq := activeCap_unique cfg σ h (.player i') (.goalie j)
      (Or.inr ⟨hi', by rw [hk']; rfl⟩) hActJ
    exact absurd huniq (by simp)
  · intro j' hj' k' hk'
    rw [hgp] at hk'
    by_cases hjj : j' = j
    · subst hjj
      simp [hpcNew] at hk'
      subst hk'
      refine ⟨by omega, hk, ?_, by rw [hWg']; exact hb4, by rw [hMidG]; exact hb5⟩
      rw [hWp', hReg', hMidP]
      omega
    · simp [hjj] at hk'
      exfalso
      have huniq := activeCap_unique cfg σ h (.goalie j') (.goalie j)
        (Or.inl ⟨hj', by rw [hk']; rfl⟩) hActJ
      injection huniq with hv
      exact hjj hv
  · intro c0 hc0
    rw [hWp'] at hc0
    exact (hPO c0).2 (h.ghostWp c0 hc0)
  · intro c0 hc0
    rw [hWg'] at hc0
    exact (hGO c0).2 (h.ghostWg c0 hc0)
  · intro i' hi' c0 hc0
    rw [hPproc] at hc0
    exact (hPO c0).2 (h.ghostMidP i' hi' c0 hc0)
  · intro j' hj' c0 hc0
    rw [hgp] at hc0
    by_cases hjj : j' = j
    · subst hjj
      simp [hpcNew] at hc0
    · simp [hjj] at hc0
      exact (hGO c0).2 (h.ghostMidG j' hj' c0 hc0)
  · intro i' hi' c0 t0 ht0
    rw [hPproc] at ht0
    rw [hFSt]
    exact h.readP i' hi' c0 t0 ht0
  · intro j' hj' c0 t0 ht0
    rw [hgp] at ht0
    by_cases hjj : j' = j
    · subst hjj
      simp [hpcNew] at ht0
    · simp [hjj] at ht0
      rw [hFSt]
      exact h.readG j' hj' c0 t0 ht0
  · intro i' hi' r0 hr0 c0 hc0
    rw [hPproc] at hr0
    rcases h.recLinkP i' hi' r0 hr0 c0 hc0 with ⟨ha, hteam⟩ | hres
    · exact Or.inl ⟨(hACA c0).2 ha, by rw [hFSt]; exact hteam⟩
    · exact Or.inr (by rw [hRO c0]; exact hres)
  · intro j' hj' r0 hr0 c0 hc0
    rw [hResG j'] at hr0
    rcases h.recLinkG j' hj' r0 hr0 c0 hc0 with ⟨ha, hteam⟩ | hres
    · exact Or.inl ⟨(hACA c0).2 ha, by rw [hFSt]; exact hteam⟩
    · exact Or.inr (by rw [hRO c0]; exact hres)
  · intro i' hi' r0 hr0
    rw [hPproc] at hr0
    have hold := h.resIdP i' hi' r0 hr0
    refine ⟨fun hl => ⟨(hold.1 hl).1, by rw [hPproc]; exact (hold.1 hl).2⟩, hold.2⟩
  · intro j' hj' r0 hr0
    have hold := h.resIdG j' hj' r0 (by rw [← hResG j']; exact hr0)
    refine ⟨fun hl => ?_, hold.2⟩
    by_cases hjj : j' = j
    · subst hjj
      rw [hResG j', hpc] at hr0
      simp [GPC.res] at hr0
    · refine ⟨(hold.1 hl).1, ?_⟩
      rw [hgp]
      simp [hjj]
      exact (hold.1 hl).2
  · intro i' hi'
    rw [hPh, hPproc]
    exact h.histP i' hi'
  · intro j' hj'
    rw [hGh, hgp]
    by_cases hjj : j' = j
    · subst hjj
      simp [h.histG j' hj', hpc, hpcNew, histOfG]
    · simp [hjj, h.histG j' hj']
  · intro i' hi'
    rw [hPproc, hPh]
    exact h.oobP i' hi'
  · intro j' hj'
    have hold := h.oobG j' hj'
    have hne : j' ≠ j := fun hh => hj' (hh ▸ hj)
    constructor
    · rw [hgp]
      simp [hne]
      exact hold.1
    · rw [hGh]
      exact hold.2

/-- Preservation for the goalie captain's completion: collect the last
player registration, decrement playersFree, take the team id, unlock,
signal the referee. -/
lemma inv_gCapFinish (cfg : SysCfg) (σ : Sys) (j : Nat) (k : Nat) (h : Inv cfg σ)
    (hn : 1 ≤ cfg.ntp) (hj : j < cfg.ng) (hpc : σ.gproc j = .capWait k)
    (hack : 1 ≤ σ.sems.playerRegistered) (hk : cfg.ntp ≤ k) :
    Inv cfg (((σ.mapFSt fun f =>
        { f with playersFree := f.playersFree - (cfg.ntp : Int),
                 teamId := f.teamId + 1 }).mapSems fun sm =>
          { sm with playerRegistered := sm.playerRegistered - 1,
                    mutex := sm.mutex + 1,
                    refereeWaitTeams := sm.refereeWaitTeams + 1 }).withG
      j (.done ⟨σ.fSt.teamId, .captain⟩)) := by
  obtain ⟨hb1, hb2, hb3, hb4, hb5⟩ := h.balG j hj k hpc
  have hWpNil : σ.sems.playersWaitTeam = [] := by
    cases hW : σ.sems.playersWaitTeam with
    | nil => rfl
    | cons a l => rw [hW] at hb3; simp at hb3; omega
  have hMid0 : midP cfg σ = 0 := by
    rw [hWpNil] at hb3
    simp at hb3
    omega
  have hReg1 : σ.sems.playerRegistered = 1 := by
    rw [hWpNil] at hb3
    simp at hb3
    omega
  obtain ⟨hNoMidP, hNoMidG⟩ := noMid_facts cfg σ hMid0 hb5
  have hOwnJ : pOwner cfg σ (.goalie j) := ⟨hj, by rw [hpc]; rfl⟩
  have hActJ : activeCapAgent cfg σ (.goalie j) := Or.inl hOwnJ
  set pcNew : GPC := .done ⟨σ.fSt.teamId, .captain⟩ with hpcNew
  set σ' := (((σ.mapFSt fun f =>
      { f with playersFree := f.playersFree - (cfg.ntp : Int),
               teamId := f.teamId + 1 }).mapSems fun sm =>
        { sm with playerRegistered := sm.playerRegistered - 1,
                  mutex := sm.mutex + 1,
                  refereeWaitTeams := sm.refereeWaitTeams + 1 }).withG
    j pcNew) with hσ'
  have hgp : σ'.gproc = fun n => if n = j then pcNew else σ.gproc n := by
    funext n
    simp [hσ']
  have hPproc : σ'.pproc = σ.pproc := by simp [hσ']
  have hWp' : σ'.sems.playersWaitTeam = σ.sems.playersWaitTeam := by simp [hσ']
  have hWg' : σ'.sems.goaliesWaitTeam = σ.sems.goaliesWaitTeam := by simp [hσ']
  have hReg' : σ'.sems.playerRegistered = σ.sems.playerRegistered - 1 := by
    simp [hσ']
  have hMu' : σ'.sems.mutex = σ.sems.mutex + 1 := by simp [hσ']
  have hsameG : ∀ fc : GPC → Bool, fc (σ.gproc j) = fc pcNew →
      gCount cfg σ' fc = gCount cfg σ fc :=
    fun fc hv => gCount_same cfg σ σ' j pcNew fc hj hgp hv
  have hpcC : ∀ fc : PPC → Bool, pCount cfg σ' fc = pCount cfg σ fc :=
    fun fc => pCount_frame cfg σ σ' fc hPproc
  have hActD : activeCaps cfg σ' + 1 = activeCaps cfg σ := by
    unfold activeCaps
    have := gCount_decr cfg σ σ' j pcNew GPC.isCapWait hj hgp
      (by rw [hpc]; rfl) (by rw [hpcNew]; rfl)
    rw [hpcC]
    omega
  have hTfI : teamsFormed cfg σ' = teamsFormed cfg σ + 1 := by
    unfold teamsFormed
    have := gCount_incr cfg σ σ' j pcNew GPC.isDoneCap hj hgp
      (by rw [hpc]; rfl) (by rw [hpcNew]; rfl)
    rw [hpcC]
    omega
  have hConsI : consPlayers cfg σ' = consPlayers cfg σ + 1 := by
    unfold consPlayers
    have := gCount_incr cfg σ σ' j pcNew GPC.isDoneCap hj hgp
      (by rw [hpc]; rfl) (by rw [hpcNew]; rfl)
    rw [hpcC]
    omega
  have hMidP : midP cfg σ' = midP cfg σ := by unfold midP; rw [hpcC]
  have hMidG : midG cfg σ' = midG cfg σ := by
    unfold midG
    rw [hsameG _ (by rw [hpc, hpcNew]; rfl)]
  have hEntP : enteredP cfg σ' = enteredP cfg σ := by unfold enteredP; rw [hpcC]
  have hEntG : enteredG cfg σ' = enteredG cfg σ := by
    unfold enteredG
    rw [hsameG _ (by rw [hpc, hpcNew]; rfl)]
  have hNlP : nonLateP cfg σ' = nonLateP cfg σ := by unfold nonLateP; rw [hpcC]
  have hNlG : nonLateG cfg σ' = nonLateG cfg σ := by
    unfold nonLateG
    rw [hsameG _ (by rw [hpc, hpcNew]; rfl)]
  have hResJ : (σ'.gproc j).res = some ⟨σ.fSt.teamId, .captain⟩ := by
    rw [hgp]
    simp [hpcNew, GPC.res]
  have hResO : ∀ n, n ≠ j → (σ'.gproc n).res = (σ.gproc n).res := by
    intro n hnn
    rw [hgp]
    simp [hnn]
  have hFree' : σ'.fSt.playersFree = σ.fSt.playersFree - (cfg.ntp : Int) := by
    simp [hσ']
  have hArr' : σ'.fSt.playersArrived = σ.fSt.playersArrived := by simp [hσ']
  have hArrG' : σ'.fSt.goaliesArrived = σ.fSt.goaliesArrived := by simp [hσ']
  have hTid' : σ'.fSt.teamId = σ.fSt.teamId + 1 := by simp [hσ']
  have hPh : σ'.phist = σ.phist := by simp [hσ']
  have hGh : σ'.ghist = σ.ghist := by simp [hσ']
  have hTid12 := activeCap_teamId cfg σ h hn (.goalie j) hActJ
  have hCapFree := h.cfP (.goalie j) hOwnJ
  refine ⟨?_, ?_, ?_, ?_, ?_, ?_, ?_, ?_, ?_, ?_, ?_, ?_, ?_, ?_, ?_, ?_, ?_, ?_,
    ?_, ?_, ?_, ?_, ?_, ?_, ?_, ?_, ?_⟩
  · rw [hMu']
    have h2 := h.mutexCap
    omega
  · rw [hArr', hEntP]
    exact h.arrP
  · rw [hArrG', hEntG]
    exact h.arrG
  · rw [hNlP, hEntP]
    exact h.nlP
  · rw [hNlG, hEntG]
    exact h.nlG
  · rw [hFree', hConsI, hNlP]
    have := h.freeP
    push_cast
    push_cast at this
    linarith
  · rw [hFree']
    omega
  · intro c hc
    exfalso
    rcases c with i' | j'
    · obtain ⟨hi', hw⟩ := hc
      rw [hPproc] at hw
      have huniq := activeCap_unique cfg σ h (.player i') (.goalie j)
        (Or.inl ⟨hi', hw⟩) hActJ
      exact absurd huniq (by simp)
    · obtain ⟨hj', hw⟩ := hc
      rw [hgp] at hw
      by_cases hjj : j' = j
      · subst hjj
        simp [hpcNew, GPC.isCapWait] at hw
      · simp [hjj] at hw
        have huniq := activeCap_unique cfg σ h (.goalie j') (.goalie j)
          (Or.inl ⟨hj', hw⟩) hActJ
        injection huniq with hv
        exact hjj hv
  · rw [hTid', hTfI]
    have := h.teamIdEq
    push_cast
    push_cast at this
    linarith
  · intro hz
    refine ⟨by rw [hWp']; exact hWpNil, by rw [hWg']; exact hb4, ?_, ?_, ?_⟩
    · rw [hReg', hReg1]
    · rw [hMidP]
      exact hMid0
    · rw [hMidG]
      exact hb5
  · intro i' hi' k' hk'
    rw [hPproc] at hk'
    exfalso
    have huniq := activeCap_unique cfg σ h (.player i') (.goalie j)
      (Or.inl ⟨hi', by rw [hk']; rfl⟩) hActJ
    exact absurd huniq (by simp)
  · intro i' hi' hk'
    rw [hPproc] at hk'
    exfalso
    have huniq := activeCap_unique cfg σ h (.player i') (.goalie j)
      (Or.inr ⟨hi', by rw [hk']; rfl⟩) hActJ
    exact absurd huniq (by simp)
  · intro j' hj' k' hk'
    rw [hgp] at hk'
    by_cases hjj : j' = j
    · subst hjj
      simp [hpcNew] at hk'
    · simp [hjj] at hk'
      exfalso
      have huniq := activeCap_unique cfg σ h (.goalie j') (.goalie j)
        (Or.inl ⟨hj', by rw [hk']; rfl⟩) hActJ
      injection huniq with hv
      exact hjj hv
  · intro c0 hc0
    rw [hWp', hWpNil] at hc0
    exact absurd hc0 (List.not_mem_nil c0)
  · intro c0 hc0
    rw [hWg', hb4] at hc0
    exact absurd hc0 (List.not_mem_nil c0)
  · intro i' hi' c0 hc0
    rw [hPproc] at hc0
    exfalso
    have := hNoMidP i' hi'
    rcases hc0 with hc0 | ⟨t, hc0⟩ <;> rw [hc0] at this <;> simp [PPC.isMid] at this
  · intro j' hj' c0 hc0
    rw [hgp] at hc0
    by_cases hjj : j' = j
    · subst hjj
      simp [hpcNew] at hc0
    · simp [hjj] at hc0
      exfalso
      have := hNoMidG j' hj'
      rcases hc0 with hc0 | ⟨t, hc0⟩ <;> rw [hc0] at this <;> simp [GPC.isMid] at this
  · intro i' hi' c0 t0 ht0
    rw [hPproc] at ht0
    exfalso
    have := hNoMidP i' hi'
    rw [ht0] at this
    simp [PPC.isMid] at this
  · intro j' hj' c0 t0 ht0
    rw [hgp] at ht0
    by_cases hjj : j' = j
    · subst hjj
      simp [hpcNew] at ht0
    · simp [hjj] at ht0
      exfalso
      have := hNoMidG j' hj'
      rw [ht0] at this
      simp [GPC.isMid] at this
  · intro i' hi' r0 hr0 c0 hc0
    rw [hPproc] at hr0
    rcases h.recLinkP i' hi' r0 hr0 c0 hc0 with ⟨ha, hteam⟩ | hres
    · have hceq := activeCap_unique cfg σ h c0 (.goalie j) ha hActJ
      subst hceq
      refine Or.inr ?_
      show (σ'.gproc j).res = some ⟨r0.team, .captain⟩
      rw [hResJ, hteam]
    · refine Or.inr ?_
      rcases c0 with ic | jc
      · show (σ'.pproc ic).res = some ⟨r0.team, .captain⟩
        rw [hPproc]
        exact hres
      · by_cases hcj : jc = j
        · subst hcj
          exfalso
          have hresF : (σ.gproc jc).res = some ⟨r0.team, .captain⟩ := hres
          rw [hpc] at hresF
          simp [GPC.res] at hresF
        · show (σ'.gproc jc).res = some ⟨r0.team, .captain⟩
          rw [hResO jc hcj]
          exact hres
  · intro j' hj' r0 hr0 c0 hc0
    by_cases hjj : j' = j
    · subst hjj
      rw [hResJ] at hr0
      injection hr0 with hv
      rw [← hv] at hc0
      simp at hc0
    · rw [hResO j' hjj] at hr0
      rcases h.recLinkG j' hj' r0 hr0 c0 hc0 with ⟨ha, hteam⟩ | hres
      · have hceq := activeCap_unique cfg σ h c0 (.goalie j) ha hActJ
        subst hceq
        refine Or.inr ?_
        show (σ'.gproc j).res = some ⟨r0.team, .captain⟩
        rw [hResJ, hteam]
      · refine Or.inr ?_
        rcases c0 with ic | jc
        · show (σ'.pproc ic).res = some ⟨r0.team, .captain⟩
          rw [hPproc]
          exact hres
        · by_cases hcj : jc = j
          · subst hcj
            exfalso
            have hresF : (σ.gproc jc).res = some ⟨r0.team, .captain⟩ := hres
            rw [hpc] at hresF
            simp [GPC.res] at hresF
          · show (σ'.gproc jc).res = some ⟨r0.team, .captain⟩
            rw [hResO jc hcj]
            exact hres
  · intro i' hi' r0 hr0
    rw [hPproc] at hr0
    have hold := h.resIdP i' hi' r0 hr0
    refine ⟨fun hl => ⟨(hold.1 hl).1, by rw [hPproc]; exact (hold.1 hl).2⟩, hold.2⟩
  · intro j' hj' r0 hr0
    by_cases hjj : j' = j
    · subst hjj
      rw [hResJ] at hr0
      injection hr0 with hv
      constructor
      · intro hl
        rw [← hv] at hl
        simp at hl
      · intro _
        rw [← hv]
        simpa using hTid12
    · rw [hResO j' hjj] at hr0
      have hold := h.resIdG j' hj' r0 hr0
      refine ⟨fun hl => ⟨(hold.1 hl).1, ?_⟩, hold.2⟩
      rw [hgp]
      simp [hjj]
      exact (hold.1 hl).2
  · intro i' hi'
    rw [hPh, hPproc]
    exact h.histP i' hi'
  · intro j' hj'
    rw [hGh, hgp]
    by_cases hjj : j' = j
    · subst hjj
      simp [h.histG j' hj', hpc, hpcNew, histOfG, roleBase]
    · simp [hjj, h.histG j' hj']
  · intro i' hi'
    rw [hPproc, hPh]
    exact h.oobP i' hi'
  · intro j' hj'
    have hold := h.oobG j' hj'
    have hne : j' ≠ j := fun hh => hj' (hh ▸ hj)
    constructor
    · rw [hgp]
      simp [hne]
      exact hold.1
    · rw [hGh]
      exact hold.2

/-- Preservation for a goalie recruit's wake-up: consume one
recruitment credit from the goaliesWaitTeam semaphore. -/
lemma inv_gRecWake (cfg : SysCfg) (σ : Sys) (j : Nat) (c : Agent) (h : Inv cfg σ)
    (hj : j < cfg.ng) (hpc : σ.gproc j = .recWait)
    (hc : c ∈ σ.sems.goaliesWaitTeam) :
    Inv cfg ((σ.mapSems fun sm =>
        { sm with goaliesWaitTeam := sm.goaliesWaitTeam.erase c }).withG
      j (.recRead c)) := by
  have hOwnC : gOwner cfg σ c := h.ghostWg c hc
  have hActC : activeCapAgent cfg σ c := Or.inr hOwnC
  have hlen := List.length_erase_of_mem hc
  have hpos : 0 < σ.sems.goaliesWaitTeam.length := List.length_pos_of_mem hc
  set pcNew : GPC := .recRead c with hpcNew
  set σ' := ((σ.mapSems fun sm =>
      { sm with goaliesWaitTeam := sm.goaliesWaitTeam.erase c }).withG
    j pcNew) with hσ'
  have hgp : σ'.gproc = fun n => if n = j then pcNew else σ.gproc n := by
    funext n
    simp [hσ']
  have hPproc : σ'.pproc = σ.pproc := by simp [hσ']
  have hWp' : σ'.sems.playersWaitTeam = σ.sems.playersWaitTeam := by simp [hσ']
  have hWg' : σ'.sems.goaliesWaitTeam = σ.sems.goaliesWaitTeam.erase c := by
    simp [hσ']
  have hReg' : σ'.sems.playerRegistered = σ.sems.playerRegistered := by simp [hσ']
  have hMu' : σ'.sems.mutex = σ.sems.mutex := by simp [hσ']
  have hsameG : ∀ fc : GPC → Bool, fc (σ.gproc j) = fc pcNew →
      gCount cfg σ' fc = gCount cfg σ fc :=
    fun fc hv => gCount_same cfg σ σ' j pcNew fc hj hgp hv
  have hpcC : ∀ fc : PPC → Bool, pCount cfg σ' fc = pCount cfg σ fc :=
    fun fc => pCount_frame cfg σ σ' fc hPproc
  have hAct : activeCaps cfg σ' = activeCaps cfg σ := by
    unfold activeCaps
    rw [hpcC, hsameG _ (by rw [hpc, hpcNew]; rfl)]
  have hTf : teamsFormed cfg σ' = teamsFormed cfg σ := by
    unfold teamsFormed
    rw [hpcC, hsameG _ (by rw [hpc, hpcNew]; rfl)]
  have hCons : consPlayers cfg σ' = consPlayers cfg σ := by
    unfold consPlayers
    rw [hpcC, hsameG _ (by rw [hpc, hpcNew]; rfl)]
  have hMidP : midP cfg σ' = midP cfg σ := by unfold midP; rw [hpcC]
  have hMidI : midG cfg σ' = midG cfg σ + 1 := by
    unfold midG
    rw [gCount_incr cfg σ σ' j pcNew _ hj hgp (by rw [hpc]; rfl)
      (by rw [hpcNew]; rfl)]
  have hEntP : enteredP cfg σ' = enteredP cfg σ := by unfold enteredP; rw [hpcC]
  have hEntG : enteredG cfg σ' = enteredG cfg σ := by
    unfold enteredG
    rw [hsameG _ (by rw [hpc, hpcNew]; rfl)]
  have hNlP : nonLateP cfg σ' = nonLateP cfg σ := by unfold nonLateP; rw [hpcC]
  have hNlG : nonLateG cfg σ' = nonLateG cfg σ := by
    unfold nonLateG
    rw [hsameG _ (by rw [hpc, hpcNew]; rfl)]
  have hgcw : ∀ n, n < cfg.ng → (σ'.gproc n).isCapWait = (σ.gproc n).isCapWait := by
    intro n _
    rw [hgp]
    by_cases hn : n = j
    · subst hn; simp [hpc, hpcNew, GPC.isCapWait]
    · simp [hn]
  have hPO := pOwner_congr cfg σ σ' (fun _ _ => by rw [hPproc]) hgcw
  have hGO := gOwner_congr cfg σ σ' (fun _ _ => by rw [hPproc])
  have hACA := activeCapAgent_congr cfg σ σ' (fun _ _ => by rw [hPproc])
    (fun _ _ => by rw [hPproc]) hgcw
  have hResG : ∀ n, (σ'.gproc n).res = (σ.gproc n).res := by
    intro n
    rw [hgp]
    by_cases hnn : n = j
    · subst hnn; simp [hpc, hpcNew, GPC.res]
    · simp [hnn]
  have hRO := resOf_congr σ σ' (fun n => by rw [hPproc]) hResG
  have hFSt : σ'.fSt = σ.fSt := by simp [hσ']
  have hPh : σ'.phist = σ.phist := by simp [hσ']
  have hGh : σ'.ghist = σ.ghist := by simp [hσ']
  refine ⟨?_, ?_, ?_, ?_, ?_, ?_, ?_, ?_, ?_, ?_, ?_, ?_, ?_, ?_, ?_, ?_, ?_, ?_,
    ?_, ?_, ?_, ?_, ?_, ?_, ?_, ?_, ?_⟩
  · rw [hMu', hAct]
    exact h.mutexCap
  · rw [hFSt, hEntP]
    exact h.arrP
  · rw [hFSt, hEntG]
    exact h.arrG
  · rw [hNlP, hEntP]
    exact h.nlP
  · rw [hNlG, hEntG]
    exact h.nlG
  · rw [hFSt, hCons, hNlP]
    exact h.freeP
  · rw [hFSt]
    exact h.freePpos
  · intro c0 hc0
    rw [hFSt]
    exact h.cfP c0 ((hPO c0).1 hc0)
  · rw [hFSt, hTf]
    exact h.teamIdEq
  · intro hz
    rw [hAct] at hz
    exfalso
    have hq := (h.quiet hz).2.1
    rw [hq] at hc
    exact absurd hc (List.not_mem_nil c)
  · intro i' hi' k' hk'
    rw [hPproc] at hk'
    obtain ⟨_, _, _, hb4, _⟩ := h.balP i' hi' k' hk'
    exfalso
    rw [hb4] at hc
    exact absurd hc (List.not_mem_nil c)
  · intro i' hi' hk'
    rw [hPproc] at hk'
    obtain ⟨hb1, hb2, hb3⟩ := h.balPG i' hi' hk'
    refine ⟨by rw [hWp']; exact hb1, by rw [hMidP]; exact hb2, ?_⟩
    rw [hWg', hReg', hMidI]
    omega
  · intro j' hj' k' hk'
    rw [hgp] at hk'
    by_cases hjj : j' = j
    · subst hjj
      simp [hpcNew] at hk'
    · simp [hjj] at hk'
      obtain ⟨_, _, _, hb4, _⟩ := h.balG j' hj' k' hk'
      exfalso
      rw [hb4] at hc
      exact absurd hc (List.not_mem_nil c)
  · intro c0 hc0
    rw [hWp'] at hc0
    exact (hPO c0).2 (h.ghostWp c0 hc0)
  · intro c0 hc0
    rw [hWg'] at hc0
    exact (hGO c0).2 (h.ghostWg c0 (List.mem_of_mem_erase hc0))
  · intro i' hi' c0 hc0
    rw [hPproc] at hc0
    exact (hPO c0).2 (h.ghostMidP i' hi' c0 hc0)
  · intro j' hj' c0 hc0
    rw [hgp] at hc0
    by_cases hjj : j' = j
    · subst hjj
      simp [hpcNew] at hc0
      subst hc0
      exact (hGO c).2 hOwnC
    · simp [hjj] at hc0
      exact (hGO c0).2 (h.ghostMidG j' hj' c0 hc0)
  · intro i' hi' c0 t0 ht0
    rw [hPproc] at ht0
    rw [hFSt]
    exact h.readP i' hi' c0 t0 ht0
  · intro j' hj' c0 t0 ht0
    rw [hgp] at ht0
    by_cases hjj : j' = j
    · subst hjj
      simp [hpcNew] at ht0
    · simp [hjj] at ht0
      rw [hFSt]
      exact h.readG j' hj' c0 t0 ht0
  · intro i' hi' r0 hr0 c0 hc0
    rw [hPproc] at hr0
    rcases h.recLinkP i' hi' r0 hr0 c0 hc0 with ⟨ha, hteam⟩ | hres
    · exact Or.inl ⟨(hACA c0).2 ha, by rw [hFSt]; exact hteam⟩
    · exact Or.inr (by rw [hRO c0]; exact hres)
  · intro j' hj' r0 hr0 c0 hc0
    rw [hResG j'] at hr0
    rcases h.recLinkG j' hj' r0 hr0 c0 hc0 with ⟨ha, hteam⟩ | hres
    · exact Or.inl ⟨(hACA c0).2 ha, by rw [hFSt]; exact hteam⟩
    · exact Or.inr (by rw [hRO c0]; exact hres)
  · intro i' hi' r0 hr0
    rw [hPproc] at hr0
    have hold := h.resIdP i' hi' r0 hr0
    refine ⟨fun hl => ⟨(hold.1 hl).1, by rw [hPproc]; exact (hold.1 hl).2⟩, hold.2⟩
  · intro j' hj' r0 hr0
    have hold := h.resIdG j' hj' r0 (by rw [← hResG j']; exact hr0)
    refine ⟨fun hl => ?_, hold.2⟩
    by_cases hjj : j' = j
    · subst hjj
      rw [hResG j', hpc] at hr0
      simp [GPC.res] at hr0
    · refine ⟨(hold.1 hl).1, ?_⟩
      rw [hgp]
      simp [hjj]
      exact (hold.1 hl).2
  · intro i' hi'
    rw [hPh, hPproc]
    exact h.histP i' hi'
  · intro j' hj'
    rw [hGh, hgp]
    by_cases hjj : j' = j
    · subst hjj
      simp [h.histG j' hj', hpc, hpcNew, histOfG]
    · simp [hjj, h.histG j' hj']
  · intro i' hi'
    rw [hPproc, hPh]
    exact h.oobP i' hi'
  · intro j' hj'
    have hold := h.oobG j' hj'
    have hne : j' ≠ j := fun hh => hj' (hh ▸ hj)
    constructor
    · rw [hgp]
      simp [hne]
      exact hold.1
    · rw [hGh]
      exact hold.2

/-- Preservation for a goalie recruit's acknowledgment: signal
playerRegistered and return the team id read earlier. -/
lemma inv_gRecAckStep (cfg : SysCfg) (σ : Sys) (j : Nat) (c : Agent) (t : Int)
    (h : Inv cfg σ) (hn : 1 ≤ cfg.ntp) (hj : j < cfg.ng)
    (hpc : σ.gproc j = .recAck c t) :
    Inv cfg ((σ.mapSems fun sm =>
        { sm with playerRegistered := sm.playerRegistered + 1 }).withG
      j (.done ⟨t, .recruitOf c⟩)) := by
  have hOwnC : gOwner cfg σ c := h.ghostMidG j hj c (Or.inr ⟨t, hpc⟩)
  have hActC : activeCapAgent cfg σ c := Or.inr hOwnC
  have hT : t = σ.fSt.teamId := h.readG j hj c t hpc
  have hMidG1 : 1 ≤ midG cfg σ := by
    unfold midG gCount
    exact one_le_countB cfg.ng j σ.gproc GPC.isMid hj (by rw [hpc]; rfl)
  set pcNew : GPC := .done ⟨t, .recruitOf c⟩ with hpcNew
  set σ' := ((σ.mapSems fun sm =>
      { sm with playerRegistered := sm.playerRegistered + 1 }).withG
    j pcNew) with hσ'
  have hgp : σ'.gproc = fun n => if n = j then pcNew else σ.gproc n := by
    funext n
    simp [hσ']
  have hPproc : σ'.pproc = σ.pproc := by simp [hσ']
  have hWp' : σ'.sems.playersWaitTeam = σ.sems.playersWaitTeam := by simp [hσ']
  have hWg' : σ'.sems.goaliesWaitTeam = σ.sems.goaliesWaitTeam := by simp [hσ']
  have hReg' : σ'.sems.playerRegistered = σ.sems.playerRegistered + 1 := by
    simp [hσ']
  have hMu' : σ'.sems.mutex = σ.sems.mutex := by simp [hσ']
  have hsameG : ∀ fc : GPC → Bool, fc (σ.gproc j) = fc pcNew →
      gCount cfg σ' fc = gCount cfg σ fc :=
    fun fc hv => gCount_same cfg σ σ' j pcNew fc hj hgp hv
  have hpcC : ∀ fc : PPC → Bool, pCount cfg σ' fc = pCount cfg σ fc :=
    fun fc => pCount_frame cfg σ σ' fc hPproc
  have hAct : activeCaps cfg σ' = activeCaps cfg σ := by
    unfold activeCaps
    rw [hpcC, hsameG _ (by rw [hpc, hpcNew]; rfl)]
  have hTf : teamsFormed cfg σ' = teamsFormed cfg σ := by
    unfold teamsFormed
    rw [hpcC, hsameG _ (by rw [hpc, hpcNew]; rfl)]
  have hCons : consPlayers cfg σ' = consPlayers cfg σ := by
    unfold consPlayers
    rw [hpcC, hsameG _ (by rw [hpc, hpcNew]; rfl)]
  have hMidP : midP cfg σ' = midP cfg σ := by unfold midP; rw [hpcC]
  have hMidD : midG cfg σ' + 1 = midG cfg σ := by
    unfold midG
    exact gCount_decr cfg σ σ' j pcNew _ hj hgp (by rw [hpc]; rfl)
      (by rw [hpcNew]; rfl)
  have hEntP : enteredP cfg σ' = enteredP cfg σ := by unfold enteredP; rw [hpcC]
  have hEntG : enteredG cfg σ' = enteredG cfg σ := by
    unfold enteredG
    rw [hsameG _ (by rw [hpc, hpcNew]; rfl)]
  have hNlP : nonLateP cfg σ' = nonLateP cfg σ := by unfold nonLateP; rw [hpcC]
  have hNlG : nonLateG cfg σ' = nonLateG cfg σ := by
    unfold nonLateG
    rw [hsameG _ (by rw [hpc, hpcNew]; rfl)]
  have hgcw : ∀ n, n < cfg.ng → (σ'.gproc n).isCapWait = (σ.gproc n).isCapWait := by
    intro n _
    rw [hgp]
    by_cases hnn : n = j
    · subst hnn; simp [hpc, hpcNew, GPC.isCapWait]
    · simp [hnn]
  have hPO := pOwner_congr cfg σ σ' (fun _ _ => by rw [hPproc]) hgcw
  have hGO := gOwner_congr cfg σ σ' (fun _ _ => by rw [hPproc])
  have hACA := activeCapAgent_congr cfg σ σ' (fun _ _ => by rw [hPproc])
    (fun _ _ => by rw [hPproc]) hgcw
  have hResJ : (σ'.gproc j).res = some ⟨t, .recruitOf c⟩ := by
    rw [hgp]
    simp [hpcNew, GPC.res]
  have hResO : ∀ n, n ≠ j → (σ'.gproc n).res = (σ.gproc n).res := by
    intro n hnn
    rw [hgp]
    simp [hnn]
  have hFSt : σ'.fSt = σ.fSt := by simp [hσ']
  have hPh : σ'.phist = σ.phist := by simp [hσ']
  have hGh : σ'.ghist = σ.ghist := by simp [hσ']
  refine ⟨?_, ?_, ?_, ?_, ?_, ?_, ?_, ?_, ?_, ?_, ?_, ?_, ?_, ?_, ?_, ?_, ?_, ?_,
    ?_, ?_, ?_, ?_, ?_, ?_, ?_, ?_, ?_⟩
  · rw [hMu', hAct]
    exact h.mutexCap
  · rw [hFSt, hEntP]
    exact h.arrP
  · rw [hFSt, hEntG]
    exact h.arrG
  · rw [hNlP, hEntP]
    exact h.nlP
  · rw [hNlG, hEntG]
    exact h.nlG
  · rw [hFSt, hCons, hNlP]
    exact h.freeP
  · rw [hFSt]
    exact h.freePpos
  · intro c0 hc0
    rw [hFSt]
    exact h.cfP c0 ((hPO c0).1 hc0)
  · rw [hFSt, hTf]
    exact h.teamIdEq
  · intro hz
    rw [hAct] at hz
    exfalso
    have := one_le_activeCaps_of cfg σ _ hActC
    omega
  · intro i' hi' k' hk'
    rw [hPproc] at hk'
    obtain ⟨_, _, _, _, hb5⟩ := h.balP i' hi' k' hk'
    exfalso
    omega
  · intro i' hi' hk'
    rw [hPproc] at hk'
    obtain ⟨hb1, hb2, hb3⟩ := h.balPG i' hi' hk'
    refine ⟨by rw [hWp']; exact hb1, by rw [hMidP]; exact hb2, ?_⟩
    rw [hWg', hReg']
    omega
  · intro j' hj' k' hk'
    rw [hgp] at hk'
    by_cases hjj : j' = j
    · subst hjj
      simp [hpcNew] at hk'
    · simp [hjj] at hk'
      obtain ⟨_, _, _, _, hb5⟩ := h.balG j' hj' k' hk'
      exfalso
      omega
  · intro c0 hc0
    rw [hWp'] at hc0
    exact (hPO c0).2 (h.ghostWp c0 hc0)
  · intro c0 hc0
    rw [hWg'] at hc0
    exact (hGO c0).2 (h.ghostWg c0 hc0)
  · intro i' hi' c0 hc0
    rw [hPproc] at hc0
    exact (hPO c0).2 (h.ghostMidP i' hi' c0 hc0)
  · intro j' hj' c0 hc0
    rw [hgp] at hc0
    by_cases hjj : j' = j
    · subst hjj
      simp [hpcNew] at hc0
    · simp [hjj] at hc0
      exact (hGO c0).2 (h.ghostMidG j' hj' c0 hc0)
  · intro i' hi' c0 t0 ht0
    rw [hPproc] at ht0
    rw [hFSt]
    exact h.readP i' hi' c0 t0 ht0
  · intro j' hj' c0 t0 ht0
    rw [hgp] at ht0
    by_cases hjj : j' = j
    · subst hjj
      simp [hpcNew] at ht0
    · simp [hjj] at ht0
      rw [hFSt]
      exact h.readG j' hj' c0 t0 ht0
  · intro i' hi' r0 hr0 c0 hc0
    rw [hPproc] at hr0
    rcases h.recLinkP i' hi' r0 hr0 c0 hc0 with ⟨ha, hteam⟩ | hres
    · exact Or.inl ⟨(hACA c0).2 ha, by rw [hFSt]; exact hteam⟩
    · refine Or.inr ?_
      rcases c0 with ic | jc
      · show (σ'.pproc ic).res = some ⟨r0.team, .captain⟩
        rw [hPproc]
        exact hres
      · by_cases hcj : jc = j
        · subst hcj
          exfalso
          have hresF : (σ.gproc jc).res = some ⟨r0.team, .captain⟩ := hres
          rw [hpc] at hresF
          simp [GPC.res] at hresF
        · show (σ'.gproc jc).res = some ⟨r0.team, .captain⟩
          rw [hResO jc hcj]
          exact hres
  · intro j' hj' r0 hr0 c0 hc0
    by_cases hjj : j' = j
    · subst hjj
      rw [hResJ] at hr0
      injection hr0 with hv
      rw [← hv] at hc0
      simp at hc0
      subst hc0
      refine Or.inl ⟨(hACA c).2 hActC, ?_⟩
      rw [← hv, hFSt]
      simpa using hT
    · rw [hResO j' hjj] at hr0
      rcases h.recLinkG j' hj' r0 hr0 c0 hc0 with ⟨ha, hteam⟩ | hres
      · exact Or.inl ⟨(hACA c0).2 ha, by rw [hFSt]; exact hteam⟩
      · refine Or.inr ?_
        rcases c0 with ic | jc
        · show (σ'.pproc ic).res = some ⟨r0.team, .captain⟩
          rw [hPproc]
          exact hres
        · by_cases hcj : jc = j
          · subst hcj
            exfalso
            have hresF : (σ.gproc jc).res = some ⟨r0.team, .captain⟩ := hres
            rw [hpc] at hresF
            simp [GPC.res] at hresF
          · show (σ'.gproc jc).res = some ⟨r0.team, .captain⟩
            rw [hResO jc hcj]
            exact hres
  · intro i' hi' r0 hr0
    rw [hPproc] at hr0
    have hold := h.resIdP i' hi' r0 hr0
    refine ⟨fun hl => ⟨(hold.1 hl).1, by rw [hPproc]; exact (hold.1 hl).2⟩, hold.2⟩
  · intro j' hj' r0 hr0
    by_cases hjj : j' = j
    · subst hjj
      rw [hResJ] at hr0
      injection hr0 with hv
      constructor
      · intro hl
        rw [← hv] at hl
        simp at hl
      · intro _
        rw [← hv]
        have h12 := activeCap_teamId cfg σ h hn c hActC
        simpa [hT] using h12
    · rw [hResO j' hjj] at hr0
      have hold := h.resIdG j' hj' r0 hr0
      refine ⟨fun hl => ⟨(hold.1 hl).1, ?_⟩, hold.2⟩
      rw [hgp]
      simp [hjj]
      exact (hold.1 hl).2
  · intro i' hi'
    rw [hPh, hPproc]
    exact h.histP i' hi'
  · intro j' hj'
    rw [hGh, hgp]
    by_cases hjj : j' = j
    · subst hjj
      simp [h.histG j' hj', hpc, hpcNew, histOfG, roleBase]
    · simp [hjj, h.histG j' hj']
  · intro i' hi'
    rw [hPproc, hPh]
    exact h.oobP i' hi'
  · intro j' hj'
    have hold := h.oobG j' hj'
    have hne : j' ≠ j := fun hh => hj' (hh ▸ hj)
    constructor
    · rw [hgp]
      simp [hne]
      exact hold.1
    · rw [hGh]
      exact hold.2

/-- The invariant is preserved by every interleaving step (for
configurations with at least one player per team). -/
lemma inv_preserved (cfg : SysCfg) (σ σ' : Sys) (hn : 1 ≤ cfg.ntp)
    (h : Inv cfg σ) (hs : Step cfg σ σ') : Inv cfg σ' := by
  cases hs with
  | pArrive i hi hpc hm =>
      exact inv_pStep0 cfg σ i .arrived (some .arriving) (fun sm => sm) h hi
        (by rw [hpc]; rfl) rfl (by rw [hpc]; rfl) rfl (by rw [hpc]; rfl) rfl
        (by rw [hpc]; rfl) (by rw [hpc]; rfl)
        (fun c hc => by rcases hc with hc | ⟨t, hc⟩ <;> simp at hc)
        (fun c t hc => by simp at hc)
        (by rw [hpc]; simp [histOfP]) rfl rfl rfl rfl
  | pLate i hi hpc hm hlate =>
      exact inv_pLate cfg σ i h hi hpc hm hlate
  | pRecruitEnter i hi hpc hm hok hfull =>
      exact inv_pRecruitEnter cfg σ i h hi hpc hm hok
  | pCapEnterLoop i hi hpc hm hok hcap hn2 =>
      exact inv_pCapEnterLoop cfg σ i h hi hpc hm hok hcap hn2
  | pCapEnterSkip i hi hpc hm hok hcap hn1 =>
      exact inv_pCapEnterSkip cfg σ i h hi hpc hm hok hcap hn1
  | pCapNext i hi k hpc hack hk =>
      exact inv_pCapNext cfg σ i k h hi hpc hack hk
  | pCapToGoalie i hi k hpc hack hk =>
      exact inv_pCapToGoalie cfg σ i k h hi hpc hack
  | pCapFinish i hi hpc hack =>
      exact inv_pCapFinish cfg σ i h hn hi hpc hack
  | pRecWake i hi c hpc hc =>
      exact inv_pRecWake cfg σ i c h hi hpc hc
  | pRecReadStep i hi c hpc =>
      exact inv_pStep0 cfg σ i (.recAck c σ.fSt.teamId) none (fun sm => sm) h hi
        (by rw [hpc]; rfl) rfl (by rw [hpc]; rfl) rfl (by rw [hpc]; rfl) rfl
        (by rw [hpc]; rfl) (by rw [hpc]; rfl)
        (fun c0 hc0 => by
          rcases hc0 with hc0 | ⟨t0, hc0⟩
          · simp at hc0
          · injection hc0 with h1 h2
            exact Or.inl (by rw [hpc, h1]))
        (fun c0 t0 hc0 => by injection hc0 with h1 h2; exact h2.symm)
        (by rw [hpc]; simp [histOfP]) rfl rfl rfl rfl
  | pRecAckStep i hi c t hpc =>
      exact inv_pRecAckStep cfg σ i c t h hn hi hpc
  | pGate i hi r hpc ht hm =>
      have hold := h.resIdP i hi r (by rw [hpc]; rfl)
      have hnl : r.role ≠ .late := fun hrl => ht ((hold.1 hrl).1)
      have ht12 := hold.2 hnl
      exact inv_pMove cfg σ i r (.waitStart r) (wsStatusOf r.team) (fun sm => sm)
        h hi (by rw [hpc]; rfl) rfl hnl
        (by rcases ht12 with h1 | h1 <;> simp [hpc, histOfP, wsStatusOf, wsOf, h1])
        rfl rfl rfl rfl
  | pStartRelease i hi r hpc hs =>
      have hold := h.resIdP i hi r (by rw [hpc]; rfl)
      have hnl : r.role ≠ .late := by
        intro hrl
        have h2 := (hold.1 hrl).2
        rw [hpc] at h2
        simp at h2
      exact inv_pMove cfg σ i r (.gateOpen r) none
        (fun sm => { sm with playersWaitReferee := sm.playersWaitReferee - 1 })
        h hi (by rw [hpc]; rfl) rfl hnl (by simp [hpc, histOfP]) rfl rfl rfl rfl
  | pPlay i hi r hpc hm =>
      have hold := h.resIdP i hi r (by rw [hpc]; rfl)
      have hnl : r.role ≠ .late := by
        intro hrl
        have h2 := (hold.1 hrl).2
        rw [hpc] at h2
        simp at h2
      have ht12 := hold.2 hnl
      exact inv_pMove cfg σ i r (.playWait r) (playingStatusOf r.team)
        (fun sm => { sm with playing := sm.playing + 1 })
        h hi (by rw [hpc]; rfl) rfl hnl
        (by rcases ht12 with h1 | h1 <;>
          simp [hpc, histOfP, playingStatusOf, playOf, h1])
        rfl rfl rfl rfl
  | pEndRelease i hi r hpc hs =>
      have hold := h.resIdP i hi r (by rw [hpc]; rfl)
      have hnl : r.role ≠ .late := by
        intro hrl
        have h2 := (hold.1 hrl).2
        rw [hpc] at h2
        simp at h2
      exact inv_pMove cfg σ i r (.term r) none
        (fun sm => { sm with playersWaitEnd := sm.playersWaitEnd - 1 })
        h hi (by rw [hpc]; rfl) rfl hnl (by simp [hpc, histOfP]) rfl rfl rfl rfl
  | gArrive j hj hpc hm =>
      exact inv_gStep0 cfg σ j .arrived (some .arriving) (fun sm => sm) h hj
        (by rw [hpc]; rfl) rfl (by rw [hpc]; rfl) rfl
        (by rw [hpc]; rfl) (by rw [hpc]; rfl)
        (fun c hc => by rcases hc with hc | ⟨t, hc⟩ <;> simp at hc)
        (fun c t hc => by simp at hc)
        (by rw [hpc]; simp [histOfG]) rfl rfl rfl rfl
  | gLate j hj hpc hm hlate =>
      exact inv_gLate cfg σ j h hj hpc hm hlate
  | gRecruitEnter j hj hpc hm hok hfull =>
      exact inv_gRecruitEnter cfg σ j h hj hpc hm hok
  | gCapEnter j hj hpc hm hok hcap hn1 =>
      exact inv_gCapEnter cfg σ j h hj hpc hm hok hcap hn1
  | gCapNext j hj k hpc hack hk =>
      exact inv_gCapNext cfg σ j k h hj hpc hack hk
  | gCapFinish j hj k hpc hack hk =>
      exact inv_gCapFinish cfg σ j k h hn hj hpc hack hk
  | gRecWake j hj c hpc hc =>
      exact inv_gRecWake cfg σ j c h hj hpc hc
  | gRecReadStep j hj c hpc =>
      exact inv_gStep0 cfg σ j (.recAck c σ.fSt.teamId) none (fun sm => sm) h hj
        (by rw [hpc]; rfl) rfl (by rw [hpc]; rfl) rfl
        (by rw [hpc]; rfl) (by rw [hpc]; rfl)
        (fun c0 hc0 => by
          rcases hc0 with hc0 | ⟨t0, hc0⟩
          · simp at hc0
          · injection hc0 with h1 h2
            exact Or.inl (by rw [hpc, h1]))
        (fun c0 t0 hc0 => by injection hc0 with h1 h2; exact h2.symm)
        (by rw [hpc]; simp [histOfG]) rfl rfl rfl rfl
  | gRecAckStep j hj c t hpc =>
      exact inv_gRecAckStep cfg σ j c t h hn hj hpc
  | gGate j hj r hpc ht hm =>
      have hold := h.resIdG j hj r (by rw [hpc]; rfl)
      have hnl : r.role ≠ .late := fun hrl => ht ((hold.1 hrl).1)
      have ht12 := hold.2 hnl
      exact inv_gMove cfg σ j r (.waitStart r) (wsStatusOf r.team) (fun sm => sm)
        h hj (by rw [hpc]; rfl) rfl hnl
        (by rcases ht12 with h1 | h1 <;> simp [hpc, histOfG, wsStatusOf, wsOf, h1])
        rfl rfl rfl rfl
  | gStartRelease j hj r hpc hs =>
      have hold := h.resIdG j hj r (by rw [hpc]; rfl)
      have hnl : r.role ≠ .late := by
        intro hrl
        have h2 := (hold.1 hrl).2
        rw [hpc] at h2
        simp at h2
      exact inv_gMove cfg σ j r (.gateOpen r) none
        (fun sm => { sm with playersWaitReferee := sm.playersWaitReferee - 1 })
        h hj (by rw [hpc]; rfl) rfl hnl (by simp [hpc, histOfG]) rfl rfl rfl rfl
  | gPlay j hj r hpc hm =>
      have hold := h.resIdG j hj r (by rw [hpc]; rfl)
      have hnl : r.role ≠ .late := by
        intro hrl
        have h2 := (hold.1 hrl).2
        rw [hpc] at h2
        simp at h2
      have ht12 := hold.2 hnl
      exact inv_gMove cfg σ j r (.playWait r) (playingStatusOf r.team)
        (fun sm => { sm with playing := sm.playing + 1 })
        h hj (by rw [hpc]; rfl) rfl hnl
        (by rcases ht12 with h1 | h1 <;>
          simp [hpc, histOfG, playingStatusOf, playOf, h1])
        rfl rfl rfl rfl
  | gEndRelease j hj r hpc hs =>
      have hold := h.resIdG j hj r (by rw [hpc]; rfl)
      have hnl : r.role ≠ .late := by
        intro hrl
        have h2 := (hold.1 hrl).2
        rw [hpc] at h2
        simp at h2
      exact inv_gMove cfg σ j r (.term r) none
        (fun sm => { sm with playersWaitEnd := sm.playersWaitEnd - 1 })
        h hj (by rw [hpc]; rfl) rfl hnl (by simp [hpc, histOfG]) rfl rfl rfl rfl
  | envStart =>
      exact inv_frame_sems cfg σ h _ rfl rfl rfl rfl
  | envEnd =>
      exact inv_frame_sems cfg σ h _ rfl rfl rfl rfl

/-- The invariant holds in every reachable state. -/
lemma reach_inv (cfg : SysCfg) (σ : Sys) (hn : 1 ≤ cfg.ntp) (hr : Reach cfg σ) :
    Inv cfg σ := by
  induction hr with
  | refl => exact inv_init cfg
  | tail hr hstep ih => exact inv_preserved cfg _ _ hn ih hstep

/-! ### Life-cycle sequences of status writes -/

/-- The five complete status-write sequences the life cycle allows: a
captain or a recruit proceeds Arriving, then FormingTeam or
WaitingTeam, then WaitingStart(team), then Playing(team) for its team
1 or 2; a late arrival stops after Late. -/
def lifecycles : List (List Status) :=
  [[.arriving, .formingTeam, .waitingStart1, .playing1],
   [.arriving, .formingTeam, .waitingStart2, .playing2],
   [.arriving, .waitingTeam, .waitingStart1, .playing1],
   [.arriving, .waitingTeam, .waitingStart2, .playing2],
   [.arriving, .late]]

/-- l is an initial segment of m. -/
def isInit : List Status → List Status → Bool
  | [], _ => true
  | _ :: _, [] => false
  | a :: l, b :: m => (a == b) && isInit l m

/-- The history l is an initial segment of an allowed life cycle. -/
def lifecycleOk (l : List Status) : Bool :=
  lifecycles.any fun m => isInit l m

/-! ### Claims C3, C4 and C7 over the concurrent semantics -/

/-- C3: in every reachable state, every recruit's returned team id
matches its releasing captain: either that captain is still in
formation and the recruit's id is the current (captain-reserved) team
id, or the captain has completed and returned exactly the same team
id; moreover a recruit that has read but not yet acknowledged holds
precisely the current team id (the value its captain most recently
assigned).  Concurrent formation never cross-assigns members. -/
theorem c3_recruit_id_matches_captain (cfg : SysCfg) (σ : Sys)
    (hn : 1 ≤ cfg.ntp) (hr : Reach cfg σ) :
    (∀ i, i < cfg.np → ∀ r, (σ.pproc i).res = some r →
      ∀ c, r.role = .recruitOf c →
      (activeCapAgent cfg σ c ∧ r.team = σ.fSt.teamId) ∨
        σ.resOf c = some ⟨r.team, .captain⟩) ∧
    (∀ j, j < cfg.ng → ∀ r, (σ.gproc j).res = some r →
      ∀ c, r.role = .recruitOf c →
      (activeCapAgent cfg σ c ∧ r.team = σ.fSt.teamId) ∨
        σ.resOf c = some ⟨r.team, .captain⟩) ∧
    (∀ i, i < cfg.np → ∀ c t, σ.pproc i = .recAck c t → t = σ.fSt.teamId) ∧
    (∀ j, j < cfg.ng → ∀ c t, σ.gproc j = .recAck c t → t = σ.fSt.teamId) := by
  have h := reach_inv cfg σ hn hr
  exact ⟨h.recLinkP, h.recLinkG, h.readP, h.readG⟩

/-- C4: the team-id counter starts at 1 and always equals 1 plus the
number of formed teams, which never exceeds 2, so only the ids 1 and 2
are ever issued; the non-late population of each kind is capped at
2 * perTeam of its kind; every late result carries team id 0 and every
non-late result carries team id 1 or 2. -/
theorem c4_team_id_accounting (cfg : SysCfg) (σ : Sys)
    (hn : 1 ≤ cfg.ntp) (hr : Reach cfg σ) :
    initSys.fSt.teamId = 1 ∧
    σ.fSt.teamId = 1 + (teamsFormed cfg σ : Int) ∧
    teamsFormed cfg σ ≤ 2 ∧
    nonLateP cfg σ = min (enteredP cfg σ) (2 * cfg.ntp) ∧
    nonLateG cfg σ = min (enteredG cfg σ) (2 * cfg.ntg) ∧
    (∀ i, i < cfg.np → ∀ r, (σ.pproc i).res = some r →
      (r.role = .late → r.team = 0) ∧
      (r.role ≠ .late → r.team = 1 ∨ r.team = 2)) ∧
    (∀ j, j < cfg.ng → ∀ r, (σ.gproc j).res = some r →
      (r.role = .late → r.team = 0) ∧
      (r.role ≠ .late → r.team = 1 ∨ r.team = 2)) := by
  have h := reach_inv cfg σ hn hr
  refine ⟨rfl, h.teamIdEq, ?_, h.nlP, h.nlG, ?_, ?_⟩
  · exact le_trans (teamsFormed_le_consPlayers cfg σ) (consPlayers_le_two cfg σ h hn)
  · intro i hi r hres
    have hold := h.resIdP i hi r hres
    exact ⟨fun hl => (hold.1 hl).1, hold.2⟩
  · intro j hj r hres
    have hold := h.resIdG j hj r hres
    exact ⟨fun hl => (hold.1 hl).1, hold.2⟩

/-- The allowed histories, as closed facts about lifecycleOk. -/
lemma lcOk_nil : lifecycleOk [] = true := by decide

lemma lcOk_arr : lifecycleOk [.arriving] = true := by decide

lemma lcOk_form : lifecycleOk [.arriving, .formingTeam] = true := by decide

lemma lcOk_waitT : lifecycleOk [.arriving, .waitingTeam] = true := by decide

lemma lcOk_late : lifecycleOk [.arriving, .late] = true := by decide

lemma lcOk_fw1 : lifecycleOk [.arriving, .formingTeam, .waitingStart1] = true := by
  decide

lemma lcOk_fw2 : lifecycleOk [.arriving, .formingTeam, .waitingStart2] = true := by
  decide

lemma lcOk_ww1 : lifecycleOk [.arriving, .waitingTeam, .waitingStart1] = true := by
  decide

lemma lcOk_ww2 : lifecycleOk [.arriving, .waitingTeam, .waitingStart2] = true := by
  decide

lemma lcOk_fwp1 :
    lifecycleOk [.arriving, .formingTeam, .waitingStart1, .playing1] = true := by
  decide

lemma lcOk_fwp2 :
    lifecycleOk [.arriving, .formingTeam, .waitingStart2, .playing2] = true := by
  decide

lemma lcOk_wwp1 :
    lifecycleOk [.arriving, .waitingTeam, .waitingStart1, .playing1] = true := by
  decide

lemma lcOk_wwp2 :
    lifecycleOk [.arriving, .waitingTeam, .waitingStart2, .playing2] = true := by
  decide

/-- The formation-phase history of any role is allowed. -/
lemma lcOk_roleBase (role : Role) : lifecycleOk (roleBase role) = true := by
  rcases role with _ | c | _
  · exact lcOk_form
  · exact lcOk_waitT
  · exact lcOk_late

/-- The post-formation histories of a non-late role with a team in
{1, 2} are allowed. -/
lemma lcOk_roleStep (role : Role) (hnl : role ≠ .late) (team : Int)
    (ht : team = 1 ∨ team = 2) :
    lifecycleOk (roleBase role ++ [wsOf team]) = true ∧
    lifecycleOk (roleBase role ++ [wsOf team, playOf team]) = true := by
  rcases role with _ | c | _
  · rcases ht with h1 | h1
    · subst h1; exact ⟨lcOk_fw1, lcOk_fwp1⟩
    · subst h1; exact ⟨lcOk_fw2, lcOk_fwp2⟩
  · rcases ht with h1 | h1
    · subst h1; exact ⟨lcOk_ww1, lcOk_wwp1⟩
    · subst h1; exact ⟨lcOk_ww2, lcOk_wwp2⟩
  · exact absurd rfl hnl

/-- C7: in every reachable state, every actor's status-write history is
an initial segment of an allowed monotone life cycle: Arriving, then
FormingTeam or WaitingTeam, then WaitingStart(team) and Playing(team)
for its team 1 or 2 — or Arriving then Late with the rest skipped.  In
particular no status is ever revisited within one life cycle. -/
theorem c7_lifecycle_histories (cfg : SysCfg) (σ : Sys)
    (hn : 1 ≤ cfg.ntp) (hr : Reach cfg σ) :
    (∀ i, lifecycleOk (σ.phist i) = true) ∧
    (∀ j, lifecycleOk (σ.ghist j) = true) := by
  have h := reach_inv cfg σ hn hr
  constructor
  · intro i
    by_cases hi : i < cfg.np
    · rw [h.histP i hi]
      rcases hpc : σ.pproc i with _ | _ | k | _ | _ | c | ⟨c, t⟩ | r | r | r | r | r
      · exact lcOk_nil
      · exact lcOk_arr
      · exact lcOk_form
      · exact lcOk_form
      · exact lcOk_waitT
      · exact lcOk_waitT
      · exact lcOk_waitT
      · exact lcOk_roleBase r.role
      · have hold := h.resIdP i hi r (by rw [hpc]; rfl)
        have hnl : r.role ≠ .late := by
          intro hrl
          have h2 := (hold.1 hrl).2
          rw [hpc] at h2
          simp at h2
        exact (lcOk_roleStep r.role hnl r.team (hold.2 hnl)).1
      · have hold := h.resIdP i hi r (by rw [hpc]; rfl)
        have hnl : r.role ≠ .late := by
          intro hrl
          have h2 := (hold.1 hrl).2
          rw [hpc] at h2
          simp at h2
        exact (lcOk_roleStep r.role hnl r.team (hold.2 hnl)).1
      · have hold := h.resIdP i hi r (by rw [hpc]; rfl)
        have hnl : r.role ≠ .late := by
          intro hrl
          have h2 := (hold.1 hrl).2
          rw [hpc] at h2
          simp at h2
        exact (lcOk_roleStep r.role hnl r.team (hold.2 hnl)).2
      · have hold := h.resIdP i hi r (by rw [hpc]; rfl)
        have hnl : r.role ≠ .late := by
          intro hrl
          have h2 := (hold.1 hrl).2
          rw [hpc] at h2
          simp at h2
        exact (lcOk_roleStep r.role hnl r.team (hold.2 hnl)).2
    · rw [(h.oobP i hi).2]
      exact lcOk_nil
  · intro j
    by_cases hj : j < cfg.ng
    · rw [h.histG j hj]
      rcases hpc : σ.gproc j with _ | _ | k | _ | c | ⟨c, t⟩ | r | r | r | r | r
      · exact lcOk_nil
      · exact lcOk_arr
      · exact lcOk_form
      · exact lcOk_waitT
      · exact lcOk_waitT
      · exact lcOk_waitT
      · exact lcOk_roleBase r.role
      · have hold := h.resIdG j hj r (by rw [hpc]; rfl)
        have hnl : r.role ≠ .late := by
          intro hrl
          have h2 := (hold.1 hrl).2
          rw [hpc] at h2
          simp at h2
        exact (lcOk_roleStep r.role hnl r.team (hold.2 hnl)).1
      · have hold := h.resIdG j hj r (by rw [hpc]; rfl)
        have hnl : r.role ≠ .late := by
          intro hrl
          have h2 := (hold.1 hrl).2
          rw [hpc] at h2
          simp at h2
        exact (lcOk_roleStep r.role hnl r.team (hold.2 hnl)).1
      · have hold := h.resIdG j hj r (by rw [hpc]; rfl)
        have hnl : r.role ≠ .late := by
          intro hrl
          have h2 := (hold.1 hrl).2
          rw [hpc] at h2
          simp at h2
        exact (lcOk_roleStep r.role hnl r.team (hold.2 hnl)).2
      · have hold := h.resIdG j hj r (by rw [hpc]; rfl)
        have hnl : r.role ≠ .late := by
          intro hrl
          have h2 := (hold.1 hrl).2
          rw [hpc] at h2
          simp at h2
        exact (lcOk_roleStep r.role hnl r.team (hold.2 hnl)).2
    · rw [(h.oobG j hj).2]
      exact lcOk_nil

/-! ### A concrete reachable run (one player, one goalie, one team) -/

/-- Minimal configuration: one player and one goalie per team, one
process of each kind. -/
def cfgW : SysCfg := ⟨1, 1, 1, 1⟩

/-- After the goalie's arrive. -/
def σW1 : Sys := (initSys.writeG 0 .arriving).withG 0 .arrived

/-- The goalie takes the recruit branch and blocks on goaliesWaitTeam. -/
def σW2 : Sys :=
  ((σW1.mapFSt fun f => { f with goaliesArrived := f.goaliesArrived + 1,
                                 goaliesFree := f.goaliesFree + 1 }).writeG
    0 .waitingTeam).withG 0 .recWait

/-- After the player's arrive. -/
def σW3 : Sys := (σW2.writeP 0 .arriving).withP 0 .arrived

/-- The player becomes captain (NUMTEAMPLAYERS = 1), releases the
goalie credit, waits for its registration. -/
def σW4 : Sys :=
  (((σW3.mapFSt fun f =>
      { f with playersArrived := f.playersArrived + 1,
               playersFree := f.playersFree + 1 - (cfgW.ntp : Int) }).writeP
    0 .formingTeam).mapSems fun sm =>
      { sm with mutex := sm.mutex - 1,
                goaliesWaitTeam := Agent.player 0 :: sm.goaliesWaitTeam }).withP
  0 .capWaitG

/-- The goalie recruit wakes on the captain's credit. -/
def σW5 : Sys :=
  (σW4.mapSems fun sm =>
    { sm with goaliesWaitTeam := sm.goaliesWaitTeam.erase (Agent.player 0) }).withG
  0 (.recRead (.player 0))

/-- The goalie recruit reads the current team id 1. -/
def σW6 : Sys := σW5.withG 0 (.recAck (.player 0) 1)

/-- The goalie recruit acknowledges and returns team 1. -/
def σW7 : Sys :=
  (σW6.mapSems fun sm =>
    { sm with playerRegistered := sm.playerRegistered + 1 }).withG
  0 (.done ⟨1, .recruitOf (.player 0)⟩)

/-- The captain completes formation of team 1. -/
def sysStar : Sys :=
  (((σW7.mapFSt fun f =>
      { f with goaliesFree := f.goaliesFree - (cfgW.ntg : Int),
               teamId := f.teamId + 1 }).mapSems fun sm =>
        { sm with playerRegistered := sm.playerRegistered - 1,
                  mutex := sm.mutex + 1,
                  refereeWaitTeams := sm.refereeWaitTeams + 1 }).withP
    0 (.done ⟨1, .captain⟩))

/-- The eight-step run above is a reachable execution. -/
lemma reachStar : Reach cfgW sysStar := by
  have s1 : Step cfgW initSys σW1 := Step.gArrive initSys 0 (by decide) rfl (by decide)
  have s2 : Step cfgW σW1 σW2 :=
    Step.gRecruitEnter σW1 0 (by decide) rfl (by decide) (by decide) (by decide)
  have s3 : Step cfgW σW2 σW3 := Step.pArrive σW2 0 (by decide) rfl (by decide)
  have s4 : Step cfgW σW3 σW4 :=
    Step.pCapEnterSkip σW3 0 (by decide) rfl (by decide) (by decide) (by decide)
      (by decide)
  have s5 : Step cfgW σW4 σW5 :=
    Step.gRecWake σW4 0 (by decide) (.player 0) rfl (by decide)
  have s6 : Step cfgW σW5 σW6 :=
    Step.gRecReadStep σW5 0 (by decide) (.player 0) rfl
  have s7 : Step cfgW σW6 σW7 :=
    Step.gRecAckStep σW6 0 (by decide) (.player 0) 1 rfl
  have s8 : Step cfgW σW7 sysStar :=
    Step.pCapFinish σW7 0 (by decide) rfl (by decide)
  exact .tail (.tail (.tail (.tail (.tail (.tail (.tail (.tail .refl s1) s2) s3)
    s4) s5) s6) s7) s8

/-- Witness for C3 at the concrete run: the goalie recruit of the run
returned team 1, and indeed its captain (player 0) completed with
exactly team 1. -/
theorem c3_witness :
    (activeCapAgent cfgW sysStar (.player 0) ∧ (1 : Int) = sysStar.fSt.teamId) ∨
      sysStar.resOf (.player 0) = some ⟨1, .captain⟩ :=
  (c3_recruit_id_matches_captain cfgW sysStar (by decide) reachStar).2.1 0
    (by decide) ⟨1, .recruitOf (.player 0)⟩ (by decide) (.player 0) rfl

/-- Witness for C4 at the concrete run: after forming one team the
counter is 1 + 1 = 2 and at most two teams can ever form. -/
theorem c4_witness :
    sysStar.fSt.teamId = 1 + (teamsFormed cfgW sysStar : Int) ∧
    teamsFormed cfgW sysStar ≤ 2 :=
  ⟨(c4_team_id_accounting cfgW sysStar (by decide) reachStar).2.1,
   (c4_team_id_accounting cfgW sysStar (by decide) reachStar).2.2.1⟩

/-- Witness for C7 at the concrete run: both actors' histories are
initial segments of allowed life cycles. -/
theorem c7_witness :
    lifecycleOk (sysStar.phist 0) = true ∧
    lifecycleOk (sysStar.ghist 0) = true :=
  ⟨(c7_lifecycle_histories cfgW sysStar (by decide) reachStar).1 0,
   (c7_lifecycle_histories cfgW sysStar (by decide) reachStar).2 0⟩

end SoccerGame
